import Mathlib

/-!
# Udyam registration: validation library and registration service

A shallow embedding of `backend/utils/validators.js`, of the handlers of
`POST /api/register` and `GET /api/registrations` and the global error
handler of `backend/index.js`, and of the client functions
`filteredRegistrations`, `formatFieldValue` and `validateField` of
`frontend/src`, with the properties of the specification proved (or refuted)
over it.

JavaScript values are embedded as the inductive type `JSValue`; a string is a
sequence of Unicode scalar values (`String`), its `.length` is the number of
UTF-16 code units (`jsLength`).  What the language runtime and the third-party
libraries provide and is not written out here (Unicode case mapping outside
ASCII, the e-mail check of the `validator` package, `Date.parse`, the decimal
printing of a number) is collected in the structure `Platform`, and every
statement holds for every platform.
-/

namespace Udyam

/-! ## JavaScript values -/

/-- A JavaScript number: `NaN`, `-0`, the two infinities, or a finite value
(`fin 0` is `+0`). -/
inductive JSNumber
  | nan
  | negZero
  | inf (negative : Bool)
  | fin (q : ℚ)
  deriving DecidableEq

/-- A value that a parsed JSON body can hold, or `undefined` for a property
that is absent. -/
inductive JSValue
  | undefined
  | null
  | bool (b : Bool)
  | number (n : JSNumber)
  | string (s : String)
  | array (elems : List JSValue)
  | object (props : List (String × JSValue))

/-- An exception thrown while a handler runs.  `code` is the `code` property
that the catch block of the register handler inspects (absent on a
`TypeError`), `target` the first entry of `meta.target`. -/
structure JSError where
  name : String
  message : String
  code : Option String := none
  target : Option String := none
  deriving DecidableEq

/-- The runtime and library functions that are taken as given. -/
structure Platform where
  /-- JavaScript `String.prototype.toUpperCase` on a string with a non-ASCII character -/
  upperUnicode : String → String
  /-- JavaScript `String.prototype.toLowerCase` on a string with a non-ASCII character -/
  lowerUnicode : String → String
  /-- The library function `validator.isEmail` on a string -/
  isEmail : String → Bool
  /-- JavaScript `Date.parse`: the time value in milliseconds, `none` for `NaN` -/
  dateParse : String → Option Int
  /-- JavaScript `Number.prototype.toString()` (radix 10) -/
  numberToString : JSNumber → String

/-- JavaScript `ToBoolean` on a number: `0`, `-0` and `NaN` are falsy. -/
def JSNumber.truthy : JSNumber → Bool
  | .nan => false
  | .negZero => false
  | .inf _ => true
  | .fin q => decide (q ≠ 0)

/-- JavaScript `ToBoolean`: the falsy values are `undefined`, `null`, `false`, `0`, `-0`,
`NaN` and the empty string. -/
def JSValue.truthy : JSValue → Bool
  | .undefined => false
  | .null => false
  | .bool b => b
  | .number n => n.truthy
  | .string s => !s.data.isEmpty
  | .array _ => true
  | .object _ => true

/-- The operator `a || b`. -/
def JSValue.or (a b : JSValue) : JSValue := if a.truthy then a else b

/-- Whether a number is `0` or `-0`. -/
def JSNumber.isZero : JSNumber → Bool
  | .negZero => true
  | .fin q => decide (q = 0)
  | _ => false

/-- The operator `a === b` on numbers: `NaN` is equal to nothing, `0` and `-0`
are equal. -/
def JSNumber.strictEquals (a b : JSNumber) : Bool :=
  match a with
  | .nan => false
  | _ => a == b || (a.isZero && b.isZero)

/-- The operator `a === b`.  An array or an object is equal only to itself,
and two values that were read from different places are never the same
object. -/
def strictEquals : JSValue → JSValue → Bool
  | .undefined, .undefined => true
  | .null, .null => true
  | .bool a, .bool b => a == b
  | .number a, .number b => a.strictEquals b
  | .string a, .string b => a == b
  | _, _ => false

/-! ## Strings -/

/-- JavaScript `s.length`: the number of UTF-16 code units. -/
def jsLength (s : String) : Nat :=
  (s.data.map (fun c => if c.toNat < 0x10000 then 1 else 2)).sum

/-- The class `\s` of a regular expression, which is also what `trim` and
`parseFloat` skip: WhiteSpace and LineTerminator code points. -/
def isWhiteSpace (c : Char) : Bool :=
  let n := c.toNat
  n == 0x09 || n == 0x0A || n == 0x0B || n == 0x0C || n == 0x0D || n == 0x20 ||
  n == 0xA0 || n == 0x1680 || (0x2000 ≤ n && n ≤ 0x200A) || n == 0x2028 ||
  n == 0x2029 || n == 0x202F || n == 0x205F || n == 0x3000 || n == 0xFEFF

/-- The class `\d`, `[0-9]`. -/
def isDigit (c : Char) : Bool := 48 ≤ c.toNat && c.toNat ≤ 57

/-- The class `[A-Z]`. -/
def isUpperAZ (c : Char) : Bool := 65 ≤ c.toNat && c.toNat ≤ 90

/-- The class `[a-z]`. -/
def isLowerAZ (c : Char) : Bool := 97 ≤ c.toNat && c.toNat ≤ 122

/-- JavaScript `s.replace(/\s/g, '')`. -/
def removeWhitespace (s : String) : String :=
  ⟨s.data.filter (fun c => !isWhiteSpace c)⟩

/-- A regular expression `^C1{n1}C2{n2}...$` given by its runs: the subject
is, from its start to its end, `n1` characters of class `C1`, then `n2` of
class `C2`, and so on. -/
def matchRuns : List ((Char → Bool) × Nat) → List Char → Bool
  | [], cs => cs.isEmpty
  | (cls, n) :: rest, cs =>
    (cs.take n).length == n && (cs.take n).all cls && matchRuns rest (cs.drop n)

/-- The test `/^(\d)\1{11}$/.test(s)`: a digit followed by eleven copies of it. -/
def sameDigitTwelve (s : String) : Bool :=
  match s.data with
  | [] => false
  | d :: rest => isDigit d && rest.length == 11 && rest.all (fun c => c == d)

/-- The test `/^(0123456789|1234567890|9876543210)$/.test(s)`. -/
def sequentialPattern (s : String) : Bool :=
  s == "0123456789" || s == "1234567890" || s == "9876543210"

/-! ## Validators (`backend/utils/validators.js`) -/

/-- The result object `{ isValid, message, cleanValue? }` of a validator. -/
structure ValidationResult where
  isValid : Bool
  message : String
  cleanValue : Option JSValue := none

/-- The function `validateAadhaar` (validators.js, lines 9-39). -/
def validateAadhaar (aadhaar : JSValue) : ValidationResult :=
  if !aadhaar.truthy then
    { isValid := false, message := "Aadhaar number is required" }
  else
    match aadhaar with
    | .string s =>
      let cleanAadhaar := removeWhitespace s
      if jsLength cleanAadhaar != 12 then
        { isValid := false, message := "Aadhaar number must be exactly 12 digits" }
      else if !matchRuns [(isDigit, 12)] cleanAadhaar.data then
        { isValid := false, message := "Aadhaar number must contain only digits" }
      else if sameDigitTwelve cleanAadhaar then
        { isValid := false, message := "Invalid Aadhaar number pattern" }
      else if sequentialPattern cleanAadhaar then
        { isValid := false, message := "Invalid Aadhaar number pattern" }
      else
        { isValid := true, message := "Valid Aadhaar number",
          cleanValue := some (.string cleanAadhaar) }
    | _ => { isValid := false, message := "Aadhaar number must be a string" }

/-- JavaScript `s.toUpperCase()`: on an ASCII string the letters `a-z` become `A-Z`;
any other string is mapped by the platform. -/
def toUpperCase (P : Platform) (s : String) : String :=
  if s.data.all (fun c => c.toNat < 128) then ⟨s.data.map Char.toUpper⟩
  else P.upperUnicode s

/-- JavaScript `s.toLowerCase()`, see `toUpperCase`. -/
def toLowerCase (P : Platform) (s : String) : String :=
  if s.data.all (fun c => c.toNat < 128) then ⟨s.data.map Char.toLower⟩
  else P.lowerUnicode s

/-- JavaScript `s.trim()`. -/
def trim (s : String) : String :=
  ⟨((s.data.dropWhile isWhiteSpace).reverse.dropWhile isWhiteSpace).reverse⟩

/-- The `TypeError` of calling a method that the receiver does not have, as
in `(123).toUpperCase()`. -/
def notAFunction (callee : String) : JSError :=
  { name := "TypeError", message := callee ++ " is not a function" }

/-- The function `validatePAN` (validators.js, lines 46-63).  A truthy value that is not a
string has no `toUpperCase` method, and the call throws. -/
def validatePAN (P : Platform) (pan : JSValue) : Except JSError ValidationResult :=
  if !pan.truthy then
    .ok { isValid := false, message := "PAN number is required" }
  else
    match pan with
    | .string s =>
      let cleanPAN := removeWhitespace (toUpperCase P s)
      if jsLength cleanPAN != 10 then
        .ok { isValid := false, message := "PAN number must be exactly 10 characters" }
      else if !matchRuns [(isUpperAZ, 5), (isDigit, 4), (isUpperAZ, 1)] cleanPAN.data then
        .ok { isValid := false, message := "Invalid PAN number format (e.g., ABCDE1234F)" }
      else
        .ok { isValid := true, message := "Valid PAN number",
              cleanValue := some (.string cleanPAN) }
    | _ => .error (notAFunction "pan.toUpperCase")

/-- The class `[1-9A-Z]`. -/
def isGstinEntity (c : Char) : Bool := (49 ≤ c.toNat && c.toNat ≤ 57) || isUpperAZ c

/-- The class `[Z]`. -/
def isLetterZ (c : Char) : Bool := c.toNat == 90

/-- The classes `[0-9A-Z]` and `[A-Z0-9]`. -/
def isDigitOrUpper (c : Char) : Bool := isDigit c || isUpperAZ c

/-- The function `validateGSTIN` (validators.js, lines 70-87). -/
def validateGSTIN (P : Platform) (gstin : JSValue) : Except JSError ValidationResult :=
  if !gstin.truthy then
    .ok { isValid := true, message := "GSTIN is optional" }
  else
    match gstin with
    | .string s =>
      let cleanGSTIN := removeWhitespace (toUpperCase P s)
      if jsLength cleanGSTIN != 15 then
        .ok { isValid := false, message := "GSTIN must be exactly 15 characters" }
      else if !matchRuns [(isDigit, 2), (isUpperAZ, 5), (isDigit, 4), (isUpperAZ, 1),
          (isGstinEntity, 1), (isLetterZ, 1), (isDigitOrUpper, 1)] cleanGSTIN.data then
        .ok { isValid := false, message := "Invalid GSTIN format" }
      else
        .ok { isValid := true, message := "Valid GSTIN",
              cleanValue := some (.string cleanGSTIN) }
    | _ => .error (notAFunction "gstin.toUpperCase")

/-- The class `[\s\-\(\)]`. -/
def isMobileFormatting (c : Char) : Bool :=
  isWhiteSpace c || c.toNat == 45 || c.toNat == 40 || c.toNat == 41

/-- The class `[6-9]`. -/
def isSixToNine (c : Char) : Bool := 54 ≤ c.toNat && c.toNat ≤ 57

/-- The function `validateMobile` (validators.js, lines 94-110). -/
def validateMobile (mobile : JSValue) : Except JSError ValidationResult :=
  if !mobile.truthy then
    .ok { isValid := false, message := "Mobile number is required" }
  else
    match mobile with
    | .string s =>
      let cleanMobile : String := ⟨s.data.filter (fun c => !isMobileFormatting c)⟩
      if jsLength cleanMobile != 10 then
        .ok { isValid := false, message := "Mobile number must be exactly 10 digits" }
      else if !matchRuns [(isSixToNine, 1), (isDigit, 9)] cleanMobile.data then
        .ok { isValid := false, message := "Invalid Indian mobile number format" }
      else
        .ok { isValid := true, message := "Valid mobile number",
              cleanValue := some (.string cleanMobile) }
    | _ => .error (notAFunction "mobile.replace")

/-- The name of the type of a value in the message of `assertString` of the
`validator` package: `typeof input`, `null` for `null`, and the name of the
constructor for an object. -/
def assertStringTypeName : JSValue → String
  | .undefined => "undefined"
  | .null => "null"
  | .bool _ => "boolean"
  | .number _ => "number"
  | .string _ => "string"
  | .array _ => "Array"
  | .object _ => "Object"

/-- The function `validateEmail` (validators.js, lines 117-129).  `validator.isEmail`
asserts that its argument is a string and throws a `TypeError` otherwise. -/
def validateEmail (P : Platform) (email : JSValue) : Except JSError ValidationResult :=
  if !email.truthy then
    .ok { isValid := false, message := "Email address is required" }
  else
    match email with
    | .string s =>
      if !P.isEmail s then
        .ok { isValid := false, message := "Invalid email format" }
      else
        let cleanEmail := trim (toLowerCase P s)
        .ok { isValid := true, message := "Valid email address",
              cleanValue := some (.string cleanEmail) }
    | _ => .error { name := "TypeError",
                    message := "Expected a string but received a " ++ assertStringTypeName email }

/-- The function `validatePincode` (validators.js, lines 136-152). -/
def validatePincode (pincode : JSValue) : Except JSError ValidationResult :=
  if !pincode.truthy then
    .ok { isValid := false, message := "PIN code is required" }
  else
    match pincode with
    | .string s =>
      let cleanPincode := removeWhitespace s
      if jsLength cleanPincode != 6 then
        .ok { isValid := false, message := "PIN code must be exactly 6 digits" }
      else if !matchRuns [(isDigit, 6)] cleanPincode.data then
        .ok { isValid := false, message := "PIN code must contain only digits" }
      else
        .ok { isValid := true, message := "Valid PIN code",
              cleanValue := some (.string cleanPincode) }
    | _ => .error (notAFunction "pincode.replace")

/-- The function `validateIFSC` (validators.js, lines 159-176). -/
def validateIFSC (P : Platform) (ifsc : JSValue) : Except JSError ValidationResult :=
  if !ifsc.truthy then
    .ok { isValid := true, message := "IFSC code is optional" }
  else
    match ifsc with
    | .string s =>
      let cleanIFSC := removeWhitespace (toUpperCase P s)
      if jsLength cleanIFSC != 11 then
        .ok { isValid := false, message := "IFSC code must be exactly 11 characters" }
      else if !matchRuns [(isUpperAZ, 4), (fun c => c.toNat == 48, 1), (isDigitOrUpper, 6)]
          cleanIFSC.data then
        .ok { isValid := false, message := "Invalid IFSC code format (e.g., SBIN0001234)" }
      else
        .ok { isValid := true, message := "Valid IFSC code",
              cleanValue := some (.string cleanIFSC) }
    | _ => .error (notAFunction "ifsc.toUpperCase")

/-- The class `[a-zA-Z0-9\s\.\,\&\-\(\)]`. -/
def isNameChar (c : Char) : Bool :=
  isLowerAZ c || isUpperAZ c || isDigit c || isWhiteSpace c || c.toNat == 46 ||
  c.toNat == 44 || c.toNat == 38 || c.toNat == 45 || c.toNat == 40 || c.toNat == 41

/-- A regular expression `^C+$`: one or more characters, all of class `C`. -/
def matchPlus (cls : Char → Bool) (cs : List Char) : Bool := !cs.isEmpty && cs.all cls

/-- The function `validateEnterpriseName` (validators.js, lines 241-263). -/
def validateEnterpriseName (name : JSValue) : Except JSError ValidationResult :=
  if !name.truthy then
    .ok { isValid := false, message := "Enterprise name is required" }
  else
    match name with
    | .string s =>
      let cleanName := trim s
      if jsLength cleanName < 2 then
        .ok { isValid := false, message := "Enterprise name must be at least 2 characters long" }
      else if jsLength cleanName > 200 then
        .ok { isValid := false, message := "Enterprise name cannot exceed 200 characters" }
      else if !matchPlus isNameChar cleanName.data then
        .ok { isValid := false, message := "Enterprise name contains invalid characters" }
      else
        .ok { isValid := true, message := "Valid enterprise name",
              cleanValue := some (.string cleanName) }
    | _ => .error (notAFunction "name.trim")

/-! ## Numbers -/

/-- The value of a number that is neither `NaN` nor infinite. -/
def JSNumber.finVal : JSNumber → ℚ
  | .fin q => q
  | _ => 0

/-- The operator `a < b` on numbers; a comparison with `NaN` is false. -/
def JSNumber.lt (a b : JSNumber) : Bool :=
  match a, b with
  | .nan, _ => false
  | _, .nan => false
  | .inf true, .inf true => false
  | .inf true, _ => true
  | _, .inf true => false
  | .inf false, _ => false
  | _, .inf false => true
  | x, y => decide (x.finVal < y.finVal)

/-- JavaScript `isNaN(n)` for a number `n`. -/
def JSNumber.isNaN : JSNumber → Bool
  | .nan => true
  | _ => false

/-- The unary minus. -/
def JSNumber.neg : JSNumber → JSNumber
  | .nan => .nan
  | .negZero => .fin 0
  | .inf b => .inf (!b)
  | .fin q => if q = 0 then .negZero else .fin (-q)

/-- The binary logarithm of `n`, rounded down, computed with `fuel` halvings. -/
def log2Fuel : Nat → Nat → Nat
  | 0, _ => 0
  | fuel + 1, n => if n < 2 then 0 else log2Fuel fuel (n / 2) + 1

/-- The exponent `e` with `2^e ≤ n/d < 2^(e+1)`, for positive `n` and `d`. -/
def floorLog2 (n d : Nat) : Int :=
  let e0 : Int := (log2Fuel n n : Int) - (log2Fuel d d : Int)
  if n * 2 ^ (-e0).toNat < d * 2 ^ e0.toNat then e0 - 1 else e0

/-- The binary64 value nearest to the fraction `n/d` (ties to even), as the
reading of a decimal literal produces it: the unit in the last place is
`2^p` with `p = max (e - 52) (-1074)`, and a result of `2^1024` or more
(`p > 971`, or `p = 971` with the significand rounded up to `2^53`) is
`Infinity`. -/
def roundToDouble (n d : Nat) : JSNumber :=
  if n = 0 then .fin 0
  else
    let p : Int := max (floorLog2 n d - 52) (-1074)
    let num := n * 2 ^ (-p).toNat
    let den := d * 2 ^ p.toNat
    let m := num / den
    let r := num % den
    let m' := if den < 2 * r ∨ (2 * r = den ∧ m % 2 = 1) then m + 1 else m
    if 971 < p ∨ (p = 971 ∧ 2 ^ 53 ≤ m') then .inf false
    else .fin (mkRat (m' * 2 ^ p.toNat : Nat) (2 ^ (-p).toNat))

/-- The number written by a string of decimal digits. -/
def digitsToNat (ds : List Char) : Nat :=
  ds.foldl (fun acc c => 10 * acc + (c.toNat - 48)) 0

/-- An optional sign: whether it is `-`, and what follows it. -/
def takeSign : List Char → Bool × List Char
  | c :: r => if c == '-' then (true, r) else if c == '+' then (false, r) else (false, c :: r)
  | [] => (false, [])

/-- The exponent part `e[+-]?\d+` at the start of `cs`, or `0` when there is
none. -/
def exponentPart : List Char → Int
  | c :: r =>
    if c == 'e' || c == 'E' then
      let ds := (takeSign r).2.takeWhile isDigit
      if ds.isEmpty then 0
      else if (takeSign r).1 then -(digitsToNat ds : Int) else (digitsToNat ds : Int)
    else 0
  | [] => 0

/-- JavaScript `parseFloat(s)` for a string: leading white space is skipped and the
longest prefix that is a `StrDecimalLiteral` is read; `NaN` when there is no
such prefix. -/
def parseFloatString (s : String) : JSNumber :=
  let signed := takeSign (s.data.dropWhile isWhiteSpace)
  let cs := signed.2
  let magnitude : JSNumber :=
    if cs.take 8 == "Infinity".data then .inf false
    else
      let intDigits := cs.takeWhile isDigit
      let afterInt := cs.dropWhile isDigit
      let fracDigits := match afterInt with
        | c :: r => if c == '.' then r.takeWhile isDigit else []
        | [] => []
      let afterFrac := match afterInt with
        | c :: r => if c == '.' then r.dropWhile isDigit else afterInt
        | [] => []
      if intDigits.isEmpty && fracDigits.isEmpty then .nan
      else
        let e10 : Int := exponentPart afterFrac - (fracDigits.length : Int)
        roundToDouble (digitsToNat (intDigits ++ fracDigits) * 10 ^ e10.toNat)
          (10 ^ (-e10).toNat)
  if signed.1 then magnitude.neg else magnitude

/-- The `TypeError` of converting an object to a primitive when its own
property `toString` shadows `Object.prototype.toString` (a JSON value is
never callable). -/
def cannotConvert : JSError :=
  { name := "TypeError", message := "Cannot convert object to primitive value" }

mutual
/-- JavaScript `ToString(v)` (`String(v)`): an array is joined with commas, a plain
object is `[object Object]`. -/
def JSValue.toJSString (P : Platform) : JSValue → Except JSError String
  | .undefined => .ok "undefined"
  | .null => .ok "null"
  | .bool b => .ok (if b then "true" else "false")
  | .number n => .ok (P.numberToString n)
  | .string s => .ok s
  | .array elems => JSValue.joinElems P elems
  | .object props =>
    if props.any (fun kv => kv.1 == "toString") then .error cannotConvert
    else .ok "[object Object]"
/-- JavaScript `Array.prototype.join` with the separator `,`: `null` and `undefined`
elements are printed as the empty string. -/
def JSValue.joinElems (P : Platform) : List JSValue → Except JSError String
  | [] => .ok ""
  | .undefined :: rest =>
    match rest with
    | [] => .ok ""
    | _ :: _ => (JSValue.joinElems P rest).map (fun t => "," ++ t)
  | .null :: rest =>
    match rest with
    | [] => .ok ""
    | _ :: _ => (JSValue.joinElems P rest).map (fun t => "," ++ t)
  | x :: rest =>
    match JSValue.toJSString P x with
    | .error e => .error e
    | .ok sx =>
      match rest with
      | [] => .ok sx
      | _ :: _ => (JSValue.joinElems P rest).map (fun t => sx ++ "," ++ t)
end

/-- JavaScript `parseFloat(v)`: the argument is converted to a string and read.  For a
number `n` the string is the shortest decimal that reads back as `n`, so the
result is `n` itself, except that `-0` prints as `0`. -/
def parseFloat (P : Platform) : JSValue → Except JSError JSNumber
  | .number .negZero => .ok (.fin 0)
  | .number n => .ok n
  | v => (v.toJSString P).map parseFloatString

/-- The function `validateInvestment` (validators.js, lines 183-203). -/
def validateInvestment (P : Platform) (amount : JSValue) : Except JSError ValidationResult :=
  if !amount.truthy && !strictEquals amount (.number (.fin 0)) then
    .ok { isValid := false, message := "Investment amount is required" }
  else
    match parseFloat P amount with
    | .error e => .error e
    | .ok numAmount =>
      if numAmount.isNaN then
        .ok { isValid := false, message := "Investment amount must be a valid number" }
      else if numAmount.lt (.fin 0) then
        .ok { isValid := false, message := "Investment amount cannot be negative" }
      else if (JSNumber.fin 50000000000).lt numAmount then
        .ok { isValid := false, message := "Investment amount exceeds maximum limit" }
      else
        .ok { isValid := true, message := "Valid investment amount",
              cleanValue := some (.number numAmount) }

/-! ## Dates -/

/-- JavaScript `TimeClip(ToIntegerOrInfinity(n))`: the time value of `new Date(n)` for a
number, `none` for an invalid date. -/
def timeClip : JSNumber → Option Int
  | .nan => none
  | .inf _ => none
  | .negZero => some 0
  | .fin q =>
    if 8640000000000000 < |q| then none
    else some (if 0 ≤ q then ⌊q⌋ else ⌈q⌉)

/-- The time value of `new Date(v)`, `none` for an invalid date.  A string is
parsed; a number, a boolean or `null` is converted to a number; an array or
an object is first converted to a primitive, which is its string. -/
def newDate (P : Platform) : JSValue → Except JSError (Option Int)
  | .undefined => .ok none
  | .null => .ok (some 0)
  | .bool b => .ok (some (if b then 1 else 0))
  | .number n => .ok (timeClip n)
  | .string s => .ok (P.dateParse s)
  | v => (v.toJSString P).map P.dateParse

/-- The time value of `new Date('1900-01-01')`: a date-only ISO string is
midnight UTC of that day. -/
def minDate : Int := -2208988800000

/-- Year, month and day of the proleptic Gregorian calendar for a number of
days since 1970-01-01. -/
def civilFromDays (days : Int) : Int × Nat × Nat :=
  let z := days + 719468
  let era := z / 146097
  let doe := (z - era * 146097).toNat
  let yoe := (doe - doe / 1460 + doe / 36524 - doe / 146096) / 365
  let doy := doe - (365 * yoe + yoe / 4 - yoe / 100)
  let mp := (5 * doy + 2) / 153
  let d := doy - (153 * mp + 2) / 5 + 1
  let m := if mp < 10 then mp + 3 else mp - 9
  ((yoe : Int) + era * 400 + (if m ≤ 2 then 1 else 0), m, d)

/-- A number in decimal, padded with zeros on the left to `width` digits. -/
def padZeros (width n : Nat) : String :=
  ⟨List.replicate (width - (toString n).length) '0'⟩ ++ toString n

/-- The year of `toISOString`: four digits from 0 to 9999, otherwise a sign
and six digits. -/
def isoYear (y : Int) : String :=
  if 0 ≤ y ∧ y ≤ 9999 then padZeros 4 y.toNat
  else if y < 0 then "-" ++ padZeros 6 (-y).toNat
  else "+" ++ padZeros 6 y.toNat

/-- JavaScript `new Date(t).toISOString().split('T')[0]`: the date part `YYYY-MM-DD`. -/
def isoDatePart (t : Int) : String :=
  let ymd := civilFromDays (t / 86400000)
  isoYear ymd.1 ++ "-" ++ padZeros 2 ymd.2.1 ++ "-" ++ padZeros 2 ymd.2.2

/-- JavaScript `new Date(t).toISOString()`. -/
def toISOString (t : Int) : String :=
  let ms := (t % 86400000).toNat
  isoDatePart t ++ "T" ++ padZeros 2 (ms / 3600000) ++ ":" ++ padZeros 2 (ms / 60000 % 60) ++
    ":" ++ padZeros 2 (ms / 1000 % 60) ++ "." ++ padZeros 3 (ms % 1000) ++ "Z"

/-- Days since 1970-01-01 of the day `d` of the month `m` of the year `y` in the
proleptic Gregorian calendar (the `MakeDay` of the language): a day number
beyond the end of the month runs on into the following month. -/
def daysFromCivil (y : Int) (m d : Nat) : Int :=
  let y' := if m ≤ 2 then y - 1 else y
  let era := y' / 400
  let yoe := (y' - era * 400).toNat
  let mp := if 2 < m then m - 3 else m + 9
  let doy := (153 * mp + 2) / 5 + d - 1
  let doe := yoe * 365 + yoe / 4 - yoe / 100 + doy
  era * 146097 + (doe : Int) - 719468

/-- The time value that the V8 engine of Node.js gives to a date-only string
`YYYY-MM-DD`: midnight UTC of that day, for a month from 01 to 12 and a day
from 01 to 31, whatever the length of the month; `none` for a string of
another shape. -/
def dateOnlyParse (s : String) : Option Int :=
  match s.data with
  | [y1, y2, y3, y4, s1, m1, m2, s2, d1, d2] =>
    if s1 = '-' ∧ s2 = '-' ∧ [y1, y2, y3, y4, m1, m2, d1, d2].all isDigit then
      let m := digitsToNat [m1, m2]
      let d := digitsToNat [d1, d2]
      if 1 ≤ m ∧ m ≤ 12 ∧ 1 ≤ d ∧ d ≤ 31 then
        some (daysFromCivil (digitsToNat [y1, y2, y3, y4]) m d * 86400000)
      else none
    else none
  | _ => none

/-- The function `validateDate` (validators.js, lines 211-234); `now` is the
time value of `new Date()`.  A caller that leaves `fieldName` out passes its
default, the string `Date`. -/
def validateDate (P : Platform) (now : Int) (date : JSValue) (fieldName : String) :
    Except JSError ValidationResult :=
  if !date.truthy then
    .ok { isValid := false, message := fieldName ++ " is required" }
  else
    match newDate P date with
    | .error e => .error e
    | .ok none =>
      .ok { isValid := false, message := "Invalid " ++ toLowerCase P fieldName ++ " format" }
    | .ok (some dateObj) =>
      if now < dateObj then
        .ok { isValid := false, message := fieldName ++ " cannot be in the future" }
      else if dateObj < minDate then
        .ok { isValid := false, message := fieldName ++ " cannot be before 1900" }
      else
        .ok { isValid := true, message := "Valid " ++ toLowerCase P fieldName,
              cleanValue := some (.string (isoDatePart dateObj)) }

/-! ## The aggregate form validation -/

/-- An object as the list of its own properties, in insertion order.  An
object that `JSON.parse` builds has no two properties of the same name. -/
abbrev JSObject := List (String × JSValue)

/-- JavaScript `obj[key]`, `undefined` when the property is absent. -/
def getProp (obj : JSObject) (key : String) : JSValue :=
  (obj.lookup key).getD .undefined

/-- Whether `key` is among `Object.keys(obj)`. -/
def hasKey (obj : JSObject) (key : String) : Bool :=
  obj.any (fun kv => kv.1 == key)

/-- JavaScript `obj[key] = v`. -/
def setProp (obj : JSObject) (key : String) (v : JSValue) : JSObject :=
  if hasKey obj key then obj.map (fun kv => if kv.1 == key then (key, v) else kv)
  else obj ++ [(key, v)]

/-- The table `validations` of `validateRegistrationForm`. -/
def requiredValidations (P : Platform) (now : Int) :
    List (String × (JSValue → Except JSError ValidationResult)) :=
  [("aadhaarNumber", fun aadhaar => .ok (validateAadhaar aadhaar)),
   ("entrepreneurName", fun name => validateEnterpriseName name),
   ("panNumber", validatePAN P),
   ("mobileNumber", validateMobile),
   ("emailAddress", validateEmail P),
   ("pincode", validatePincode),
   ("investment", validateInvestment P),
   ("turnover", validateInvestment P),
   ("dateOfBirth", fun date => validateDate P now date "Date of birth")]

/-- The table `optionalValidations` of `validateRegistrationForm`. -/
def optionalValidations (P : Platform) :
    List (String × (JSValue → Except JSError ValidationResult)) :=
  [("gstinNumber", validateGSTIN P),
   ("ifscCode", validateIFSC P),
   ("enterpriseName", validateEnterpriseName)]

/-- The body of the `forEach` over the required fields: the pair is
`(errors, cleanData)`. -/
def validateField (formData : JSObject) (acc : JSObject × JSObject)
    (entry : String × (JSValue → Except JSError ValidationResult)) :
    Except JSError (JSObject × JSObject) :=
  match entry.2 (getProp formData entry.1) with
  | .error e => .error e
  | .ok result =>
    if !result.isValid then
      .ok (setProp acc.1 entry.1 (.string result.message), acc.2)
    else
      .ok (acc.1, setProp acc.2 entry.1
        ((result.cleanValue.getD .undefined).or (getProp formData entry.1)))

/-- The body of the `forEach` over the optional fields. -/
def validateOptionalField (formData : JSObject) (acc : JSObject × JSObject)
    (entry : String × (JSValue → Except JSError ValidationResult)) :
    Except JSError (JSObject × JSObject) :=
  if (getProp formData entry.1).truthy then validateField formData acc entry
  else .ok acc

/-- JavaScript `entries.forEach(step)`, an exception ending the loop. -/
def forEachField (step : JSObject × JSObject →
      String × (JSValue → Except JSError ValidationResult) →
      Except JSError (JSObject × JSObject)) :
    List (String × (JSValue → Except JSError ValidationResult)) → JSObject × JSObject →
    Except JSError (JSObject × JSObject)
  | [], acc => .ok acc
  | entry :: rest, acc =>
    match step acc entry with
    | .error e => .error e
    | .ok acc' => forEachField step rest acc'

/-- The result `{ isValid, errors, cleanData }` of the form validation. -/
structure FormValidation where
  isValid : Bool
  errors : JSObject
  cleanData : JSObject

/-- The function `validateRegistrationForm` (validators.js, lines 270-321). -/
def validateRegistrationForm (P : Platform) (now : Int) (formData : JSObject) :
    Except JSError FormValidation :=
  match forEachField (validateField formData) (requiredValidations P now) ([], []) with
  | .error e => .error e
  | .ok acc =>
    match forEachField (validateOptionalField formData) (optionalValidations P) acc with
    | .error e => .error e
    | .ok out => .ok { isValid := out.1.length == 0, errors := out.1, cleanData := out.2 }

/-! ## The registration store -/

/-- The `data` object that the register handler passes to
`prisma.udyamRegistration.create`.  A date field is `none` for `null` and
`some t` for the `Date` object with time value `t`. -/
structure RegistrationData where
  registrationId : String
  aadhaarNumber : JSValue
  entrepreneurName : JSValue
  panNumber : JSValue
  enterpriseName : JSValue
  constitution : JSValue
  majorActivity : JSValue
  businessAddress : JSValue
  state : JSValue
  district : JSValue
  pincode : JSValue
  mobileNumber : JSValue
  emailAddress : JSValue
  investment : JSValue
  turnover : JSValue
  dateOfBirth : Option (Option Int)
  gstinNumber : JSValue
  bankAccountNumber : JSValue
  ifscCode : JSValue
  nicCode : JSValue
  dateOfCommencementProduction : Option (Option Int)
  consent : JSValue
  status : String

/-- A stored registration: the submitted data with the fields that the store
assigns. -/
structure Registration extends RegistrationData where
  id : Nat
  createdAt : Int

/-- Modelled from the spec: the Prisma schema and the generated client are
not part of the sources.  Find-by-identity-number returns the first record, if
any, whose `aadhaarNumber` equals the given value. -/
def findFirstByAadhaar (store : List Registration) (aadhaar : JSValue) : Option Registration :=
  store.find? (fun r => strictEquals r.aadhaarNumber aadhaar)

/-- Modelled from the spec: the Prisma schema and the generated client are
not part of the sources.  Create inserts a new record with a sequential `id`
and the creation time, and fails with the code `P2002` when the uniqueness
constraint on `aadhaarNumber` is violated. -/
def createRegistration (store : List Registration) (data : RegistrationData) (createdAt : Int) :
    Except JSError (Registration × List Registration) :=
  if store.any (fun r => strictEquals r.aadhaarNumber data.aadhaarNumber) then
    .error { name := "PrismaClientKnownRequestError", message := "Unique constraint failed",
             code := some "P2002", target := some "aadhaarNumber" }
  else
    let registration : Registration :=
      { toRegistrationData := data, id := store.length + 1, createdAt := createdAt }
    .ok (registration, store ++ [registration])

/-! ## The register handler (`backend/index.js`, lines 292-384) -/

/-- What one run of the handler reads from its surroundings. -/
structure RequestEnv where
  /-- the time value of `new Date()` in `validateDate` -/
  now : Int
  /-- JavaScript `Date.now()` when the registration id is generated -/
  idMillis : Nat
  /-- the digits after the point of `Math.random().toString(36)`; the empty
  list when the random number is `0`, which prints as `0` -/
  randomDigits : List (Fin 36)
  /-- the creation time that the store assigns -/
  createdAt : Int
  /-- the time value of `new Date()` when the response is written -/
  responseTime : Int
  /-- The environment variable `NODE_ENV` -/
  nodeEnv : String

/-- An HTTP response: the status and the JSON body, a `Date` being written as
its ISO string. -/
structure Response where
  status : Nat
  body : JSObject

/-- A digit of radix 36: `0-9`, then `a-z`. -/
def digitChar36 (d : Fin 36) : Char :=
  if d.val < 10 then Char.ofNat (48 + d.val) else Char.ofNat (87 + d.val)

/-- JavaScript `x.toString(36)` for a number `0 ≤ x < 1` with the given digits after the
point. -/
def randomToString36 (digits : List (Fin 36)) : String :=
  if digits.isEmpty then "0" else ⟨'0' :: '.' :: digits.map digitChar36⟩

/-- JavaScript `s.substr(start, length)` for a string of characters of the Basic
Multilingual Plane. -/
def substr (s : String) (start length : Nat) : String :=
  ⟨(s.data.drop start).take length⟩

/-- The registration id of the handler (index.js, line 324). -/
def generateRegistrationId (P : Platform) (idMillis : Nat) (digits : List (Fin 36)) : String :=
  "UDYAM-" ++ toString idMillis ++ "-" ++ toUpperCase P (substr (randomToString36 digits) 2 6)

/-- JavaScript `v ? new Date(v) : null`. -/
def optionalDate (P : Platform) (v : JSValue) : Except JSError (Option (Option Int)) :=
  if v.truthy then (newDate P v).map some else .ok none

/-- The `data` of the `create` call (index.js, lines 328-352). -/
def registrationData (P : Platform) (registrationId : String) (cleanData : JSObject) :
    Except JSError RegistrationData :=
  match optionalDate P (getProp cleanData "dateOfBirth") with
  | .error e => .error e
  | .ok dateOfBirth =>
    match optionalDate P (getProp cleanData "dateOfCommencementProduction") with
    | .error e => .error e
    | .ok dateOfCommencementProduction =>
      .ok {
        registrationId := registrationId
        aadhaarNumber := getProp cleanData "aadhaarNumber"
        entrepreneurName := getProp cleanData "entrepreneurName"
        panNumber := getProp cleanData "panNumber"
        enterpriseName :=
          (getProp cleanData "enterpriseName").or (getProp cleanData "entrepreneurName")
        constitution := (getProp cleanData "constitution").or (.string "Individual")
        majorActivity := (getProp cleanData "majorActivity").or (.string "Manufacturing")
        businessAddress := (getProp cleanData "businessAddress").or (.string "")
        state := (getProp cleanData "state").or (.string "")
        district := (getProp cleanData "district").or (.string "")
        pincode := getProp cleanData "pincode"
        mobileNumber := getProp cleanData "mobileNumber"
        emailAddress := getProp cleanData "emailAddress"
        investment := getProp cleanData "investment"
        turnover := getProp cleanData "turnover"
        dateOfBirth := dateOfBirth
        gstinNumber := (getProp cleanData "gstinNumber").or .null
        bankAccountNumber := (getProp cleanData "bankAccountNumber").or .null
        ifscCode := (getProp cleanData "ifscCode").or .null
        nicCode := (getProp cleanData "nicCode").or .null
        dateOfCommencementProduction := dateOfCommencementProduction
        consent := (getProp cleanData "consent").or (.bool true)
        status := "PENDING" }

/-- The `try` block of the handler: the response and the store after it. -/
def registerTry (P : Platform) (env : RequestEnv) (store : List Registration)
    (body : JSObject) : Except JSError (Response × List Registration) :=
  match validateRegistrationForm P env.now body with
  | .error e => .error e
  | .ok validation =>
    if !validation.isValid then
      .ok ({ status := 400,
             body := [("error", .string "Validation failed"),
                      ("validationErrors", .object validation.errors),
                      ("timestamp", .string (toISOString env.responseTime))] }, store)
    else
      let cleanData := validation.cleanData
      match findFirstByAadhaar store (getProp cleanData "aadhaarNumber") with
      | some existingAadhaar =>
        .ok ({ status := 409,
               body := [("error", .string "Registration already exists"),
                        ("message", .string
                          "An enterprise is already registered with this Aadhaar number"),
                        ("registrationId", .string existingAadhaar.registrationId),
                        ("timestamp", .string (toISOString env.responseTime))] }, store)
      | none =>
        let registrationId := generateRegistrationId P env.idMillis env.randomDigits
        match registrationData P registrationId cleanData with
        | .error e => .error e
        | .ok data =>
          match createRegistration store data env.createdAt with
          | .error e => .error e
          | .ok created =>
            .ok ({ status := 201,
                   body := [("message", .string "Registration submitted successfully"),
                            ("registrationId", .string created.1.registrationId),
                            ("status", .string created.1.status),
                            ("submittedAt", .string (toISOString created.1.createdAt)),
                            ("timestamp", .string (toISOString env.responseTime))] },
                 created.2)

/-- The handler of `POST /api/register`: the `try` block and, for an
exception, the `catch` block, which leaves the store as it was. -/
def registerHandler (P : Platform) (env : RequestEnv) (store : List Registration)
    (body : JSObject) : Response × List Registration :=
  match registerTry P env store body with
  | .ok out => out
  | .error error =>
    if error.code = some "P2002" then
      ({ status := 409,
         body := [("error", .string "Duplicate entry"),
                  ("message", .string "A registration with this information already exists"),
                  ("field", .string (error.target.getD "unknown")),
                  ("timestamp", .string (toISOString env.responseTime))] }, store)
    else
      ({ status := 500,
         body := [("error", .string "Registration failed"),
                  ("message", .string (if env.nodeEnv = "development" then error.message
                    else "Internal server error")),
                  ("timestamp", .string (toISOString env.responseTime))] }, store)

/-- The store after a sequence of requests handled one after the other, each
with its own environment. -/
def runRequests (P : Platform) (store : List Registration) :
    List (RequestEnv × JSObject) → List Registration
  | [] => store
  | request :: rest => runRequests P (registerHandler P request.1 store request.2).2 rest

/-! ## The error handler and the listing handler (`backend/index.js`) -/

/-- The global error handler (index.js, lines 65-89), the only error-handling
middleware of the application. -/
def globalErrorHandler (env : RequestEnv) (err : JSError) : Response :=
  if err.name = "ValidationError" then
    { status := 400,
      body := [("error", .string "Validation failed"),
               ("details", .string err.message),
               ("timestamp", .string (toISOString env.responseTime))] }
  else if err.name = "PrismaClientKnownRequestError" then
    { status := 400,
      body := [("error", .string "Database operation failed"),
               ("details", .string (if env.nodeEnv = "development" then err.message
                 else "Please try again later")),
               ("timestamp", .string (toISOString env.responseTime))] }
  else
    { status := 500,
      body := [("error", .string "Internal server error"),
               ("message", .string (if env.nodeEnv = "development" then err.message
                 else "Something went wrong")),
               ("timestamp", .string (toISOString env.responseTime))] }

/-- The error that the JSON body parser raises on a body that is not valid
JSON: the `SyntaxError` of `JSON.parse` with its message.  (The parser also
sets the properties `status` and `type` on it, which no handler of the
application reads.) -/
def jsonParseError (message : String) : JSError :=
  { name := "SyntaxError", message := message }

/-- A request to `POST /api/register` as the middleware chain handles it,
given what the JSON body parser made of the body.  An error that the parser
raises skips the request logger and reaches the global error handler, the
first error-handling middleware after the parser; a parsed body passes on to
the route handler. -/
def postRegister (P : Platform) (env : RequestEnv) (store : List Registration)
    (parsed : Except JSError JSObject) : Response × List Registration :=
  match parsed with
  | .error err => (globalErrorHandler env err, store)
  | .ok body => registerHandler P env store body

/-- Modelled from the spec: the Prisma schema and the generated client are
not part of the sources.  Find-all-ordered returns every record, newest
`createdAt` first. -/
def findManyNewestFirst (store : List Registration) : Except JSError (List Registration) :=
  .ok (store.insertionSort (fun a b => b.createdAt ≤ a.createdAt))

/-- A date field of a record in a JSON response: `null`, or the ISO string of
the date (an invalid date is written as `null`). -/
def dateToJSON : Option (Option Int) → JSValue
  | some (some t) => .string (toISOString t)
  | _ => .null

/-- Modelled from the spec: the Prisma schema is not part of the sources.  A
stored record as a JSON response writes it, with the fields of the data
model. -/
def registrationToJSON (r : Registration) : JSValue :=
  .object
    [("id", .number (.fin r.id)),
     ("registrationId", .string r.registrationId),
     ("aadhaarNumber", r.aadhaarNumber),
     ("entrepreneurName", r.entrepreneurName),
     ("panNumber", r.panNumber),
     ("enterpriseName", r.enterpriseName),
     ("constitution", r.constitution),
     ("majorActivity", r.majorActivity),
     ("businessAddress", r.businessAddress),
     ("state", r.state),
     ("district", r.district),
     ("pincode", r.pincode),
     ("mobileNumber", r.mobileNumber),
     ("emailAddress", r.emailAddress),
     ("investment", r.investment),
     ("turnover", r.turnover),
     ("dateOfBirth", dateToJSON r.dateOfBirth),
     ("gstinNumber", r.gstinNumber),
     ("bankAccountNumber", r.bankAccountNumber),
     ("ifscCode", r.ifscCode),
     ("nicCode", r.nicCode),
     ("dateOfCommencementProduction", dateToJSON r.dateOfCommencementProduction),
     ("consent", r.consent),
     ("status", .string r.status),
     ("createdAt", .string (toISOString r.createdAt))]

/-- The handler of `GET /api/registrations` (index.js, lines 387-402). -/
def getRegistrations (store : List Registration) : Response :=
  match findManyNewestFirst store with
  | .ok registrations =>
    { status := 200,
      body := [("message", .string "Registrations retrieved successfully"),
               ("count", .number (.fin registrations.length)),
               ("data", .array (registrations.map registrationToJSON))] }
  | .error _ =>
    { status := 500, body := [("error", .string "Error fetching registrations")] }

/-! ## The client (`frontend/src`) -/

/-- JavaScript `s.replace(/(\d{4})(\d{4})(\d{4})/, '$1 $2 $3')` on the characters of
`s`: the leftmost run of twelve digits is written as three groups of four
with a blank between them; a string without such a run is left as it is. -/
def groupTwelveDigits : List Char → List Char
  | [] => []
  | c :: rest =>
    if ((c :: rest).take 12).length == 12 && ((c :: rest).take 12).all isDigit then
      (c :: rest).take 4 ++ [' '] ++ ((c :: rest).drop 4).take 4 ++ [' '] ++
        ((c :: rest).drop 8).take 4 ++ (c :: rest).drop 12
    else c :: groupTwelveDigits rest

/-- The function `formatFieldValue` (frontend/src/utils/validation.js, lines
126-150).  A truthy value that is not a string has none of the string
methods, and the call throws. -/
def formatFieldValue (P : Platform) (value : JSValue) (type : String) :
    Except JSError JSValue :=
  if !value.truthy then .ok value
  else
    match value with
    | .string s =>
      if type = "aadhaar" then
        .ok (.string ⟨groupTwelveDigits (removeWhitespace s).data⟩)
      else if type = "pan" ∨ type = "gstin" ∨ type = "ifsc" then
        .ok (.string (toUpperCase P s))
      else if type = "mobile" then
        .ok (.string ⟨s.data.filter (fun c => !isMobileFormatting c)⟩)
      else if type = "email" then .ok (.string (trim (toLowerCase P s)))
      else if type = "text" then .ok (.string (trim s))
      else .ok value
    | _ =>
      if type = "aadhaar" then .error (notAFunction "value.replace")
      else if type = "pan" ∨ type = "gstin" ∨ type = "ifsc" then
        .error (notAFunction "value.toUpperCase")
      else if type = "mobile" then .error (notAFunction "value.replace")
      else if type = "email" then .error (notAFunction "value.toLowerCase")
      else if type = "text" then .error (notAFunction "value.trim")
      else .ok value

/-- Whether the characters of `needle` stand at the start of `hay`. -/
def startsWithChars : List Char → List Char → Bool
  | [], _ => true
  | _ :: _, [] => false
  | a :: needle, b :: hay => a == b && startsWithChars needle hay

/-- JavaScript `hay.includes(needle)` on the characters of the two strings. -/
def includesChars (needle : List Char) : List Char → Bool
  | [] => needle.isEmpty
  | c :: hay => startsWithChars needle (c :: hay) || includesChars needle hay

/-- JavaScript `hay.includes(needle)`. -/
def includes (hay needle : String) : Bool := includesChars needle.data hay.data

/-- A record of the list in the browse view, with the properties that the
filter reads; each of them is a string in a record that the API serves. -/
structure ListedRegistration where
  entrepreneurName : String
  enterpriseName : String
  aadhaarNumber : String
  panNumber : String
  majorActivity : String
  deriving DecidableEq

/-- The list `filteredRegistrations` of the browse view
(frontend/src/components/RegistrationsList.jsx, lines 51-61). -/
def filteredRegistrations (P : Platform) (registrations : List ListedRegistration)
    (searchTerm filterByActivity : String) : List ListedRegistration :=
  registrations.filter (fun reg =>
    let matchesSearch := searchTerm.data.isEmpty ||
      includes (toLowerCase P reg.entrepreneurName) (toLowerCase P searchTerm) ||
      includes (toLowerCase P reg.enterpriseName) (toLowerCase P searchTerm) ||
      includes reg.aadhaarNumber searchTerm ||
      includes (toLowerCase P reg.panNumber) (toLowerCase P searchTerm)
    let matchesActivity := filterByActivity.data.isEmpty || reg.majorActivity == filterByActivity
    matchesSearch && matchesActivity)

/-- A character class `[...]` as the list of its ranges; a single character
is a range of itself. -/
abbrev CharRanges := List (Char × Char)

/-- Whether a character is in one of the ranges. -/
def inRanges (ranges : CharRanges) (c : Char) : Bool :=
  ranges.any (fun r => r.1.toNat ≤ c.toNat && c.toNat ≤ r.2.toNat)

/-- The ranges of a character class, read after its `[` up to its `]`, and
what follows the class. -/
def readClass : List Char → Option (CharRanges × List Char)
  | [] => none
  | ']' :: rest => some ([], rest)
  | a :: '-' :: b :: rest =>
    if b = ']' then some ([(a, a), ('-', '-')], rest)
    else (readClass rest).map (fun out => ((a, b) :: out.1, out.2))
  | a :: rest => (readClass rest).map (fun out => ((a, a) :: out.1, out.2))

/-- The quantifier `{n}` at the start of `cs`, or `1` when there is none, and
what follows it. -/
def readCount (cs : List Char) : Nat × List Char :=
  match cs with
  | '{' :: rest =>
    match rest.dropWhile isDigit with
    | '}' :: after =>
      if (rest.takeWhile isDigit).isEmpty then (1, cs)
      else (digitsToNat (rest.takeWhile isDigit), after)
    | _ => (1, cs)
  | _ => (1, cs)

/-- The characters with a meaning of their own in a regular expression. -/
def isRegExpSpecial (c : Char) : Bool :=
  [92, 94, 36, 46, 124, 63, 42, 43, 40, 41, 91, 93, 123, 125].contains c.toNat

/-- A pattern of the form schema read as a sequence of character classes or
literal characters, each with an optional count `{n}`; `none` for a pattern
with another construct, which the schema does not have. -/
def readPattern : Nat → List Char → Option (List (CharRanges × Nat))
  | 0, _ => none
  | _ + 1, [] => some []
  | fuel + 1, c :: rest =>
    if c = '[' then
      match readClass rest with
      | none => none
      | some out =>
        (readPattern fuel (readCount out.2).2).map
          (fun atoms => (out.1, (readCount out.2).1) :: atoms)
    else if isRegExpSpecial c then none
    else
      (readPattern fuel (readCount rest).2).map
        (fun atoms => ([(c, c)], (readCount rest).1) :: atoms)

/-- The runs of a pattern that was read. -/
def patternRuns (atoms : List (CharRanges × Nat)) : List ((Char → Bool) × Nat) :=
  atoms.map (fun atom => (inRanges atom.1, atom.2))

/-- Whether `cs` begins with characters that the runs match. -/
def matchRunsAtStart : List ((Char → Bool) × Nat) → List Char → Bool
  | [], _ => true
  | (cls, n) :: rest, cs =>
    (cs.take n).length == n && (cs.take n).all cls && matchRunsAtStart rest (cs.drop n)

/-- Whether the runs match somewhere in `cs`. -/
def searchRuns (runs : List ((Char → Bool) × Nat)) : List Char → Bool
  | [] => matchRunsAtStart runs []
  | c :: cs => matchRunsAtStart runs (c :: cs) || searchRuns runs cs

/-- JavaScript `new RegExp(pattern).test(value)` for a pattern of the form schema: the
pattern is not anchored and matches anywhere in the value. -/
def regExpTest (pattern value : String) : Bool :=
  match readPattern (pattern.data.length + 1) pattern.data with
  | some atoms => searchRuns (patternRuns atoms) value.data
  | none => false

/-- A field of the form schema with the attributes that the validation of
the form reads. -/
structure SchemaField where
  name : String
  label : String
  type : String
  required : Bool
  maxLength : Option Nat := none
  pattern : Option String := none
  deriving DecidableEq

/-- The fields of the schema that `GET /api/form-schema` serves (index.js,
lines 98-286), the two steps one after the other. -/
def formSchema : List SchemaField :=
  [{ name := "aadhaarNumber", label := "Aadhaar Number / आधार संख्या", type := "text",
     required := true, maxLength := some 12, pattern := some "[0-9]{12}" },
   { name := "entrepreneurName", label := "Name of Entrepreneur / उद्यमी का नाम", type := "text",
     required := true, maxLength := some 100 },
   { name := "consentCheckbox", label := "Consent for Aadhaar Usage", type := "checkbox",
     required := true },
   { name := "panNumber", label := "PAN Number", type := "text", required := true,
     maxLength := some 10, pattern := some "[A-Z]{5}[0-9]{4}[A-Z]{1}" },
   { name := "gstinNumber", label := "GSTIN (if applicable)", type := "text", required := false,
     maxLength := some 15,
     pattern := some "[0-9]{2}[A-Z]{5}[0-9]{4}[A-Z]{1}[1-9A-Z]{1}Z[0-9A-Z]{1}" },
   { name := "enterpriseName", label := "Enterprise Name", type := "text", required := true,
     maxLength := some 100 },
   { name := "constitution", label := "Constitution of Enterprise", type := "select",
     required := true },
   { name := "majorActivity", label := "Major Business Activity", type := "select",
     required := true },
   { name := "nicCode", label := "NIC Code", type := "text", required := true,
     maxLength := some 5 },
   { name := "businessCommencementDate", label := "Date of Commencement of Business",
     type := "date", required := true },
   { name := "businessAddress", label := "Business Address", type := "textarea",
     required := true },
   { name := "state", label := "State / UT", type := "select", required := true },
   { name := "district", label := "District", type := "text", required := true },
   { name := "pincode", label := "PIN Code", type := "text", required := true,
     maxLength := some 6, pattern := some "[0-9]{6}" },
   { name := "mobileNumber", label := "Mobile Number", type := "tel", required := true,
     maxLength := some 10, pattern := some "[0-9]{10}" },
   { name := "emailAddress", label := "Email Address", type := "email", required := true },
   { name := "investment", label := "Investment in Plant & Machinery/Equipment (₹)",
     type := "number", required := true },
   { name := "turnover", label := "Annual Turnover (₹)", type := "number", required := true },
   { name := "bankAccountNumber", label := "Bank Account Number", type := "text",
     required := false, maxLength := some 20 },
   { name := "ifscCode", label := "IFSC Code", type := "text", required := false,
     maxLength := some 11, pattern := some "[A-Z]{4}0[A-Z0-9]{6}" }]

/-- The function `validateField` of the submission form
(frontend/src/components/UdyamRegistrationForm.jsx, lines 34-52) on the
string that an input of the form holds; the error message, or `none` for
`null`.  `toNumber` is the conversion of a string to a number that `isNaN`
and `<` perform. -/
def UdyamRegistrationForm.validateField (P : Platform) (toNumber : String → JSNumber)
    (field : SchemaField) (value : String) : Option String :=
  if field.required && (value.data.isEmpty || (trim value).data.isEmpty) then
    some (field.label ++ " is required")
  else if (match field.pattern with
      | some pattern => !pattern.data.isEmpty && !value.data.isEmpty && !regExpTest pattern value
      | none => false) then
    some ("Please enter a valid " ++ toLowerCase P field.label)
  else if (match field.maxLength with
      | some maxLength => maxLength != 0 && !value.data.isEmpty && jsLength value > maxLength
      | none => false) then
    some (field.label ++ " must be less than " ++ toString (field.maxLength.getD 0) ++
      " characters")
  else if field.type == "number" && !value.data.isEmpty &&
      ((toNumber value).isNaN || (toNumber value).lt (.fin 0)) then
    some (field.label ++ " must be a valid positive number")
  else none

/-! ## Concrete inputs of the examples -/

/-- A platform for the examples: a string with a non-ASCII character is left
as it is by the case mappings, an e-mail address is a string with an `@` and
no blank,
`Date.parse` knows the date `1990-01-01`, and a number is printed when it is
an integer. -/
def examplePlatform : Platform where
  upperUnicode := id
  lowerUnicode := id
  isEmail := fun s => s.data.contains '@' && !s.data.contains ' '
  dateParse := fun s => if s = "1990-01-01" then some 631152000000 else none
  numberToString := fun n =>
    match n with
    | .fin q => if q.den = 1 then toString q.num else "NaN"
    | _ => "NaN"

/-- The platform of the examples with the `Date.parse` of Node.js on date-only
strings. -/
def nodePlatform : Platform where
  upperUnicode := examplePlatform.upperUnicode
  lowerUnicode := examplePlatform.lowerUnicode
  isEmail := examplePlatform.isEmail
  dateParse := dateOnlyParse
  numberToString := examplePlatform.numberToString

/-- The time value of 2023-11-14T22:13:20Z, the clock of the examples. -/
def exampleNow : Int := 1700000000000

/-- The valid registration of the test suites. -/
def validForm : JSObject :=
  [("aadhaarNumber", .string "123456789012"),
   ("entrepreneurName", .string "John Doe"),
   ("panNumber", .string "ABCDE1234F"),
   ("mobileNumber", .string "9876543210"),
   ("emailAddress", .string "john@example.com"),
   ("pincode", .string "110001"),
   ("investment", .number (.fin 100000)),
   ("turnover", .number (.fin 200000)),
   ("dateOfBirth", .string "1990-01-01"),
   ("consent", .bool true)]

/-- The valid registration of the test suites without its `dateOfBirth`. -/
def formWithoutDateOfBirth : JSObject :=
  validForm.filter (fun kv => kv.1 != "dateOfBirth")

/-- The environment of a request in the examples; the random number prints
as `0.4fx7k91sd2u` in radix 36. -/
def exampleEnv : RequestEnv where
  now := exampleNow
  idMillis := 1700000000001
  randomDigits := [4, 15, 33, 7, 20, 9, 1, 28, 13, 2, 30]
  createdAt := 1700000000002
  responseTime := 1700000000003
  nodeEnv := "test"

/-- The environment of a request in which `Math.random()` returns `0.5`, which
prints as `0.i` in radix 36. -/
def shortTokenEnv : RequestEnv where
  now := exampleNow
  idMillis := 1700000000001
  randomDigits := [18]
  createdAt := 1700000000002
  responseTime := 1700000000003
  nodeEnv := "test"

/-- The record that the valid form creates in the empty store. -/
def firstRegistration : Registration where
  registrationId := "UDYAM-1700000000001-4FX7K9"
  aadhaarNumber := .string "123456789012"
  entrepreneurName := .string "John Doe"
  panNumber := .string "ABCDE1234F"
  enterpriseName := .string "John Doe"
  constitution := .string "Individual"
  majorActivity := .string "Manufacturing"
  businessAddress := .string ""
  state := .string ""
  district := .string ""
  pincode := .string "110001"
  mobileNumber := .string "9876543210"
  emailAddress := .string "john@example.com"
  investment := .number (.fin 100000)
  turnover := .number (.fin 200000)
  dateOfBirth := some (some 631152000000)
  gstinNumber := .null
  bankAccountNumber := .null
  ifscCode := .null
  nicCode := .null
  dateOfCommencementProduction := none
  consent := .bool true
  status := "PENDING"
  id := 1
  createdAt := 1700000000002

/-- Two entries for the examples of the browse view. -/
def exampleListing : List ListedRegistration :=
  [{ entrepreneurName := "John Doe", enterpriseName := "Doe Traders",
     aadhaarNumber := "123456789012", panNumber := "ABCDE1234F", majorActivity := "Trading" },
   { entrepreneurName := "Jane Roe", enterpriseName := "Johnson Works",
     aadhaarNumber := "234567890123", panNumber := "FGHIJ5678K", majorActivity := "Service" }]

/-- The field `aadhaarNumber` of the form schema. -/
def aadhaarField : SchemaField :=
  { name := "aadhaarNumber", label := "Aadhaar Number / आधार संख्या", type := "text",
    required := true, maxLength := some 12, pattern := some "[0-9]{12}" }

/-- The valid registration of the test suite with values for fields that
are not validated. -/
def formWithExtras : JSObject :=
  setProp (setProp (setProp validForm "constitution" (.string "Partnership"))
    "majorActivity" (.string "Trading")) "nicCode" (.string "12345")

/-! ## Notions of the specification and of the proofs -/

/-- An entry of the validation tables: a field name and its validator. -/
abbrev FieldEntry := String × (JSValue → Except JSError ValidationResult)

/-- What a loop of `validateRegistrationForm` gets for one entry: `none` when
an optional entry is skipped because its raw value is falsy, otherwise the
result of the validator on the raw value. -/
def fieldOutcome (formData : JSObject) (optional : Bool) (entry : FieldEntry) :
    Except JSError (Option ValidationResult) :=
  if optional && !(getProp formData entry.1).truthy then .ok none
  else
    match entry.2 (getProp formData entry.1) with
    | .error e => .error e
    | .ok result => .ok (some result)

/-- What a loop of `validateRegistrationForm` does to `(errors, cleanData)`
with the outcome of one entry. -/
def recordOutcome (formData : JSObject) (acc : JSObject × JSObject) (entry : FieldEntry) :
    Option ValidationResult → JSObject × JSObject
  | none => acc
  | some result =>
    if !result.isValid then (setProp acc.1 entry.1 (.string result.message), acc.2)
    else (acc.1, setProp acc.2 entry.1
      ((result.cleanValue.getD .undefined).or (getProp formData entry.1)))


/-- None of the twelve validators of `validateRegistrationForm` throws on the
raw value of its field. -/
def noValidatorThrows (P : Platform) (now : Int) (formData : JSObject) : Bool :=
  (requiredValidations P now ++ optionalValidations P).all
    (fun entry => (entry.2 (getProp formData entry.1)).toBool)

/-- The subject is `n1` characters of class `C1`, then `n2` characters of
class `C2`, and so on to its end. -/
def SplitsInto : List ((Char → Bool) × Nat) → List Char → Prop
  | [], cs => cs = []
  | (cls, n) :: rest, cs =>
    ∃ a b, cs = a ++ b ∧ a.length = n ∧ (∀ x ∈ a, cls x = true) ∧ SplitsInto rest b

/-- Exactly 10 characters: 5 letters `A-Z`, then 4 digits, then 1 letter
`A-Z`. -/
def IsPanFormat (cs : List Char) : Prop :=
  ∃ a b c, cs = a ++ b ++ c ∧ cs.length = 10 ∧
    a.length = 5 ∧ (∀ x ∈ a, isUpperAZ x = true) ∧
    b.length = 4 ∧ (∀ x ∈ b, isDigit x = true) ∧
    c.length = 1 ∧ (∀ x ∈ c, isUpperAZ x = true)

/-- The form `UDYAM-`, one or more decimal digits, a hyphen, and exactly 6
characters each an uppercase letter `A-Z` or a digit `0-9`. -/
def IsRegistrationIdFormat (s : String) : Prop :=
  ∃ digits token : List Char, s.data = "UDYAM-".data ++ digits ++ ['-'] ++ token ∧
    digits ≠ [] ∧ (∀ c ∈ digits, isDigit c = true) ∧
    token.length = 6 ∧ (∀ c ∈ token, isDigitOrUpper c = true)

/-- Exactly 15 characters: 2 digits, 5 letters `A-Z`, 4 digits, 1 letter
`A-Z`, 1 character of `[1-9A-Z]`, the letter `Z`, and 1 character of
`[0-9A-Z]`. -/
def IsGstinFormat (cs : List Char) : Prop :=
  cs.length = 15 ∧
  SplitsInto [(isDigit, 2), (isUpperAZ, 5), (isDigit, 4), (isUpperAZ, 1), (isGstinEntity, 1),
    (isLetterZ, 1), (isDigitOrUpper, 1)] cs

/-- Exactly 11 characters: 4 letters `A-Z`, the digit `0`, then 6 characters
of `[A-Z0-9]`. -/
def IsIfscFormat (cs : List Char) : Prop :=
  ∃ a b, cs = a ++ ['0'] ++ b ∧ cs.length = 11 ∧
    a.length = 4 ∧ (∀ x ∈ a, isUpperAZ x = true) ∧
    b.length = 6 ∧ (∀ x ∈ b, isDigitOrUpper x = true)

/-- The function `validateAadhaar` with its sequential-pattern check (lines
34-36) removed. -/
def validateAadhaarWithoutSequential (aadhaar : JSValue) : ValidationResult :=
  if !aadhaar.truthy then
    { isValid := false, message := "Aadhaar number is required" }
  else
    match aadhaar with
    | .string s =>
      let cleanAadhaar := removeWhitespace s
      if jsLength cleanAadhaar != 12 then
        { isValid := false, message := "Aadhaar number must be exactly 12 digits" }
      else if !matchRuns [(isDigit, 12)] cleanAadhaar.data then
        { isValid := false, message := "Aadhaar number must contain only digits" }
      else if sameDigitTwelve cleanAadhaar then
        { isValid := false, message := "Invalid Aadhaar number pattern" }
      else
        { isValid := true, message := "Valid Aadhaar number",
          cleanValue := some (.string cleanAadhaar) }
    | _ => { isValid := false, message := "Aadhaar number must be a string" }

/-- Twelve copies of one decimal digit. -/
def TwelveIdenticalDigits (cs : List Char) : Prop :=
  ∃ d, isDigit d = true ∧ cs = List.replicate 12 d

/-- One crore, ten million. -/
def crore : Nat := 10000000

/-- The twelve fields that `validateRegistrationForm` validates. -/
def validatedFields : List String :=
  ["aadhaarNumber", "entrepreneurName", "panNumber", "mobileNumber", "emailAddress",
   "pincode", "investment", "turnover", "dateOfBirth", "gstinNumber", "ifscCode",
   "enterpriseName"]

/-- The values that the `create` call gives to the fields that are not
validated. -/
def HasDefaultFields (r : RegistrationData) : Prop :=
  r.constitution = .string "Individual" ∧ r.majorActivity = .string "Manufacturing" ∧
  r.businessAddress = .string "" ∧ r.state = .string "" ∧ r.district = .string "" ∧
  r.bankAccountNumber = .null ∧ r.nicCode = .null ∧ r.dateOfCommencementProduction = none

/-- Normalization by a validator is idempotent: whenever the validator accepts
an input and returns the clean value `c`, it also accepts `c` and returns the
clean value `c` again. -/
def IdempotentNormalization (f : JSValue → Except JSError ValidationResult) : Prop :=
  ∀ v r c, f v = .ok r → r.isValid = true → r.cleanValue = some c →
    ∃ r', f c = .ok r' ∧ r'.isValid = true ∧ r'.cleanValue = some c

/-- The common shape of the validators of a fixed pattern: the guard on a
falsy value, the normalization, the length check and the pattern check. -/
def patternValidator (normalize : String → String) (n : Nat)
    (runs : List ((Char → Bool) × Nat)) (whenFalsy : ValidationResult)
    (lengthMessage formatMessage validMessage : String) (thrown : JSError) (v : JSValue) :
    Except JSError ValidationResult :=
  if !v.truthy then .ok whenFalsy
  else
    match v with
    | .string s =>
      let clean := normalize s
      if jsLength clean != n then .ok { isValid := false, message := lengthMessage }
      else if !matchRuns runs clean.data then .ok { isValid := false, message := formatMessage }
      else .ok { isValid := true, message := validMessage, cleanValue := some (.string clean) }
    | _ => .error thrown

/-- The characters of `needle` occur in `hay`, one after the other. -/
def ContainsChars (hay needle : String) : Prop :=
  ∃ before after, hay.data = before ++ needle.data ++ after

/-- The string `s` contains the term `t`, compared case-insensitively. -/
def ContainsIgnoringCase (P : Platform) (s t : String) : Prop :=
  ContainsChars (toLowerCase P s) (toLowerCase P t)

/-- An entry of the browse view matches the search term and the activity
filter. -/
def MatchesBrowse (P : Platform) (term activity : String) (reg : ListedRegistration) : Prop :=
  (term = "" ∨ ContainsIgnoringCase P reg.entrepreneurName term ∨
    ContainsIgnoringCase P reg.enterpriseName term ∨
    ContainsIgnoringCase P reg.aadhaarNumber term ∨
    ContainsIgnoringCase P reg.panNumber term) ∧
  (activity = "" ∨ reg.majorActivity = activity)

/-- The lower-case mapping of the platform yields a string of decimal digits
only from a string of decimal digits, as the mapping of Unicode does. -/
def LowerCaseKeepsNonDigits (P : Platform) : Prop :=
  ∀ t : String, (∀ c ∈ (P.lowerUnicode t).data, isDigit c = true) →
    ∀ c ∈ t.data, isDigit c = true

/-- The conditions on a field of the schema with a pattern under which the
unanchored test and the length check together test the entire value: the
pattern is a sequence of classes of visible ASCII characters with counts, its
fixed length is the maximum length of the field, and the field is not
numeric. -/
def hasFixedLengthPattern (field : SchemaField) : Bool :=
  match field.pattern with
  | none => true
  | some pattern =>
    match readPattern (pattern.data.length + 1) pattern.data with
    | none => false
    | some atoms =>
      !pattern.data.isEmpty &&
      field.maxLength == some ((atoms.map (fun atom => atom.2)).sum) &&
      (atoms.map (fun atom => atom.2)).sum != 0 &&
      !(field.type == "number") &&
      atoms.all (fun atom =>
        atom.1.all (fun r => decide (33 ≤ r.1.toNat) && decide (r.2.toNat ≤ 126)))

/-- A leap year of the Gregorian calendar. -/
def isLeapYear (y : Int) : Bool := y % 4 = 0 ∧ (y % 100 ≠ 0 ∨ y % 400 = 0)

/-- The number of days of the month `m` of the year `y`. -/
def daysInMonth (y : Int) (m : Nat) : Nat :=
  if m = 2 then (if isLeapYear y then 29 else 28)
  else if m = 4 ∨ m = 6 ∨ m = 9 ∨ m = 11 then 30 else 31

/-- A date of the calendar: a month from 1 to 12 and a day of that month. -/
def IsCalendarDate (y : Int) (m d : Nat) : Prop :=
  1 ≤ m ∧ m ≤ 12 ∧ 1 ≤ d ∧ d ≤ daysInMonth y m

/-- The date-only string `YYYY-MM-DD` of a date (with the sign and six digits
of an expanded year outside the years 0 to 9999). -/
def isoDateString (y : Int) (m d : Nat) : String :=
  isoYear y ++ "-" ++ padZeros 2 m ++ "-" ++ padZeros 2 d

/-- The start of a decimal number literal: a digit, a point followed by a
digit, or the word `Infinity`. -/
def IsLiteralStart (cs : List Char) : Prop :=
  (∃ d rest, cs = d :: rest ∧ isDigit d = true) ∨
  (∃ d rest, cs = '.' :: d :: rest ∧ isDigit d = true) ∨
  (∃ rest, cs = "Infinity".data ++ rest)

/-- The string begins, after leading white space and an optional sign, with a
decimal number literal. -/
def BeginsWithNumber (s : String) : Prop :=
  ∃ ws sign rest, s.data = ws ++ sign ++ rest ∧ (∀ c ∈ ws, isWhiteSpace c = true) ∧
    (sign = [] ∨ sign = ['+'] ∨ sign = ['-']) ∧ IsLiteralStart rest

/-- A length between 2 and 200 inclusive, and only ASCII letters, digits,
whitespace and the characters `. , & - ( )`. -/
def IsAllowedName (cs : List Char) : Prop :=
  2 ≤ cs.length ∧ cs.length ≤ 200 ∧ ∀ c ∈ cs, isNameChar c = true

/-- The input with all whitespace, hyphens and parentheses removed. -/
def stripMobileFormatting (s : String) : String :=
  ⟨s.data.filter (fun c => !isMobileFormatting c)⟩

/-- Exactly 10 decimal digits whose first digit is 6, 7, 8 or 9. -/
def IsMobileDigits (cs : List Char) : Prop :=
  cs.length = 10 ∧ (∀ c ∈ cs, isDigit c = true) ∧
    ∃ d rest, cs = d :: rest ∧ isSixToNine d = true

/-- Exactly 6 decimal digits. -/
def IsPincodeDigits (cs : List Char) : Prop :=
  cs.length = 6 ∧ ∀ c ∈ cs, isDigit c = true

/-- Exactly 12 decimal digits that are not all the same digit. -/
def TwelveDigitsNotAllSame (cs : List Char) : Prop :=
  cs.length = 12 ∧ (∀ c ∈ cs, isDigit c = true) ∧ ¬ ∃ d, ∀ c ∈ cs, c = d

/-! ## Auxiliary facts on strings and patterns -/

theorem matchRuns_single (cls : Char → Bool) (n : Nat) (cs : List Char) :
    matchRuns [(cls, n)] cs = true ↔ cs.length = n ∧ ∀ x ∈ cs, cls x = true := by
  simp only [matchRuns, Bool.and_eq_true, beq_iff_eq, List.length_take, List.all_eq_true,
    List.isEmpty_iff, List.drop_eq_nil_iff]
  constructor
  · rintro ⟨⟨h1, h2⟩, h3⟩
    have hlen : cs.length = n := by omega
    refine ⟨hlen, ?_⟩
    have : cs.take n = cs := by rw [← hlen]; exact List.take_length cs
    rw [this] at h2
    exact h2
  · rintro ⟨h1, h2⟩
    refine ⟨⟨by omega, ?_⟩, by omega⟩
    intro x hx
    exact h2 x (List.mem_of_mem_take hx)

theorem jsLength_eq_length (cs : List Char) (h : ∀ x ∈ cs, x.toNat < 65536) :
    jsLength ⟨cs⟩ = cs.length := by
  unfold jsLength
  induction cs with
  | nil => rfl
  | cons c rest ih =>
    have hc : c.toNat < 0x10000 := h c (List.mem_cons_self _ _)
    simp only [List.map_cons, List.sum_cons, hc, if_true, List.length_cons]
    have := ih (fun x hx => h x (List.mem_cons_of_mem _ hx))
    simp only at this
    omega

theorem isDigit_toNat_lt {c : Char} (h : isDigit c = true) : c.toNat < 65536 := by
  simp only [isDigit, Bool.and_eq_true, decide_eq_true_eq] at h
  omega

theorem length_le_jsLength (s : String) : s.data.length ≤ jsLength s := by
  unfold jsLength
  induction s.data with
  | nil => simp
  | cons c rest ih =>
    simp only [List.map_cons, List.sum_cons, List.length_cons]
    split_ifs <;> omega

theorem sequentialPattern_length {s : String} (h : sequentialPattern s = true) :
    s.data.length = 10 := by
  simp only [sequentialPattern, Bool.or_eq_true, beq_iff_eq] at h
  rcases h with (h | h) | h <;> subst h <;> rfl

theorem sameDigitTwelve_iff (cs : List Char) (hlen : cs.length = 12)
    (hd : ∀ x ∈ cs, isDigit x = true) :
    sameDigitTwelve ⟨cs⟩ = true ↔ ∃ d, ∀ x ∈ cs, x = d := by
  cases cs with
  | nil => simp at hlen
  | cons d rest =>
    have hr : rest.length = 11 := by simpa using hlen
    have hdd : isDigit d = true := hd d (List.mem_cons_self _ _)
    simp only [sameDigitTwelve, hdd, hr, Bool.true_and, beq_self_eq_true, List.all_eq_true,
      beq_iff_eq]
    constructor
    · intro h
      refine ⟨d, ?_⟩
      intro x hx
      rcases List.mem_cons.mp hx with rfl | hx
      · rfl
      · exact h x hx
    · rintro ⟨e, he⟩ x hx
      rw [he x (List.mem_cons_of_mem _ hx), he d (List.mem_cons_self _ _)]

theorem removeWhitespace_eq_self (s : String) (h : ∀ c ∈ s.data, isWhiteSpace c = false) :
    removeWhitespace s = s := by
  unfold removeWhitespace
  have : s.data.filter (fun c => !isWhiteSpace c) = s.data := by
    rw [List.filter_eq_self]
    intro c hc
    simp [h c hc]
  rw [this]

theorem isDigit_not_whiteSpace {c : Char} (h : isDigit c = true) : isWhiteSpace c = false := by
  simp only [isDigit, Bool.and_eq_true, decide_eq_true_eq] at h
  simp only [isWhiteSpace, Bool.or_eq_false_iff, beq_eq_false_iff_ne, ne_eq,
    Bool.and_eq_false_imp, decide_eq_true_eq, decide_eq_false_iff_not]
  omega

/-- The outcome of `validateAadhaar` on a string, in terms of its cleaned
value. -/
theorem validateAadhaar_string_valid (s : String) :
    (validateAadhaar (.string s)).isValid = true ↔
      ((removeWhitespace s).data.length = 12 ∧
        (∀ c ∈ (removeWhitespace s).data, isDigit c = true) ∧
        ¬ ∃ d, ∀ c ∈ (removeWhitespace s).data, c = d) := by
  set cs := (removeWhitespace s).data with hcs
  have hmk : removeWhitespace s = ⟨cs⟩ := rfl
  by_cases hempty : s.data = []
  · have h1 : (validateAadhaar (.string s)).isValid = false := by
      simp [validateAadhaar, JSValue.truthy, hempty]
    have h2 : cs = [] := by simp [hcs, removeWhitespace, hempty]
    simp [h1, h2]
  · have htr : (JSValue.string s).truthy = true := by
      simp [JSValue.truthy, hempty]
    simp only [validateAadhaar, htr, Bool.not_true, Bool.false_eq_true, if_false]
    by_cases hlen : jsLength (removeWhitespace s) = 12
    · by_cases hm : matchRuns [(isDigit, 12)] cs = true
      · obtain ⟨hl, hdig⟩ := (matchRuns_single _ _ _).mp hm
        have hseq : sequentialPattern (removeWhitespace s) = false := by
          by_contra hne
          have := sequentialPattern_length (Bool.not_eq_false _ ▸ hne : _ = true)
          rw [← hcs] at this
          omega
        by_cases hsame : sameDigitTwelve (removeWhitespace s) = true
        · have := (sameDigitTwelve_iff cs hl hdig).mp (hmk ▸ hsame)
          simp [hlen, ← hcs, hm, hsame, this, hl]
        · have hn : ¬ ∃ d, ∀ x ∈ cs, x = d := fun h =>
            hsame (hmk ▸ (sameDigitTwelve_iff cs hl hdig).mpr h)
          simp only [Bool.not_eq_true] at hsame
          simp [hlen, ← hcs, hm, hsame, hseq, hl, hn]
          exact hdig
      · have : ¬ (cs.length = 12 ∧ ∀ x ∈ cs, isDigit x = true) := fun h =>
          hm ((matchRuns_single _ _ _).mpr h)
        simp only [Bool.not_eq_true] at hm
        simp only [hlen, ← hcs, hm]
        simp
        intro h1 h2
        exact absurd ⟨h1, h2⟩ this
    · have : ¬ (cs.length = 12 ∧ ∀ x ∈ cs, isDigit x = true) := by
        rintro ⟨h1, h2⟩
        apply hlen
        rw [hmk, jsLength_eq_length cs (fun x hx => isDigit_toNat_lt (h2 x hx))]
        exact h1
      simp [hlen]
      intro h1 h2
      exact absurd ⟨h1, h2⟩ this

theorem validateAadhaar_string_clean (s : String)
    (h : (validateAadhaar (.string s)).isValid = true) :
    (validateAadhaar (.string s)).cleanValue = some (.string (removeWhitespace s)) := by
  revert h
  simp only [validateAadhaar]
  split_ifs <;> simp

/-! ## The validators -/

/-- C1: for every string input, `validateAadhaar` reports valid if and only if
the input with all whitespace removed is exactly 12 decimal digits that are
not all the same digit; when valid, `cleanValue` is that whitespace-stripped
string; and a string of 12 digits, not all identical, is accepted and returned
unchanged. -/
theorem validateAadhaar_spec (s : String) :
    ((validateAadhaar (.string s)).isValid = true ↔
      TwelveDigitsNotAllSame (removeWhitespace s).data) ∧
    ((validateAadhaar (.string s)).isValid = true →
      (validateAadhaar (.string s)).cleanValue = some (.string (removeWhitespace s))) ∧
    (TwelveDigitsNotAllSame s.data →
      (validateAadhaar (.string s)).isValid = true ∧
      (validateAadhaar (.string s)).cleanValue = some (.string s)) := by
  refine ⟨validateAadhaar_string_valid s, validateAadhaar_string_clean s, ?_⟩
  intro h
  have hs : removeWhitespace s = s :=
    removeWhitespace_eq_self s (fun c hc => isDigit_not_whiteSpace (h.2.1 c hc))
  have hv : (validateAadhaar (.string s)).isValid = true :=
    (validateAadhaar_string_valid s).mpr (by rw [hs]; exact h)
  refine ⟨hv, ?_⟩
  rw [validateAadhaar_string_clean s hv, hs]

/-! ## Objects -/

theorem hasKey_cons (kv : String × JSValue) (o : JSObject) (k : String) :
    hasKey (kv :: o) k = (kv.1 == k || hasKey o k) := by
  simp [hasKey]

theorem getProp_cons (kv : String × JSValue) (o : JSObject) (k : String) :
    getProp (kv :: o) k = if k == kv.1 then kv.2 else getProp o k := by
  obtain ⟨a, b⟩ := kv
  unfold getProp
  rw [List.lookup_cons]
  cases h : (k == a) <;> simp

theorem getProp_of_not_hasKey (o : JSObject) (k : String) (h : hasKey o k = false) :
    getProp o k = .undefined := by
  induction o with
  | nil => rfl
  | cons kv o ih =>
    rw [hasKey_cons, Bool.or_eq_false_iff] at h
    rw [getProp_cons, ih h.2]
    have : (k == kv.1) = false := by
      have h1 := h.1
      simp only [beq_eq_false_iff_ne, ne_eq] at h1 ⊢
      exact fun e => h1 e.symm
    simp [this]

theorem hasKey_setProp (o : JSObject) (k k' : String) (v : JSValue) :
    hasKey (setProp o k v) k' = (hasKey o k' || k == k') := by
  unfold setProp
  by_cases h : hasKey o k = true
  · rw [if_pos h]
    have hmap : ∀ (l : JSObject), hasKey (l.map (fun kv => if kv.1 == k then (k, v) else kv)) k'
        = hasKey l k' := by
      intro l
      induction l with
      | nil => rfl
      | cons kv l ih =>
        rw [List.map_cons, hasKey_cons, hasKey_cons, ih]
        by_cases hk : kv.1 = k
        · simp [hk]
        · simp [hk]
    rw [hmap]
    by_cases hk : k = k'
    · subst hk; simp [h]
    · simp [hk]
  · rw [if_neg h]
    simp [hasKey, List.any_append]

theorem getProp_append_of_not_hasKey (o o' : JSObject) (k : String) (h : hasKey o k = false) :
    getProp (o ++ o') k = getProp o' k := by
  induction o with
  | nil => rfl
  | cons kv o ih =>
    rw [hasKey_cons, Bool.or_eq_false_iff] at h
    rw [List.cons_append, getProp_cons, ih h.2]
    have : (k == kv.1) = false := by
      have h1 := h.1
      simp only [beq_eq_false_iff_ne, ne_eq] at h1 ⊢
      exact fun e => h1 e.symm
    simp [this]

theorem getProp_append_of_hasKey (o o' : JSObject) (k : String) (h : hasKey o k = true) :
    getProp (o ++ o') k = getProp o k := by
  induction o with
  | nil => simp [hasKey] at h
  | cons kv o ih =>
    rw [List.cons_append, getProp_cons, getProp_cons]
    by_cases hk : (k == kv.1) = true
    · simp [hk]
    · simp only [hk, Bool.false_eq_true, if_false]
      apply ih
      rw [hasKey_cons] at h
      simp only [Bool.or_eq_true, beq_iff_eq] at h
      rcases h with h | h
      · exact absurd (by simp [h]) hk
      · exact h

theorem getProp_setProp_same (o : JSObject) (k : String) (v : JSValue) :
    getProp (setProp o k v) k = v := by
  unfold setProp
  by_cases h : hasKey o k = true
  · rw [if_pos h]
    induction o with
    | nil => simp [hasKey] at h
    | cons kv o ih =>
      rw [List.map_cons, getProp_cons]
      by_cases hk : kv.1 = k
      · simp [hk]
      · have hk' : (k == kv.1) = false := by
          simp only [beq_eq_false_iff_ne, ne_eq]; exact fun e => hk e.symm
        have hk2 : (kv.1 == k) = false := by simpa using hk
        simp only [hk2, if_false, hk', Bool.false_eq_true]
        apply ih
        rw [hasKey_cons] at h
        simpa [hk] using h
  · rw [if_neg h]
    rw [getProp_append_of_not_hasKey _ _ _ (by simpa using h)]
    simp [getProp]

theorem getProp_setProp_other (o : JSObject) (k k' : String) (v : JSValue) (hne : k' ≠ k) :
    getProp (setProp o k v) k' = getProp o k' := by
  unfold setProp
  by_cases h : hasKey o k = true
  · rw [if_pos h]
    clear h
    induction o with
    | nil => rfl
    | cons kv o ih =>
      rw [List.map_cons, getProp_cons, getProp_cons, ih]
      by_cases hk : kv.1 = k
      · have h1 : (k' == k) = false := by simpa using hne
        have h2 : (k' == kv.1) = false := by rw [hk]; exact h1
        simp [hk, h1, h2]
      · simp [hk]
  · rw [if_neg h]
    by_cases h' : hasKey o k' = true
    · exact getProp_append_of_hasKey _ _ _ h'
    · have h'' : hasKey o k' = false := by simpa using h'
      rw [getProp_append_of_not_hasKey _ _ _ h'', getProp_of_not_hasKey _ _ h'']
      have : (k' == k) = false := by simpa using hne
      simp [getProp, List.lookup, this]

/-! ## The loops of the form validation -/

theorem validateField_eq (formData : JSObject) (acc : JSObject × JSObject) (e : FieldEntry) :
    validateField formData acc e =
      (fieldOutcome formData false e).map (recordOutcome formData acc e) := by
  unfold validateField fieldOutcome recordOutcome
  cases h : e.2 (getProp formData e.1) with
  | error err => rfl
  | ok res =>
    simp only [Bool.false_and, Bool.false_eq_true, if_false, Except.map]
    split <;> rfl

theorem validateOptionalField_eq (formData : JSObject) (acc : JSObject × JSObject)
    (e : FieldEntry) :
    validateOptionalField formData acc e =
      (fieldOutcome formData true e).map (recordOutcome formData acc e) := by
  unfold validateOptionalField
  by_cases ht : (getProp formData e.1).truthy = true
  · rw [if_pos ht, validateField_eq]
    simp [fieldOutcome, ht]
  · rw [if_neg ht]
    simp only [Bool.not_eq_true] at ht
    simp [fieldOutcome, ht, Except.map, recordOutcome]

/-- The keys of `errors` and `cleanData` after a loop that returned. -/
theorem forEachField_keys (formData : JSObject) (optional : Bool)
    (step : JSObject × JSObject → FieldEntry → Except JSError (JSObject × JSObject))
    (hstep : ∀ acc e, step acc e =
      (fieldOutcome formData optional e).map (recordOutcome formData acc e))
    (L : List FieldEntry) (acc acc' : JSObject × JSObject)
    (h : forEachField step L acc = .ok acc') :
    (∀ e ∈ L, ∃ o, fieldOutcome formData optional e = .ok o) ∧
    (∀ k, hasKey acc'.1 k = true ↔ (hasKey acc.1 k = true ∨
      ∃ e ∈ L, e.1 = k ∧ ∃ res, fieldOutcome formData optional e = .ok (some res) ∧
        res.isValid = false)) ∧
    (∀ k, hasKey acc'.2 k = true ↔ (hasKey acc.2 k = true ∨
      ∃ e ∈ L, e.1 = k ∧ ∃ res, fieldOutcome formData optional e = .ok (some res) ∧
        res.isValid = true)) := by
  induction L generalizing acc with
  | nil =>
    simp only [forEachField, Except.ok.injEq] at h
    subst h
    simp
  | cons e L ih =>
    rw [forEachField, hstep] at h
    cases ho : fieldOutcome formData optional e with
    | error err => rw [ho] at h; simp [Except.map] at h
    | ok o =>
      rw [ho] at h
      simp only [Except.map] at h
      obtain ⟨h1, h2, h3⟩ := ih _ h
      refine ⟨?_, ?_, ?_⟩
      · intro e' he'
        rcases List.mem_cons.mp he' with rfl | he'
        · exact ⟨o, ho⟩
        · exact h1 e' he'
      · intro k
        rw [h2 k]
        cases o with
        | none =>
          simp only [recordOutcome, List.mem_cons, exists_eq_or_imp, ho, Except.ok.injEq,
            false_and, exists_false, and_false, false_or, reduceCtorEq]
        | some res =>
          cases hv : res.isValid with
          | true =>
            simp only [recordOutcome, hv, Bool.not_true, Bool.false_eq_true, if_false,
              List.mem_cons, exists_eq_or_imp, ho, Except.ok.injEq, Option.some.injEq]
            constructor
            · rintro (h | h)
              · exact Or.inl h
              · exact Or.inr (Or.inr h)
            · rintro (h | ⟨_, res', rfl, hres⟩ | h)
              · exact Or.inl h
              · rw [hv] at hres; exact absurd hres (by simp)
              · exact Or.inr h
          | false =>
            simp only [recordOutcome, hv, Bool.not_false, if_true, hasKey_setProp,
              Bool.or_eq_true, beq_iff_eq, List.mem_cons, exists_eq_or_imp, ho,
              Except.ok.injEq, Option.some.injEq]
            constructor
            · rintro ((h | h) | h)
              · exact Or.inl h
              · exact Or.inr (Or.inl ⟨h, res, rfl, hv⟩)
              · exact Or.inr (Or.inr h)
            · rintro (h | ⟨h, _⟩ | h)
              · exact Or.inl (Or.inl h)
              · exact Or.inl (Or.inr h)
              · exact Or.inr h
      · intro k
        rw [h3 k]
        cases o with
        | none =>
          simp only [recordOutcome, List.mem_cons, exists_eq_or_imp, ho, Except.ok.injEq,
            false_and, exists_false, and_false, false_or, reduceCtorEq]
        | some res =>
          cases hv : res.isValid with
          | false =>
            simp only [recordOutcome, hv, Bool.not_false, if_true,
              List.mem_cons, exists_eq_or_imp, ho, Except.ok.injEq, Option.some.injEq]
            constructor
            · rintro (h | h)
              · exact Or.inl h
              · exact Or.inr (Or.inr h)
            · rintro (h | ⟨_, res', rfl, hres⟩ | h)
              · exact Or.inl h
              · rw [hv] at hres; exact absurd hres (by simp)
              · exact Or.inr h
          | true =>
            simp only [recordOutcome, hv, Bool.not_true, Bool.false_eq_true, if_false,
              hasKey_setProp, Bool.or_eq_true, beq_iff_eq, List.mem_cons, exists_eq_or_imp,
              ho, Except.ok.injEq, Option.some.injEq]
            constructor
            · rintro ((h | h) | h)
              · exact Or.inl h
              · exact Or.inr (Or.inl ⟨h, res, rfl, hv⟩)
              · exact Or.inr (Or.inr h)
            · rintro (h | ⟨h, _⟩ | h)
              · exact Or.inl (Or.inl h)
              · exact Or.inl (Or.inr h)
              · exact Or.inr h

/-- A loop returns when no validator throws. -/
theorem forEachField_returns (formData : JSObject) (optional : Bool)
    (step : JSObject × JSObject → FieldEntry → Except JSError (JSObject × JSObject))
    (hstep : ∀ acc e, step acc e =
      (fieldOutcome formData optional e).map (recordOutcome formData acc e))
    (L : List FieldEntry) (acc : JSObject × JSObject)
    (h : ∀ e ∈ L, ∃ o, fieldOutcome formData optional e = .ok o) :
    ∃ acc', forEachField step L acc = .ok acc' := by
  induction L generalizing acc with
  | nil => exact ⟨acc, rfl⟩
  | cons e L ih =>
    obtain ⟨o, ho⟩ := h e (List.mem_cons_self _ _)
    rw [forEachField, hstep, ho]
    simp only [Except.map]
    exact ih _ (fun e' he' => h e' (List.mem_cons_of_mem _ he'))

/-- The values in `cleanData` after a loop over entries of distinct names. -/
theorem forEachField_values (formData : JSObject) (optional : Bool)
    (step : JSObject × JSObject → FieldEntry → Except JSError (JSObject × JSObject))
    (hstep : ∀ acc e, step acc e =
      (fieldOutcome formData optional e).map (recordOutcome formData acc e))
    (L : List FieldEntry) (acc acc' : JSObject × JSObject)
    (h : forEachField step L acc = .ok acc') (hnd : (L.map (fun e => e.1)).Nodup) :
    (∀ k, k ∉ L.map (fun e => e.1) → getProp acc'.2 k = getProp acc.2 k) ∧
    (∀ e ∈ L, ∀ res, fieldOutcome formData optional e = .ok (some res) → res.isValid = true →
      getProp acc'.2 e.1 = (res.cleanValue.getD .undefined).or (getProp formData e.1)) := by
  induction L generalizing acc with
  | nil =>
    simp only [forEachField, Except.ok.injEq] at h
    subst h
    simp
  | cons e L ih =>
    rw [forEachField, hstep] at h
    cases ho : fieldOutcome formData optional e with
    | error err => rw [ho] at h; simp [Except.map] at h
    | ok o =>
      rw [ho] at h
      simp only [Except.map] at h
      rw [List.map_cons, List.nodup_cons] at hnd
      obtain ⟨h1, h2⟩ := ih _ h hnd.2
      have hrec : ∀ k, k ≠ e.1 → getProp (recordOutcome formData acc e o).2 k = getProp acc.2 k := by
        intro k hk
        cases o with
        | none => rfl
        | some res =>
          cases hv : res.isValid with
          | false => simp [recordOutcome, hv]
          | true =>
            simp only [recordOutcome, hv, Bool.not_true, Bool.false_eq_true, if_false]
            exact getProp_setProp_other _ _ _ _ hk
      refine ⟨?_, ?_⟩
      · intro k hk
        rw [List.map_cons, List.mem_cons, not_or] at hk
        rw [h1 k hk.2, hrec k hk.1]
      · intro e' he' res hres hv
        rcases List.mem_cons.mp he' with rfl | he'
        · rw [h1 _ hnd.1]
          rw [ho] at hres
          simp only [Except.ok.injEq] at hres
          subst hres
          simp only [recordOutcome, hv, Bool.not_true, Bool.false_eq_true, if_false]
          exact getProp_setProp_same _ _ _
        · exact h2 e' he' res hres hv

/-! ## The result of the form validation -/

theorem requiredNames (P : Platform) (now : Int) :
    (requiredValidations P now).map (fun e => e.1) =
      ["aadhaarNumber", "entrepreneurName", "panNumber", "mobileNumber", "emailAddress",
       "pincode", "investment", "turnover", "dateOfBirth"] := rfl

theorem optionalNames (P : Platform) :
    (optionalValidations P).map (fun e => e.1) = ["gstinNumber", "ifscCode", "enterpriseName"] :=
  rfl

theorem fieldNames_nodup (P : Platform) (now : Int) :
    ((requiredValidations P now).map (fun e => e.1) ++
      (optionalValidations P).map (fun e => e.1)).Nodup := by
  rw [requiredNames, optionalNames]
  decide

theorem fieldOutcome_required (formData : JSObject) (e : FieldEntry)
    (o : Option ValidationResult) (h : fieldOutcome formData false e = .ok o) :
    ∃ res, o = some res ∧ e.2 (getProp formData e.1) = .ok res := by
  unfold fieldOutcome at h
  simp only [Bool.false_and, Bool.false_eq_true, if_false] at h
  cases hr : e.2 (getProp formData e.1) with
  | error err => rw [hr] at h; simp at h
  | ok res =>
    rw [hr] at h
    simp only [Except.ok.injEq] at h
    exact ⟨res, h.symm, rfl⟩

theorem fieldOutcome_optional (formData : JSObject) (e : FieldEntry)
    (o : Option ValidationResult) (h : fieldOutcome formData true e = .ok o) :
    ((getProp formData e.1).truthy = false ∧ o = none) ∨
    ((getProp formData e.1).truthy = true ∧
      ∃ res, o = some res ∧ e.2 (getProp formData e.1) = .ok res) := by
  unfold fieldOutcome at h
  cases ht : (getProp formData e.1).truthy with
  | false =>
    simp only [ht, Bool.not_false, Bool.and_self, if_true, Except.ok.injEq] at h
    exact Or.inl ⟨rfl, h.symm⟩
  | true =>
    simp only [ht, Bool.not_true, Bool.and_false, Bool.false_eq_true, if_false] at h
    cases hr : e.2 (getProp formData e.1) with
    | error err => rw [hr] at h; simp at h
    | ok res =>
      rw [hr] at h
      simp only [Except.ok.injEq] at h
      exact Or.inr ⟨rfl, res, h.symm, rfl⟩

/-- The two loops behind a result of `validateRegistrationForm`. -/
theorem validateRegistrationForm_loops (P : Platform) (now : Int) (formData : JSObject)
    (v : FormValidation) (h : validateRegistrationForm P now formData = .ok v) :
    ∃ acc, forEachField (validateField formData) (requiredValidations P now) ([], []) = .ok acc ∧
      forEachField (validateOptionalField formData) (optionalValidations P) acc =
        .ok (v.errors, v.cleanData) ∧
      v.isValid = (v.errors.length == 0) := by
  unfold validateRegistrationForm at h
  cases h1 : forEachField (validateField formData) (requiredValidations P now) ([], []) with
  | error err => rw [h1] at h; simp at h
  | ok acc =>
    rw [h1] at h
    simp only at h
    cases h2 : forEachField (validateOptionalField formData) (optionalValidations P) acc with
    | error err => rw [h2] at h; simp at h
    | ok out =>
      rw [h2] at h
      simp only [Except.ok.injEq] at h
      subst h
      exact ⟨acc, rfl, h2, rfl⟩

theorem hasKey_nil (k : String) : hasKey [] k = false := rfl

/-- The keys of the two maps in terms of the entries of the two tables. -/
theorem validateRegistrationForm_keys (P : Platform) (now : Int) (formData : JSObject)
    (v : FormValidation) (h : validateRegistrationForm P now formData = .ok v) (b : Bool) (k : String) :
    hasKey (if b then v.cleanData else v.errors) k = true ↔
      ((∃ e ∈ requiredValidations P now, e.1 = k ∧
          ∃ res, fieldOutcome formData false e = .ok (some res) ∧ res.isValid = b) ∨
       (∃ e ∈ optionalValidations P, e.1 = k ∧
          ∃ res, fieldOutcome formData true e = .ok (some res) ∧ res.isValid = b)) := by
  obtain ⟨acc, h1, h2, -⟩ := validateRegistrationForm_loops P now formData v h
  obtain ⟨-, r2, r3⟩ := forEachField_keys formData false _ (validateField_eq formData) _ _ _ h1
  obtain ⟨-, o2, o3⟩ :=
    forEachField_keys formData true _ (validateOptionalField_eq formData) _ _ _ h2
  cases b with
  | true =>
    simp only [if_true]
    rw [o3 k, r3 k]
    simp [hasKey_nil]
  | false =>
    simp only [Bool.false_eq_true, if_false]
    rw [o2 k, r2 k]
    simp [hasKey_nil]

/-- Two entries of the two tables with the same field name are the same entry
of the same table. -/
theorem entry_unique (P : Platform) (now : Int) (e e' : FieldEntry) (hname : e.1 = e'.1) :
    (e ∈ requiredValidations P now → e' ∈ requiredValidations P now → e = e') ∧
    (e ∈ optionalValidations P → e' ∈ optionalValidations P → e = e') ∧
    (e ∈ requiredValidations P now → e' ∈ optionalValidations P → False) := by
  have hnd := fieldNames_nodup P now
  rw [List.nodup_append] at hnd
  obtain ⟨hr, ho, hdis⟩ := hnd
  refine ⟨fun h1 h2 => List.inj_on_of_nodup_map hr h1 h2 hname,
    fun h1 h2 => List.inj_on_of_nodup_map ho h1 h2 hname, fun h1 h2 => ?_⟩
  exact hdis (List.mem_map_of_mem (fun e => e.1) h1)
    (hname ▸ List.mem_map_of_mem (fun e => e.1) h2)

theorem fieldOutcome_required_iff (formData : JSObject) (e : FieldEntry)
    (res : ValidationResult) :
    fieldOutcome formData false e = .ok (some res) ↔ e.2 (getProp formData e.1) = .ok res := by
  unfold fieldOutcome
  simp only [Bool.false_and, Bool.false_eq_true, if_false]
  cases hr : e.2 (getProp formData e.1) <;> simp

/-- A required field after a form validation that returned: its validator
returned, the field is a key of `errors` exactly when it was rejected and of
`cleanData` exactly when it was accepted, and then its entry in `cleanData`
is `result.cleanValue || formData[field]`. -/
theorem validateRegistrationForm_required (P : Platform) (now : Int) (formData : JSObject)
    (v : FormValidation) (h : validateRegistrationForm P now formData = .ok v)
    (e : FieldEntry) (he : e ∈ requiredValidations P now) :
    ∃ res, e.2 (getProp formData e.1) = .ok res ∧
      (hasKey v.errors e.1 = true ↔ res.isValid = false) ∧
      (hasKey v.cleanData e.1 = true ↔ res.isValid = true) ∧
      (res.isValid = true → getProp v.cleanData e.1 =
        (res.cleanValue.getD .undefined).or (getProp formData e.1)) := by
  obtain ⟨acc, h1, h2, -⟩ := validateRegistrationForm_loops P now formData v h
  obtain ⟨r1, -, -⟩ := forEachField_keys formData false _ (validateField_eq formData) _ _ _ h1
  obtain ⟨o, ho⟩ := r1 e he
  obtain ⟨res, rfl, hres⟩ := fieldOutcome_required formData e o ho
  have hkey : ∀ b : Bool, hasKey (if b then v.cleanData else v.errors) e.1 = true ↔
      res.isValid = b := by
    intro b
    rw [validateRegistrationForm_keys P now formData v h b e.1]
    constructor
    · rintro (⟨e', he', hname, res', hres', hb⟩ | ⟨e', he', hname, -⟩)
      · have := (entry_unique P now e' e hname).1 he' he
        subst this
        rw [ho] at hres'
        simp only [Except.ok.injEq, Option.some.injEq] at hres'
        rw [hres']; exact hb
      · exact ((entry_unique P now e e' hname.symm).2.2 he he').elim
    · intro hb
      exact Or.inl ⟨e, he, rfl, res, ho, hb⟩
  refine ⟨res, hres, by simpa using hkey false, by simpa using hkey true, ?_⟩
  intro hvalid
  have hnd := fieldNames_nodup P now
  rw [List.nodup_append] at hnd
  obtain ⟨hr, hod, hdis⟩ := hnd
  obtain ⟨-, v1⟩ :=
    forEachField_values formData false _ (validateField_eq formData) _ _ _ h1 hr
  obtain ⟨v2, -⟩ :=
    forEachField_values formData true _ (validateOptionalField_eq formData) _ _ _ h2 hod
  have hnot : e.1 ∉ (optionalValidations P).map (fun e => e.1) :=
    fun hin => hdis (List.mem_map_of_mem (fun e => e.1) he) hin
  have := v2 e.1 hnot
  simp only at this
  rw [this, v1 e he res ho hvalid]

/-- An optional field after a form validation that returned: with a falsy
raw value it is a key of neither map; otherwise its validator returned, and
the field is a key of `errors` exactly when it was rejected and of `cleanData`
exactly when it was accepted. -/
theorem validateRegistrationForm_optional (P : Platform) (now : Int) (formData : JSObject)
    (v : FormValidation) (h : validateRegistrationForm P now formData = .ok v)
    (e : FieldEntry) (he : e ∈ optionalValidations P) :
    ((getProp formData e.1).truthy = false →
      hasKey v.errors e.1 = false ∧ hasKey v.cleanData e.1 = false) ∧
    ((getProp formData e.1).truthy = true →
      ∃ res, e.2 (getProp formData e.1) = .ok res ∧
        (hasKey v.errors e.1 = true ↔ res.isValid = false) ∧
        (hasKey v.cleanData e.1 = true ↔ res.isValid = true) ∧
        (res.isValid = true → getProp v.cleanData e.1 =
          (res.cleanValue.getD .undefined).or (getProp formData e.1))) := by
  obtain ⟨acc, h1, h2, -⟩ := validateRegistrationForm_loops P now formData v h
  obtain ⟨r1, -, -⟩ :=
    forEachField_keys formData true _ (validateOptionalField_eq formData) _ _ _ h2
  obtain ⟨o, ho⟩ := r1 e he
  have hkey : ∀ b : Bool, hasKey (if b then v.cleanData else v.errors) e.1 = true ↔
      ∃ res, o = some res ∧ res.isValid = b := by
    intro b
    rw [validateRegistrationForm_keys P now formData v h b e.1]
    constructor
    · rintro (⟨e', he', hname, -⟩ | ⟨e', he', hname, res', hres', hb⟩)
      · exact ((entry_unique P now e' e hname).2.2 he' he).elim
      · have := (entry_unique P now e' e hname).2.1 he' he
        subst this
        rw [ho] at hres'
        simp only [Except.ok.injEq] at hres'
        exact ⟨res', hres', hb⟩
    · rintro ⟨res, rfl, hb⟩
      exact Or.inr ⟨e, he, rfl, res, ho, hb⟩
  rcases fieldOutcome_optional formData e o ho with ⟨ht, rfl⟩ | ⟨ht, res, rfl, hres⟩
  · refine ⟨fun _ => ⟨?_, ?_⟩, fun ht' => by rw [ht] at ht'; exact absurd ht' (by simp)⟩
    · have := hkey false
      simp only [Bool.false_eq_true, if_false, false_and, exists_false, iff_false,
        Bool.not_eq_true, reduceCtorEq] at this
      exact this
    · have := hkey true
      simp only [if_true, false_and, exists_false, iff_false, Bool.not_eq_true,
        reduceCtorEq] at this
      exact this
  · refine ⟨fun ht' => by rw [ht] at ht'; exact absurd ht' (by simp), fun _ => ?_⟩
    refine ⟨res, hres, by simpa using hkey false, by simpa using hkey true, ?_⟩
    intro hvalid
    have hnd := fieldNames_nodup P now
    rw [List.nodup_append] at hnd
    obtain ⟨-, hod, -⟩ := hnd
    obtain ⟨-, v2⟩ :=
      forEachField_values formData true _ (validateOptionalField_eq formData) _ _ _ h2 hod
    exact v2 e he res ho hvalid

/-- A name outside the two tables is a key of neither map. -/
theorem validateRegistrationForm_other (P : Platform) (now : Int) (formData : JSObject)
    (v : FormValidation) (h : validateRegistrationForm P now formData = .ok v) (k : String)
    (hk : k ∉ (requiredValidations P now).map (fun e => e.1) ++
      (optionalValidations P).map (fun e => e.1)) :
    hasKey v.errors k = false ∧ hasKey v.cleanData k = false := by
  have hkey : ∀ b : Bool, ¬ hasKey (if b then v.cleanData else v.errors) k = true := by
    intro b
    rw [validateRegistrationForm_keys P now formData v h b k]
    rintro (⟨e, he, hname, -⟩ | ⟨e, he, hname, -⟩)
    · exact hk (List.mem_append_left _ (hname ▸ List.mem_map_of_mem (fun e => e.1) he))
    · exact hk (List.mem_append_right _ (hname ▸ List.mem_map_of_mem (fun e => e.1) he))
  exact ⟨by simpa using hkey false, by simpa using hkey true⟩

/-- No field is a key of both maps. -/
theorem validateRegistrationForm_disjoint (P : Platform) (now : Int) (formData : JSObject)
    (v : FormValidation) (h : validateRegistrationForm P now formData = .ok v) (k : String) :
    ¬ (hasKey v.errors k = true ∧ hasKey v.cleanData k = true) := by
  rintro ⟨hE, hC⟩
  have hE' := (validateRegistrationForm_keys P now formData v h false k).mp (by simpa using hE)
  have hC' := (validateRegistrationForm_keys P now formData v h true k).mp (by simpa using hC)
  rcases hE' with ⟨e, he, hname, res, hres, hb⟩ | ⟨e, he, hname, res, hres, hb⟩ <;>
  rcases hC' with ⟨e', he', hname', res', hres', hb'⟩ | ⟨e', he', hname', res', hres', hb'⟩
  · have := (entry_unique P now e e' (hname.trans hname'.symm)).1 he he'
    subst this
    rw [hres] at hres'
    simp only [Except.ok.injEq, Option.some.injEq] at hres'
    subst hres'
    rw [hb] at hb'; exact absurd hb' (by simp)
  · exact (entry_unique P now e e' (hname.trans hname'.symm)).2.2 he he'
  · exact (entry_unique P now e' e (hname'.trans hname.symm)).2.2 he' he
  · have := (entry_unique P now e e' (hname.trans hname'.symm)).2.1 he he'
    subst this
    rw [hres] at hres'
    simp only [Except.ok.injEq, Option.some.injEq] at hres'
    subst hres'
    rw [hb] at hb'; exact absurd hb' (by simp)

theorem hasKey_all_false_iff (o : JSObject) : (∀ k, hasKey o k = false) ↔ o = [] := by
  constructor
  · intro h
    cases o with
    | nil => rfl
    | cons kv o =>
      have := h kv.1
      simp [hasKey_cons] at this
  · rintro rfl k
    rfl

/-- The form validation returns when no validator throws. -/
theorem validateRegistrationForm_returns (P : Platform) (now : Int) (formData : JSObject)
    (h : noValidatorThrows P now formData = true) :
    ∃ v, validateRegistrationForm P now formData = .ok v := by
  unfold noValidatorThrows at h
  rw [List.all_eq_true] at h
  have hok : ∀ e ∈ requiredValidations P now ++ optionalValidations P,
      ∃ res, e.2 (getProp formData e.1) = .ok res := by
    intro e he
    have := h e he
    cases hr : e.2 (getProp formData e.1) with
    | error err => rw [hr] at this; simp [Except.toBool] at this
    | ok res => exact ⟨res, rfl⟩
  obtain ⟨acc, h1⟩ := forEachField_returns formData false _ (validateField_eq formData)
    (requiredValidations P now) ([], []) (by
      intro e he
      obtain ⟨res, hres⟩ := hok e (List.mem_append_left _ he)
      exact ⟨some res, (fieldOutcome_required_iff formData e res).mpr hres⟩)
  obtain ⟨out, h2⟩ := forEachField_returns formData true _ (validateOptionalField_eq formData)
    (optionalValidations P) acc (by
      intro e he
      obtain ⟨res, hres⟩ := hok e (List.mem_append_right _ he)
      unfold fieldOutcome
      rw [hres]
      split_ifs
      · exact ⟨none, rfl⟩
      · exact ⟨some res, rfl⟩)
  unfold validateRegistrationForm
  rw [h1]
  simp only
  rw [h2]
  exact ⟨_, rfl⟩

/-- C7, as amended: for every form-data object on which no validator throws,
`validateRegistrationForm` returns `errors` and `cleanData` with disjoint key
sets; each of the nine required field names is a key of `errors` exactly when
its validator rejects the raw value and a key of `cleanData` exactly when it
accepts; each of the three optional field names is a key of neither map when
its raw value is falsy and of exactly one map otherwise; and `isValid` is true
if and only if `errors` has no keys. -/
theorem validateRegistrationForm_maps (P : Platform) (now : Int) (formData : JSObject)
    (h : noValidatorThrows P now formData = true) :
    ∃ v, validateRegistrationForm P now formData = .ok v ∧
      (requiredValidations P now).map (fun e => e.1) =
        ["aadhaarNumber", "entrepreneurName", "panNumber", "mobileNumber", "emailAddress",
         "pincode", "investment", "turnover", "dateOfBirth"] ∧
      (optionalValidations P).map (fun e => e.1) = ["gstinNumber", "ifscCode", "enterpriseName"] ∧
      (∀ k, ¬ (hasKey v.errors k = true ∧ hasKey v.cleanData k = true)) ∧
      (∀ e ∈ requiredValidations P now, ∃ res, e.2 (getProp formData e.1) = .ok res ∧
        (hasKey v.errors e.1 = true ↔ res.isValid = false) ∧
        (hasKey v.cleanData e.1 = true ↔ res.isValid = true)) ∧
      (∀ e ∈ optionalValidations P,
        ((getProp formData e.1).truthy = false →
          hasKey v.errors e.1 = false ∧ hasKey v.cleanData e.1 = false) ∧
        ((getProp formData e.1).truthy = true →
          ∃ res, e.2 (getProp formData e.1) = .ok res ∧
            (hasKey v.errors e.1 = true ↔ res.isValid = false) ∧
            (hasKey v.cleanData e.1 = true ↔ res.isValid = true))) ∧
      (v.isValid = true ↔ ∀ k, hasKey v.errors k = false) := by
  obtain ⟨v, hv⟩ := validateRegistrationForm_returns P now formData h
  refine ⟨v, hv, rfl, rfl, validateRegistrationForm_disjoint P now formData v hv, ?_, ?_, ?_⟩
  · intro e he
    obtain ⟨res, h1, h2, h3, -⟩ := validateRegistrationForm_required P now formData v hv e he
    exact ⟨res, h1, h2, h3⟩
  · intro e he
    obtain ⟨h1, h2⟩ := validateRegistrationForm_optional P now formData v hv e he
    refine ⟨h1, fun ht => ?_⟩
    obtain ⟨res, h3, h4, h5, -⟩ := h2 ht
    exact ⟨res, h3, h4, h5⟩
  · obtain ⟨-, -, -, hvalid⟩ := validateRegistrationForm_loops P now formData v hv
    rw [hasKey_all_false_iff, hvalid]
    simp [List.length_eq_zero]

/-- C7 at a concrete input: the valid form with an invalid PAN and an IFSC
code. -/
theorem validateRegistrationForm_maps_witness :
    noValidatorThrows examplePlatform exampleNow
      (setProp (setProp validForm "panNumber" (.string "INVALID")) "ifscCode"
        (.string "SBIN0001234")) = true ∧
    ∃ v, validateRegistrationForm examplePlatform exampleNow
      (setProp (setProp validForm "panNumber" (.string "INVALID")) "ifscCode"
        (.string "SBIN0001234")) = .ok v ∧
      (requiredValidations examplePlatform exampleNow).map (fun e => e.1) =
        ["aadhaarNumber", "entrepreneurName", "panNumber", "mobileNumber", "emailAddress",
         "pincode", "investment", "turnover", "dateOfBirth"] ∧
      (optionalValidations examplePlatform).map (fun e => e.1) =
        ["gstinNumber", "ifscCode", "enterpriseName"] ∧
      (∀ k, ¬ (hasKey v.errors k = true ∧ hasKey v.cleanData k = true)) ∧
      (∀ e ∈ requiredValidations examplePlatform exampleNow,
        ∃ res, e.2 (getProp (setProp (setProp validForm "panNumber" (.string "INVALID"))
            "ifscCode" (.string "SBIN0001234")) e.1) = .ok res ∧
        (hasKey v.errors e.1 = true ↔ res.isValid = false) ∧
        (hasKey v.cleanData e.1 = true ↔ res.isValid = true)) ∧
      (∀ e ∈ optionalValidations examplePlatform,
        ((getProp (setProp (setProp validForm "panNumber" (.string "INVALID"))
            "ifscCode" (.string "SBIN0001234")) e.1).truthy = false →
          hasKey v.errors e.1 = false ∧ hasKey v.cleanData e.1 = false) ∧
        ((getProp (setProp (setProp validForm "panNumber" (.string "INVALID"))
            "ifscCode" (.string "SBIN0001234")) e.1).truthy = true →
          ∃ res, e.2 (getProp (setProp (setProp validForm "panNumber" (.string "INVALID"))
              "ifscCode" (.string "SBIN0001234")) e.1) = .ok res ∧
            (hasKey v.errors e.1 = true ↔ res.isValid = false) ∧
            (hasKey v.cleanData e.1 = true ↔ res.isValid = true))) ∧
      (v.isValid = true ↔ ∀ k, hasKey v.errors k = false) :=
  ⟨by decide, validateRegistrationForm_maps examplePlatform exampleNow _ (by decide)⟩

/-- C7, as stated, fails: with the raw value `false`, which is neither absent
nor empty, the optional field `gstinNumber` is a key of neither map; and with
the number `110001` as `pincode` the validator throws and no maps are
returned at all. -/
theorem validateRegistrationForm_maps_counterexample :
    (getProp (setProp validForm "gstinNumber" (.bool false)) "gstinNumber" = .bool false ∧
      (validateRegistrationForm examplePlatform exampleNow
          (setProp validForm "gstinNumber" (.bool false))).map
        (fun v => (hasKey v.errors "gstinNumber", hasKey v.cleanData "gstinNumber")) =
        .ok (false, false)) ∧
    (validateRegistrationForm examplePlatform exampleNow
        (setProp validForm "pincode" (.number (.fin 110001)))).map
      (fun v => (v.errors, v.cleanData)) = .error (notAFunction "pincode.replace") :=
  ⟨⟨rfl, rfl⟩, rfl⟩

/-- C8, the code at the failing input: the investment `"0"` passes
`validateInvestment` with the number `0` as its `cleanValue`, and the form
validation accepts the form but stores the raw string `"0"`, not the parsed
number, under `investment`. -/
theorem cleanData_investment_zero :
    (validateInvestment examplePlatform (.string "0")).map
        (fun r => (r.isValid, r.cleanValue)) = .ok (true, some (.number (.fin 0))) ∧
    (validateRegistrationForm examplePlatform exampleNow
        (setProp validForm "investment" (.string "0"))).map
      (fun v => (v.isValid, getProp v.cleanData "investment")) = .ok (true, .string "0") :=
  ⟨rfl, rfl⟩

/-- C9, the code at the failing inputs: on a raw value that is truthy and not
a string (here JSON numbers, a boolean and an array) the validators other than
`validateAadhaar` call a string method that the value does not have and throw
a `TypeError`; `validateAadhaar`, which tests `typeof`, returns a result. -/
theorem validators_throw_on_non_strings (P : Platform) :
    validatePAN P (.number (.fin 12345)) = .error (notAFunction "pan.toUpperCase") ∧
    validateGSTIN P (.number (.fin 22)) = .error (notAFunction "gstin.toUpperCase") ∧
    validateMobile (.number (.fin 9876543210)) = .error (notAFunction "mobile.replace") ∧
    validateEmail P (.bool true) =
      .error { name := "TypeError", message := "Expected a string but received a boolean" } ∧
    validatePincode (.number (.fin 110001)) = .error (notAFunction "pincode.replace") ∧
    validateIFSC P (.array []) = .error (notAFunction "ifsc.toUpperCase") ∧
    validateEnterpriseName (.number (.fin 42)) = .error (notAFunction "name.trim") ∧
    (validateAadhaar (.number (.fin 123456789012))).message = "Aadhaar number must be a string" :=
  ⟨rfl, rfl, rfl, rfl, rfl, rfl, rfl, rfl⟩

/-! ## Patterns given by runs -/

theorem matchRuns_iff (runs : List ((Char → Bool) × Nat)) (cs : List Char) :
    matchRuns runs cs = true ↔ SplitsInto runs cs := by
  induction runs generalizing cs with
  | nil => simp [matchRuns, SplitsInto]
  | cons run rest ih =>
    obtain ⟨cls, n⟩ := run
    simp only [matchRuns, SplitsInto, Bool.and_eq_true, beq_iff_eq, List.all_eq_true, ih]
    constructor
    · rintro ⟨⟨h1, h2⟩, h3⟩
      exact ⟨cs.take n, cs.drop n, (List.take_append_drop n cs).symm, h1, h2, h3⟩
    · rintro ⟨a, b, rfl, h1, h2, h3⟩
      have ht : (a ++ b).take n = a := by rw [← h1]; exact List.take_left' rfl
      have hd : (a ++ b).drop n = b := by rw [← h1]; exact List.drop_left' rfl
      rw [ht, hd]
      exact ⟨⟨h1, h2⟩, h3⟩

theorem jsLength_append (a b : List Char) :
    jsLength ⟨a ++ b⟩ = jsLength ⟨a⟩ + jsLength ⟨b⟩ := by
  simp [jsLength, List.map_append, List.sum_append]

/-- A subject that matches runs of classes of the Basic Multilingual Plane has
as many UTF-16 code units as the runs say. -/
theorem SplitsInto.jsLength_eq (runs : List ((Char → Bool) × Nat)) (cs : List Char)
    (hbmp : ∀ run ∈ runs, ∀ x, run.1 x = true → x.toNat < 65536)
    (h : SplitsInto runs cs) :
    jsLength ⟨cs⟩ = (runs.map (fun run => run.2)).sum ∧
    cs.length = (runs.map (fun run => run.2)).sum := by
  induction runs generalizing cs with
  | nil =>
    simp only [SplitsInto] at h
    subst h
    exact ⟨rfl, rfl⟩
  | cons run rest ih =>
    obtain ⟨cls, n⟩ := run
    obtain ⟨a, b, rfl, h1, h2, h3⟩ := h
    obtain ⟨ih1, ih2⟩ := ih b (fun r hr => hbmp r (List.mem_cons_of_mem _ hr)) h3
    rw [jsLength_append, ih1, List.length_append, ih2,
      jsLength_eq_length a (fun x hx => hbmp (cls, n) (List.mem_cons_self _ _) x (h2 x hx)), h1]
    simp

theorem isUpperAZ_toNat_lt {c : Char} (h : isUpperAZ c = true) : c.toNat < 65536 := by
  simp only [isUpperAZ, Bool.and_eq_true, decide_eq_true_eq] at h
  omega

theorem isPanFormat_iff (cs : List Char) :
    IsPanFormat cs ↔ SplitsInto [(isUpperAZ, 5), (isDigit, 4), (isUpperAZ, 1)] cs := by
  unfold IsPanFormat
  simp only [SplitsInto]
  constructor
  · rintro ⟨a, b, c, rfl, -, ha, ha', hb, hb', hc, hc'⟩
    exact ⟨a, b ++ c, by simp, ha, ha', b, c, rfl, hb, hb', c, [], by simp, hc, hc', rfl⟩
  · rintro ⟨a, _, rfl, ha, ha', b, _, rfl, hb, hb', c, _, rfl, hc, hc', rfl⟩
    refine ⟨a, b, c, by simp, ?_, ha, ha', hb, hb', hc, hc'⟩
    simp [ha, hb, hc]

/-- C10: for every non-empty string input, `validatePAN` reports valid if and
only if the input, upper-cased and with all whitespace removed, is exactly 10
characters consisting of 5 letters `A-Z`, then 4 digits, then 1 letter `A-Z`;
when valid, `cleanValue` is that upper-cased, whitespace-stripped string; and
the empty string is rejected as missing. -/
theorem validatePAN_spec (P : Platform) (s : String) (hs : s ≠ "") :
    (∃ r, validatePAN P (.string s) = .ok r ∧
      (r.isValid = true ↔ IsPanFormat (removeWhitespace (toUpperCase P s)).data) ∧
      (r.isValid = true →
        r.cleanValue = some (.string (removeWhitespace (toUpperCase P s))))) ∧
    validatePAN P (.string "") = .ok { isValid := false, message := "PAN number is required" } := by
  refine ⟨?_, rfl⟩
  have hne : s.data ≠ [] := by
    intro h
    apply hs
    cases s with
    | mk data => simp only at h; subst h; rfl
  have htr : (JSValue.string s).truthy = true := by simp [JSValue.truthy, hne]
  set clean := removeWhitespace (toUpperCase P s) with hclean
  simp only [validatePAN, htr, Bool.not_true, Bool.false_eq_true, if_false, ← hclean]
  have hbmp : ∀ run ∈ [(isUpperAZ, 5), (isDigit, 4), (isUpperAZ, 1)],
      ∀ x, run.1 x = true → x.toNat < 65536 := by
    intro run hrun x hx
    simp only [List.mem_cons, List.mem_singleton, List.not_mem_nil, or_false] at hrun
    rcases hrun with rfl | rfl | rfl
    · exact isUpperAZ_toNat_lt hx
    · exact isDigit_toNat_lt hx
    · exact isUpperAZ_toNat_lt hx
  by_cases hm : matchRuns [(isUpperAZ, 5), (isDigit, 4), (isUpperAZ, 1)] clean.data = true
  · have hsplit := (matchRuns_iff _ _).mp hm
    have hlen : jsLength clean = 10 := (SplitsInto.jsLength_eq _ _ hbmp hsplit).1
    simp only [hlen, bne_self_eq_false, Bool.false_eq_true, if_false, hm, Bool.not_true]
    exact ⟨_, rfl, by simp [(isPanFormat_iff _).mpr hsplit], fun _ => rfl⟩
  · have hnot : ¬ IsPanFormat clean.data := fun h => hm ((matchRuns_iff _ _).mpr
      ((isPanFormat_iff _).mp h))
    simp only [Bool.not_eq_true] at hm
    by_cases hlen : jsLength clean = 10
    · simp only [hlen, bne_self_eq_false, Bool.false_eq_true, if_false, hm, Bool.not_false,
        if_true]
      exact ⟨_, rfl, by simp [hnot], fun h => by simp at h⟩
    · have : (jsLength clean != 10) = true := by simpa using hlen
      simp only [this, if_true]
      exact ⟨_, rfl, by simp [hnot], fun h => by simp at h⟩

/-- C10 at a concrete input: the lower-case PAN of the test suite. -/
theorem validatePAN_spec_witness :
    "abcde1234f" ≠ "" ∧
    ((∃ r, validatePAN examplePlatform (.string "abcde1234f") = .ok r ∧
      (r.isValid = true ↔
        IsPanFormat (removeWhitespace (toUpperCase examplePlatform "abcde1234f")).data) ∧
      (r.isValid = true →
        r.cleanValue =
          some (.string (removeWhitespace (toUpperCase examplePlatform "abcde1234f"))))) ∧
    validatePAN examplePlatform (.string "") =
      .ok { isValid := false, message := "PAN number is required" }) :=
  ⟨by decide, validatePAN_spec examplePlatform "abcde1234f" (by decide)⟩

/-! ## The register handler -/

theorem strictEquals_string_self (c : String) :
    strictEquals (.string c) (.string c) = true := by
  simp [strictEquals]

theorem eq_of_strictEquals_string {x : JSValue} {c : String}
    (h : strictEquals x (.string c) = true) : x = .string c := by
  cases x <;> simp [strictEquals] at h
  rw [h]

theorem findFirstByAadhaar_none_iff (store : List Registration) (c : String) :
    findFirstByAadhaar store (.string c) = none ↔ ∀ r ∈ store, r.aadhaarNumber ≠ .string c := by
  unfold findFirstByAadhaar
  rw [List.find?_eq_none]
  constructor
  · intro h r hr heq
    apply h r hr
    rw [heq]
    exact strictEquals_string_self c
  · intro h r hr hse
    exact h r hr (eq_of_strictEquals_string hse)

theorem findFirstByAadhaar_some (store : List Registration) (c : String) (r : Registration)
    (h : findFirstByAadhaar store (.string c) = some r) :
    r ∈ store ∧ r.aadhaarNumber = .string c := by
  unfold findFirstByAadhaar at h
  have hp : strictEquals r.aadhaarNumber (.string c) = true :=
    @List.find?_some _ (fun r : Registration => strictEquals r.aadhaarNumber (.string c)) _ _ h
  exact ⟨List.mem_of_find?_eq_some h, eq_of_strictEquals_string hp⟩

theorem validateAadhaar_valid_inv (a : JSValue) (h : (validateAadhaar a).isValid = true) :
    ∃ s, a = .string s ∧
      (validateAadhaar a).cleanValue = some (.string (removeWhitespace s)) ∧
      (JSValue.string (removeWhitespace s)).truthy = true := by
  cases a with
  | string s =>
    refine ⟨s, rfl, validateAadhaar_string_clean s h, ?_⟩
    have := ((validateAadhaar_string_valid s).mp h).1
    simp only [JSValue.truthy, Bool.not_eq_true', List.isEmpty_eq_false]
    intro hnil
    rw [hnil] at this
    simp at this
  | _ =>
    revert h
    simp only [validateAadhaar]
    split_ifs <;> simp

theorem jsLength_nil : jsLength ⟨[]⟩ = 0 := rfl

theorem validateEnterpriseName_valid_inv (n : JSValue) (res : ValidationResult)
    (h : validateEnterpriseName n = .ok res) (hv : res.isValid = true) :
    ∃ s, n = .string s ∧ res.cleanValue = some (.string (trim s)) ∧
      (JSValue.string (trim s)).truthy = true := by
  cases n with
  | string s =>
    refine ⟨s, rfl, ?_⟩
    revert h
    simp only [validateEnterpriseName]
    split_ifs with h1 h2 h3 h4
    all_goals intro h
    all_goals simp only [Except.ok.injEq] at h
    all_goals subst h
    all_goals simp at hv
    refine ⟨rfl, ?_⟩
    simp only [JSValue.truthy, Bool.not_eq_true', List.isEmpty_eq_false]
    intro hnil
    have : trim s = ⟨[]⟩ := by
      cases hts : trim s with
      | mk data => rw [hts] at hnil; simp only at hnil; rw [hnil]
    rw [this, jsLength_nil] at h2
    simp at h2
  | _ =>
    revert h
    simp only [validateEnterpriseName]
    split_ifs <;> intro h <;> simp only [Except.ok.injEq, reduceCtorEq] at h
    all_goals subst h
    all_goals simp at hv

/-- After a valid form validation every required validator accepted, and the
entry of its field in `cleanData` is `result.cleanValue || formData[field]`. -/
theorem validateRegistrationForm_valid_required (P : Platform) (now : Int)
    (formData : JSObject) (v : FormValidation)
    (h : validateRegistrationForm P now formData = .ok v) (hv : v.isValid = true)
    (e : FieldEntry) (he : e ∈ requiredValidations P now) :
    ∃ res, e.2 (getProp formData e.1) = .ok res ∧ res.isValid = true ∧
      getProp v.cleanData e.1 = (res.cleanValue.getD .undefined).or (getProp formData e.1) := by
  obtain ⟨res, h1, h2, -, h4⟩ := validateRegistrationForm_required P now formData v h e he
  obtain ⟨-, -, -, hvalid⟩ := validateRegistrationForm_loops P now formData v h
  have hnil : v.errors = [] := by
    rw [hvalid] at hv
    simpa [List.length_eq_zero] using hv
  have hres : res.isValid = true := by
    cases hr : res.isValid with
    | true => rfl
    | false =>
      have := h2.mpr hr
      rw [hnil] at this
      simp [hasKey] at this
  exact ⟨res, h1, hres, h4 hres⟩

/-- The cleaned identity number after a valid form validation. -/
theorem cleanData_aadhaarNumber (P : Platform) (now : Int) (formData : JSObject)
    (v : FormValidation) (h : validateRegistrationForm P now formData = .ok v)
    (hv : v.isValid = true) :
    ∃ s, getProp formData "aadhaarNumber" = .string s ∧
      getProp v.cleanData "aadhaarNumber" = .string (removeWhitespace s) := by
  obtain ⟨res, h1, h2, h3⟩ := validateRegistrationForm_valid_required P now formData v h hv
    ("aadhaarNumber", fun aadhaar => .ok (validateAadhaar aadhaar)) (by simp [requiredValidations])
  simp only [Except.ok.injEq] at h1
  subst h1
  obtain ⟨s, hs, hc, ht⟩ := validateAadhaar_valid_inv _ h2
  refine ⟨s, hs, ?_⟩
  rw [h3, hc]
  simp [JSValue.or, ht]

/-- The cleaned name of the entrepreneur after a valid form validation. -/
theorem cleanData_entrepreneurName (P : Platform) (now : Int) (formData : JSObject)
    (v : FormValidation) (h : validateRegistrationForm P now formData = .ok v)
    (hv : v.isValid = true) :
    ∃ s, getProp formData "entrepreneurName" = .string s ∧
      getProp v.cleanData "entrepreneurName" = .string (trim s) := by
  obtain ⟨res, h1, h2, h3⟩ := validateRegistrationForm_valid_required P now formData v h hv
    ("entrepreneurName", fun name => validateEnterpriseName name) (by simp [requiredValidations])
  obtain ⟨s, hs, hc, ht⟩ := validateEnterpriseName_valid_inv _ res h1 h2
  refine ⟨s, hs, ?_⟩
  rw [h3, hc]
  simp [JSValue.or, ht]

/-- The entry `enterpriseName` of `cleanData` after a valid form validation:
absent when the raw value is falsy, the trimmed raw string otherwise. -/
theorem cleanData_enterpriseName (P : Platform) (now : Int) (formData : JSObject)
    (v : FormValidation) (h : validateRegistrationForm P now formData = .ok v)
    (hv : v.isValid = true) :
    ((getProp formData "enterpriseName").truthy = false →
      getProp v.cleanData "enterpriseName" = .undefined) ∧
    ((getProp formData "enterpriseName").truthy = true →
      ∃ s, getProp formData "enterpriseName" = .string s ∧
        getProp v.cleanData "enterpriseName" = .string (trim s) ∧
        (JSValue.string (trim s)).truthy = true) := by
  obtain ⟨h1, h2⟩ := validateRegistrationForm_optional P now formData v h
    ("enterpriseName", validateEnterpriseName) (by simp [optionalValidations])
  obtain ⟨-, -, -, hvalid⟩ := validateRegistrationForm_loops P now formData v h
  have hnil : v.errors = [] := by
    rw [hvalid] at hv
    simpa [List.length_eq_zero] using hv
  refine ⟨fun ht => getProp_of_not_hasKey _ _ (h1 ht).2, fun ht => ?_⟩
  obtain ⟨res, hr, hE, -, hval⟩ := h2 ht
  have hres : res.isValid = true := by
    cases hr' : res.isValid with
    | true => rfl
    | false =>
      have := hE.mpr hr'
      rw [hnil] at this
      simp [hasKey] at this
  obtain ⟨s, hs, hc, hts⟩ := validateEnterpriseName_valid_inv _ res hr hres
  refine ⟨s, hs, ?_, hts⟩
  rw [hval hres, hc]
  simp [JSValue.or, hts]

theorem isValid_of_map_eq (P : Platform) (now : Int) (body : JSObject) (b : Bool)
    (h : (validateRegistrationForm P now body).map (fun v => v.isValid) = .ok b) :
    ∃ v, validateRegistrationForm P now body = .ok v ∧ v.isValid = b := by
  cases hv : validateRegistrationForm P now body with
  | error e => rw [hv] at h; simp [Except.map] at h
  | ok v =>
    rw [hv] at h
    simp only [Except.map, Except.ok.injEq] at h
    exact ⟨v, rfl, h⟩

/-- C2: for every request body on which `validateRegistrationForm` reports
`isValid` false, the handler of `POST /api/register` responds with HTTP 400
and a body whose `error` is `Validation failed` and whose `validationErrors`
is the errors map of the validator, and the store is left unchanged, whatever
it holds. -/
theorem register_validation_failed (P : Platform) (env : RequestEnv)
    (store : List Registration) (body : JSObject)
    (h : (validateRegistrationForm P env.now body).map (fun v => v.isValid) = .ok false) :
    ∃ v, validateRegistrationForm P env.now body = .ok v ∧
      registerHandler P env store body =
        ({ status := 400,
           body := [("error", .string "Validation failed"),
                    ("validationErrors", .object v.errors),
                    ("timestamp", .string (toISOString env.responseTime))] }, store) := by
  obtain ⟨v, hv, hb⟩ := isValid_of_map_eq P env.now body false h
  refine ⟨v, hv, ?_⟩
  simp [registerHandler, registerTry, hv, hb]

/-- C2 at a concrete input: the valid form with the Aadhaar number `123`, on a
store that holds a record. -/
theorem register_validation_failed_witness :
    (validateRegistrationForm examplePlatform exampleEnv.now
        (setProp validForm "aadhaarNumber" (.string "123"))).map (fun v => v.isValid) = .ok false ∧
    ∃ v, validateRegistrationForm examplePlatform exampleEnv.now
        (setProp validForm "aadhaarNumber" (.string "123")) = .ok v ∧
      registerHandler examplePlatform exampleEnv
          (registerHandler examplePlatform exampleEnv [] validForm).2
          (setProp validForm "aadhaarNumber" (.string "123")) =
        ({ status := 400,
           body := [("error", .string "Validation failed"),
                    ("validationErrors", .object v.errors),
                    ("timestamp", .string (toISOString exampleEnv.responseTime))] },
         (registerHandler examplePlatform exampleEnv [] validForm).2) :=
  ⟨rfl, register_validation_failed examplePlatform exampleEnv _ _ rfl⟩

/-- C3: for every valid request body whose cleaned (whitespace-stripped)
Aadhaar number equals the `aadhaarNumber` of a record already in the store,
the handler responds with HTTP 409, the error `Registration already exists`
and the `registrationId` of an existing record with that number (of that
record, when the numbers in the store are distinct), and leaves the store
unchanged; nothing is assumed on the other submitted fields. -/
theorem register_duplicate (P : Platform) (env : RequestEnv) (store : List Registration)
    (body : JSObject) (s : String) (r : Registration)
    (hvalid : (validateRegistrationForm P env.now body).map (fun v => v.isValid) = .ok true)
    (hs : getProp body "aadhaarNumber" = .string s)
    (hr : r ∈ store) (hra : r.aadhaarNumber = .string (removeWhitespace s)) :
    ∃ existing, existing ∈ store ∧
      existing.aadhaarNumber = .string (removeWhitespace s) ∧
      ((store.map (fun x => x.aadhaarNumber)).Nodup → existing = r) ∧
      registerHandler P env store body =
        ({ status := 409,
           body := [("error", .string "Registration already exists"),
                    ("message", .string
                      "An enterprise is already registered with this Aadhaar number"),
                    ("registrationId", .string existing.registrationId),
                    ("timestamp", .string (toISOString env.responseTime))] }, store) := by
  obtain ⟨v, hv, hb⟩ := isValid_of_map_eq P env.now body true hvalid
  obtain ⟨s', hs', hclean⟩ := cleanData_aadhaarNumber P env.now body v hv hb
  rw [hs] at hs'
  simp only [JSValue.string.injEq] at hs'
  subst hs'
  cases hf : findFirstByAadhaar store (.string (removeWhitespace s)) with
  | none =>
    exact absurd hra ((findFirstByAadhaar_none_iff store _).mp hf r hr)
  | some existing =>
    obtain ⟨hmem, haad⟩ := findFirstByAadhaar_some store _ existing hf
    refine ⟨existing, hmem, haad, ?_, ?_⟩
    · intro hnd
      exact List.inj_on_of_nodup_map hnd hmem hr (haad.trans hra.symm)
    · simp [registerHandler, registerTry, hv, hb, hclean, hf]

/-- C3 at a concrete input: the valid form submitted again under another
name and with blanks in the Aadhaar number. -/
theorem register_duplicate_witness :
    (validateRegistrationForm examplePlatform exampleEnv.now
        (setProp (setProp validForm "entrepreneurName" (.string "Jane Doe"))
          "aadhaarNumber" (.string "1234 5678 9012"))).map (fun v => v.isValid) = .ok true ∧
    getProp (setProp (setProp validForm "entrepreneurName" (.string "Jane Doe"))
      "aadhaarNumber" (.string "1234 5678 9012")) "aadhaarNumber" = .string "1234 5678 9012" ∧
    firstRegistration ∈ (registerHandler examplePlatform exampleEnv [] validForm).2 ∧
    firstRegistration.aadhaarNumber = .string (removeWhitespace "1234 5678 9012") ∧
    ∃ existing, existing ∈ (registerHandler examplePlatform exampleEnv [] validForm).2 ∧
      existing.aadhaarNumber = .string (removeWhitespace "1234 5678 9012") ∧
      ((((registerHandler examplePlatform exampleEnv [] validForm).2).map
          (fun x => x.aadhaarNumber)).Nodup →
        existing = firstRegistration) ∧
      registerHandler examplePlatform exampleEnv
          (registerHandler examplePlatform exampleEnv [] validForm).2
          (setProp (setProp validForm "entrepreneurName" (.string "Jane Doe"))
            "aadhaarNumber" (.string "1234 5678 9012")) =
        ({ status := 409,
           body := [("error", .string "Registration already exists"),
                    ("message", .string
                      "An enterprise is already registered with this Aadhaar number"),
                    ("registrationId", .string existing.registrationId),
                    ("timestamp", .string (toISOString exampleEnv.responseTime))] },
         (registerHandler examplePlatform exampleEnv [] validForm).2) :=
  ⟨rfl, rfl, List.mem_singleton.mpr rfl, rfl,
    register_duplicate examplePlatform exampleEnv _ _ "1234 5678 9012" _ rfl rfl
      (List.mem_singleton.mpr rfl) rfl⟩

theorem isoDatePart_truthy (t : Int) : (JSValue.string (isoDatePart t)).truthy = true := by
  simp [JSValue.truthy, isoDatePart, String.data_append]

theorem validateDate_valid_inv (P : Platform) (now : Int) (d : JSValue) (fieldName : String)
    (res : ValidationResult) (h : validateDate P now d fieldName = .ok res)
    (hv : res.isValid = true) :
    ∃ t, newDate P d = .ok (some t) ∧ minDate ≤ t ∧ t ≤ now ∧ d.truthy = true ∧
      res.cleanValue = some (.string (isoDatePart t)) := by
  unfold validateDate at h
  cases ht : d.truthy with
  | false =>
    simp only [ht, Bool.not_false, if_true, Except.ok.injEq] at h
    subst h
    simp at hv
  | true =>
    simp only [ht, Bool.not_true, Bool.false_eq_true, if_false] at h
    cases hd : newDate P d with
    | error e => rw [hd] at h; simp at h
    | ok o =>
      rw [hd] at h
      cases o with
      | none =>
        simp only [Except.ok.injEq] at h
        subst h
        simp at hv
      | some t =>
        simp only at h
        split_ifs at h with h1 h2
        all_goals simp only [Except.ok.injEq] at h
        all_goals subst h
        all_goals simp at hv
        exact ⟨t, rfl, by omega, by omega, rfl, rfl⟩

/-- The date of birth in `cleanData` after a valid form validation is a
string that `new Date` reads without an exception. -/
theorem cleanData_dateOfBirth (P : Platform) (now : Int) (formData : JSObject)
    (v : FormValidation) (h : validateRegistrationForm P now formData = .ok v)
    (hv : v.isValid = true) :
    ∃ t, minDate ≤ t ∧ t ≤ now ∧ newDate P (getProp formData "dateOfBirth") = .ok (some t) ∧
      getProp v.cleanData "dateOfBirth" = .string (isoDatePart t) := by
  obtain ⟨res, h1, h2, h3⟩ := validateRegistrationForm_valid_required P now formData v h hv
    ("dateOfBirth", fun date => validateDate P now date "Date of birth")
    (by simp [requiredValidations])
  obtain ⟨t, ht, hmin, hmax, -, hc⟩ := validateDate_valid_inv P now _ _ res h1 h2
  refine ⟨t, hmin, hmax, ht, ?_⟩
  rw [h3, hc]
  simp [JSValue.or, isoDatePart_truthy]

/-- The `data` of the `create` call after a valid form validation. -/
theorem registrationData_ok (P : Platform) (now : Int) (formData : JSObject)
    (v : FormValidation) (h : validateRegistrationForm P now formData = .ok v)
    (hv : v.isValid = true) (registrationId : String) :
    ∃ data, registrationData P registrationId v.cleanData = .ok data ∧
      data.registrationId = registrationId ∧
      data.aadhaarNumber = getProp v.cleanData "aadhaarNumber" ∧
      data.entrepreneurName = getProp v.cleanData "entrepreneurName" ∧
      data.panNumber = getProp v.cleanData "panNumber" ∧
      data.enterpriseName =
        (getProp v.cleanData "enterpriseName").or (getProp v.cleanData "entrepreneurName") ∧
      data.pincode = getProp v.cleanData "pincode" ∧
      data.mobileNumber = getProp v.cleanData "mobileNumber" ∧
      data.emailAddress = getProp v.cleanData "emailAddress" ∧
      data.investment = getProp v.cleanData "investment" ∧
      data.turnover = getProp v.cleanData "turnover" ∧
      data.status = "PENDING" := by
  obtain ⟨t, -, -, -, hdob⟩ := cleanData_dateOfBirth P now formData v h hv
  have hother : getProp v.cleanData "dateOfCommencementProduction" = .undefined := by
    apply getProp_of_not_hasKey
    refine (validateRegistrationForm_other P now formData v h _ ?_).2
    rw [requiredNames, optionalNames]
    decide
  have h1 : optionalDate P (getProp v.cleanData "dateOfBirth") =
      .ok (some (P.dateParse (isoDatePart t))) := by
    rw [hdob]
    simp only [optionalDate, isoDatePart_truthy, if_true, newDate, Except.map]
  have h2 : optionalDate P (getProp v.cleanData "dateOfCommencementProduction") = .ok none := by
    rw [hother]
    rfl
  unfold registrationData
  rw [h1]
  simp only
  rw [h2]
  exact ⟨_, rfl, rfl, rfl, rfl, rfl, rfl, rfl, rfl, rfl, rfl, rfl, rfl⟩

/-- The handler on a valid body whose cleaned Aadhaar number is new: the
record is created. -/
theorem registerHandler_new (P : Platform) (env : RequestEnv) (store : List Registration)
    (body : JSObject) (v : FormValidation)
    (hv : validateRegistrationForm P env.now body = .ok v) (hb : v.isValid = true)
    (c : String) (hclean : getProp v.cleanData "aadhaarNumber" = .string c)
    (hnew : ∀ r ∈ store, r.aadhaarNumber ≠ .string c) :
    ∃ data, registrationData P (generateRegistrationId P env.idMillis env.randomDigits)
        v.cleanData = .ok data ∧
      registerHandler P env store body =
        ({ status := 201,
           body := [("message", .string "Registration submitted successfully"),
                    ("registrationId", .string data.registrationId),
                    ("status", .string data.status),
                    ("submittedAt", .string (toISOString env.createdAt)),
                    ("timestamp", .string (toISOString env.responseTime))] },
         store ++ [{ toRegistrationData := data, id := store.length + 1,
                     createdAt := env.createdAt }]) := by
  obtain ⟨data, hdata, -, haad, -⟩ := registrationData_ok P env.now body v hv hb
    (generateRegistrationId P env.idMillis env.randomDigits)
  refine ⟨data, hdata, ?_⟩
  have hf : findFirstByAadhaar store (.string c) = none :=
    (findFirstByAadhaar_none_iff store c).mpr hnew
  have hany : store.any (fun r => strictEquals r.aadhaarNumber data.aadhaarNumber) = false := by
    rw [haad, hclean]
    rw [List.any_eq_false]
    intro r hr hse
    exact hnew r hr (eq_of_strictEquals_string (by simpa using hse))
  simp [registerHandler, registerTry, hv, hb, hclean, hf, hdata, createRegistration, hany]

/-- The handler on a valid request body whose cleaned Aadhaar number is not
yet in the store: it adds exactly one record to the store and responds with
HTTP 201 and the message `Registration submitted successfully`; the created
record carries the cleaned `aadhaarNumber` and `entrepreneurName`, the entries
of `cleanData` for `panNumber`, `pincode`, `mobileNumber`, `emailAddress`,
`investment` and `turnover`, the status `PENDING`, and an `enterpriseName`
equal to the cleaned submitted `enterpriseName` when one was supplied (a truthy
raw value) and to the cleaned `entrepreneurName` otherwise; the
`registrationId` and `status` of the response are those of the created
record. -/
theorem register_created (P : Platform) (env : RequestEnv) (store : List Registration)
    (body : JSObject) (s : String)
    (hvalid : (validateRegistrationForm P env.now body).map (fun v => v.isValid) = .ok true)
    (hs : getProp body "aadhaarNumber" = .string s)
    (hnew : ∀ r ∈ store, r.aadhaarNumber ≠ .string (removeWhitespace s)) :
    ∃ v created, validateRegistrationForm P env.now body = .ok v ∧
      registerHandler P env store body =
        ({ status := 201,
           body := [("message", .string "Registration submitted successfully"),
                    ("registrationId", .string created.registrationId),
                    ("status", .string created.status),
                    ("submittedAt", .string (toISOString created.createdAt)),
                    ("timestamp", .string (toISOString env.responseTime))] },
         store ++ [created]) ∧
      created.aadhaarNumber = .string (removeWhitespace s) ∧
      created.aadhaarNumber = getProp v.cleanData "aadhaarNumber" ∧
      created.entrepreneurName = getProp v.cleanData "entrepreneurName" ∧
      created.panNumber = getProp v.cleanData "panNumber" ∧
      created.pincode = getProp v.cleanData "pincode" ∧
      created.mobileNumber = getProp v.cleanData "mobileNumber" ∧
      created.emailAddress = getProp v.cleanData "emailAddress" ∧
      created.investment = getProp v.cleanData "investment" ∧
      created.turnover = getProp v.cleanData "turnover" ∧
      created.status = "PENDING" ∧
      (∃ name, getProp body "entrepreneurName" = .string name ∧
        created.entrepreneurName = .string (trim name)) ∧
      ((getProp body "enterpriseName").truthy = true →
        created.enterpriseName = getProp v.cleanData "enterpriseName" ∧
        ∃ name, getProp body "enterpriseName" = .string name ∧
          created.enterpriseName = .string (trim name)) ∧
      ((getProp body "enterpriseName").truthy = false →
        created.enterpriseName = created.entrepreneurName) := by
  obtain ⟨v, hv, hb⟩ := isValid_of_map_eq P env.now body true hvalid
  obtain ⟨s', hs', hclean⟩ := cleanData_aadhaarNumber P env.now body v hv hb
  rw [hs] at hs'
  simp only [JSValue.string.injEq] at hs'
  subst hs'
  obtain ⟨data, hdata, hhandler⟩ :=
    registerHandler_new P env store body v hv hb _ hclean hnew
  obtain ⟨data', hdata', -, d1, d2, d3, d4, d5, d6, d7, d8, d9, d10⟩ :=
    registrationData_ok P env.now body v hv hb
      (generateRegistrationId P env.idMillis env.randomDigits)
  rw [hdata] at hdata'
  simp only [Except.ok.injEq] at hdata'
  subst hdata'
  obtain ⟨name, hname, hcname⟩ := cleanData_entrepreneurName P env.now body v hv hb
  obtain ⟨e1, e2⟩ := cleanData_enterpriseName P env.now body v hv hb
  refine ⟨v, { toRegistrationData := data, id := store.length + 1,
               createdAt := env.createdAt }, hv, hhandler, ?_, d1, d2, d3, d5, d6, d7, d8, d9,
    d10, ⟨name, hname, ?_⟩, ?_, ?_⟩
  · simp only [d1, hclean]
  · simp only [d2, hcname]
  · intro ht
    obtain ⟨ename, hename, hcename, htr⟩ := e2 ht
    have : data.enterpriseName = getProp v.cleanData "enterpriseName" := by
      rw [d4, hcename]
      simp [JSValue.or, htr]
    exact ⟨this, ename, hename, by simp only [this, hcename]⟩
  · intro ht
    simp only [d4, e1 ht, d2]
    simp [JSValue.or, JSValue.truthy]

/-- The handler at a concrete input: the valid form on the empty store. -/
theorem register_created_witness :
    (validateRegistrationForm examplePlatform exampleEnv.now validForm).map
      (fun v => v.isValid) = .ok true ∧
    getProp validForm "aadhaarNumber" = .string "123456789012" ∧
    (∀ r ∈ ([] : List Registration), r.aadhaarNumber ≠ .string (removeWhitespace "123456789012")) ∧
    ∃ v created, validateRegistrationForm examplePlatform exampleEnv.now validForm = .ok v ∧
      registerHandler examplePlatform exampleEnv [] validForm =
        ({ status := 201,
           body := [("message", .string "Registration submitted successfully"),
                    ("registrationId", .string created.registrationId),
                    ("status", .string created.status),
                    ("submittedAt", .string (toISOString created.createdAt)),
                    ("timestamp", .string (toISOString exampleEnv.responseTime))] },
         [] ++ [created]) ∧
      created.aadhaarNumber = .string (removeWhitespace "123456789012") ∧
      created.aadhaarNumber = getProp v.cleanData "aadhaarNumber" ∧
      created.entrepreneurName = getProp v.cleanData "entrepreneurName" ∧
      created.panNumber = getProp v.cleanData "panNumber" ∧
      created.pincode = getProp v.cleanData "pincode" ∧
      created.mobileNumber = getProp v.cleanData "mobileNumber" ∧
      created.emailAddress = getProp v.cleanData "emailAddress" ∧
      created.investment = getProp v.cleanData "investment" ∧
      created.turnover = getProp v.cleanData "turnover" ∧
      created.status = "PENDING" ∧
      (∃ name, getProp validForm "entrepreneurName" = .string name ∧
        created.entrepreneurName = .string (trim name)) ∧
      ((getProp validForm "enterpriseName").truthy = true →
        created.enterpriseName = getProp v.cleanData "enterpriseName" ∧
        ∃ name, getProp validForm "enterpriseName" = .string name ∧
          created.enterpriseName = .string (trim name)) ∧
      ((getProp validForm "enterpriseName").truthy = false →
        created.enterpriseName = created.entrepreneurName) :=
  ⟨rfl, rfl, fun _ hr => absurd hr (List.not_mem_nil _),
    register_created examplePlatform exampleEnv [] validForm "123456789012" rfl rfl
      (fun _ hr => absurd hr (List.not_mem_nil _))⟩

/-- C5, the code at the failing inputs: the valid form of the test suite with
the investment `"0"` is accepted with HTTP 201 and one record is created;
`validateInvestment` returns the cleaned value `0`, a number, and the created
record carries the raw string `"0"` instead, because
`result.cleanValue || formData[field]` takes the cleaned number `0` for
missing.  The same holds for the investment `"0abc"`, whose cleaned value is
the number `0`, and for the turnover. -/
theorem register_created_raw_investment :
    ((validateInvestment examplePlatform (.string "0")).map
        (fun r => (r.isValid, r.cleanValue)) = .ok (true, some (.number (.fin 0))) ∧
      (registerHandler examplePlatform exampleEnv []
        (setProp validForm "investment" (.string "0"))).1.status = 201 ∧
      ((registerHandler examplePlatform exampleEnv []
        (setProp validForm "investment" (.string "0"))).2.map (fun r => r.investment)) =
        [.string "0"]) ∧
    ((validateInvestment examplePlatform (.string "0abc")).map
        (fun r => (r.isValid, r.cleanValue)) = .ok (true, some (.number (.fin 0))) ∧
      (registerHandler examplePlatform exampleEnv []
        (setProp validForm "investment" (.string "0abc"))).1.status = 201 ∧
      ((registerHandler examplePlatform exampleEnv []
        (setProp validForm "investment" (.string "0abc"))).2.map (fun r => r.investment)) =
        [.string "0abc"]) ∧
    ((registerHandler examplePlatform exampleEnv []
        (setProp validForm "turnover" (.string "0"))).1.status = 201 ∧
      ((registerHandler examplePlatform exampleEnv []
        (setProp validForm "turnover" (.string "0"))).2.map (fun r => r.turnover)) =
        [.string "0"]) :=
  ⟨⟨rfl, rfl, rfl⟩, ⟨rfl, rfl, rfl⟩, rfl, rfl⟩

/-- One run of the handler either leaves the store as it was and does not
answer 201, or answers 201 and appends one record whose `aadhaarNumber` is the
whitespace-stripped number of the body, which no record of the store had. -/
theorem registerHandler_cases (P : Platform) (env : RequestEnv) (store : List Registration)
    (body : JSObject) :
    ((registerHandler P env store body).2 = store ∧
      (registerHandler P env store body).1.status ≠ 201) ∨
    (∃ created s, (registerHandler P env store body).2 = store ++ [created] ∧
      (registerHandler P env store body).1.status = 201 ∧
      getProp body "aadhaarNumber" = .string s ∧
      created.aadhaarNumber = .string (removeWhitespace s) ∧
      ∀ r ∈ store, r.aadhaarNumber ≠ .string (removeWhitespace s)) := by
  cases hv : validateRegistrationForm P env.now body with
  | error e =>
    left
    simp only [registerHandler, registerTry, hv]
    split_ifs <;> simp
  | ok v =>
    cases hb : v.isValid with
    | false =>
      left
      simp [registerHandler, registerTry, hv, hb]
    | true =>
      obtain ⟨s, hs, hclean⟩ := cleanData_aadhaarNumber P env.now body v hv hb
      cases hf : findFirstByAadhaar store (.string (removeWhitespace s)) with
      | some existing =>
        left
        simp [registerHandler, registerTry, hv, hb, hclean, hf]
      | none =>
        right
        have hnew := (findFirstByAadhaar_none_iff store _).mp hf
        obtain ⟨data, hdata, hhandler⟩ :=
          registerHandler_new P env store body v hv hb _ hclean hnew
        obtain ⟨data', hdata', -, d1, -⟩ := registrationData_ok P env.now body v hv hb
          (generateRegistrationId P env.idMillis env.randomDigits)
        rw [hdata] at hdata'
        simp only [Except.ok.injEq] at hdata'
        subst hdata'
        refine ⟨_, s, by rw [hhandler], by rw [hhandler], hs, ?_, hnew⟩
        simp only [d1, hclean]

/-! ## The store over a sequence of requests -/

theorem registerHandler_mem (P : Platform) (env : RequestEnv) (store : List Registration)
    (body : JSObject) (r : Registration) (hr : r ∈ store) :
    r ∈ (registerHandler P env store body).2 := by
  rcases registerHandler_cases P env store body with ⟨h, -⟩ | ⟨created, s, h, -⟩
  · rw [h]; exact hr
  · rw [h]; exact List.mem_append_left _ hr

theorem runRequests_mem (P : Platform) (requests : List (RequestEnv × JSObject))
    (store : List Registration) (r : Registration) (hr : r ∈ store) :
    r ∈ runRequests P store requests := by
  induction requests generalizing store with
  | nil => exact hr
  | cons request rest ih =>
    exact ih _ (registerHandler_mem P request.1 store request.2 r hr)

theorem registerHandler_nodup (P : Platform) (env : RequestEnv) (store : List Registration)
    (body : JSObject) (h : (store.map (fun r => r.aadhaarNumber)).Nodup) :
    (((registerHandler P env store body).2).map (fun r => r.aadhaarNumber)).Nodup := by
  rcases registerHandler_cases P env store body with ⟨hs, -⟩ | ⟨created, s, hs, -, -, hc, hnew⟩
  · rw [hs]; exact h
  · rw [hs, List.map_append, List.map_singleton]
    refine List.Nodup.append h (List.nodup_singleton _) ?_
    intro a ha ha'
    rw [List.mem_singleton] at ha'
    subst ha'
    obtain ⟨r, hr, hra⟩ := List.mem_map.mp ha
    exact hnew r hr (hra.trans hc)

theorem runRequests_nodup (P : Platform) (requests : List (RequestEnv × JSObject))
    (store : List Registration) (h : (store.map (fun r => r.aadhaarNumber)).Nodup) :
    ((runRequests P store requests).map (fun r => r.aadhaarNumber)).Nodup := by
  induction requests generalizing store with
  | nil => exact h
  | cons request rest ih =>
    exact ih _ (registerHandler_nodup P request.1 store request.2 h)

/-- C4: starting from an empty store and applying any finite sequence of
`POST /api/register` requests one at a time, every reachable store contains at
most one record per `aadhaarNumber` value; and two submissions whose Aadhaar
numbers are equal once whitespace is removed never both create a record:
when the first is answered 201, the second, at any later time, is not, and
leaves the store as it was. -/
theorem store_aadhaar_unique (P : Platform) :
    (∀ requests : List (RequestEnv × JSObject),
      ((runRequests P [] requests).map (fun r => r.aadhaarNumber)).Nodup) ∧
    (∀ (before between : List (RequestEnv × JSObject)) (env1 env2 : RequestEnv)
        (body1 body2 : JSObject) (s1 s2 : String),
      getProp body1 "aadhaarNumber" = .string s1 →
      getProp body2 "aadhaarNumber" = .string s2 →
      removeWhitespace s1 = removeWhitespace s2 →
      (registerHandler P env1 (runRequests P [] before) body1).1.status = 201 →
      (registerHandler P env2
        (runRequests P (registerHandler P env1 (runRequests P [] before) body1).2 between)
        body2).1.status ≠ 201 ∧
      (registerHandler P env2
        (runRequests P (registerHandler P env1 (runRequests P [] before) body1).2 between)
        body2).2 =
        runRequests P (registerHandler P env1 (runRequests P [] before) body1).2 between) := by
  refine ⟨fun requests => runRequests_nodup P requests [] List.nodup_nil, ?_⟩
  intro before between env1 env2 body1 body2 s1 s2 h1 h2 hsame hcreated
  rcases registerHandler_cases P env1 (runRequests P [] before) body1 with
    ⟨-, hne⟩ | ⟨created, s, hstore, -, hs, hc, -⟩
  · exact absurd hcreated hne
  · rw [h1] at hs
    simp only [JSValue.string.injEq] at hs
    subst hs
    have hmem : created ∈ runRequests P
        (registerHandler P env1 (runRequests P [] before) body1).2 between := by
      apply runRequests_mem
      rw [hstore]
      exact List.mem_append_right _ (List.mem_singleton.mpr rfl)
    rcases registerHandler_cases P env2
        (runRequests P (registerHandler P env1 (runRequests P [] before) body1).2 between)
        body2 with ⟨hsame2, hne2⟩ | ⟨created2, s', -, -, hs', -, hnew⟩
    · exact ⟨hne2, hsame2⟩
    · rw [h2] at hs'
      simp only [JSValue.string.injEq] at hs'
      subst hs'
      exact absurd (hc.trans (by rw [hsame])) (hnew created hmem)

/-- C4 at a concrete input: the numbers `1234 5678 9012` and `123456789012`,
submitted one after the other to the empty store. -/
theorem store_aadhaar_unique_witness :
    (registerHandler examplePlatform exampleEnv
      (runRequests examplePlatform
        (registerHandler examplePlatform exampleEnv (runRequests examplePlatform [] [])
          (setProp validForm "aadhaarNumber" (.string "1234 5678 9012"))).2 [])
      validForm).1.status ≠ 201 ∧
    (registerHandler examplePlatform exampleEnv
      (runRequests examplePlatform
        (registerHandler examplePlatform exampleEnv (runRequests examplePlatform [] [])
          (setProp validForm "aadhaarNumber" (.string "1234 5678 9012"))).2 [])
      validForm).2 =
      runRequests examplePlatform
        (registerHandler examplePlatform exampleEnv (runRequests examplePlatform [] [])
          (setProp validForm "aadhaarNumber" (.string "1234 5678 9012"))).2 [] :=
  (store_aadhaar_unique examplePlatform).2 [] [] exampleEnv exampleEnv
    (setProp validForm "aadhaarNumber" (.string "1234 5678 9012")) validForm
    "1234 5678 9012" "123456789012" rfl rfl rfl rfl

/-! ## The registration id -/

theorem not_registrationIdFormat_of_suffix (s : String) (h : '-' ∈ s.data.reverse.take 6) :
    ¬ IsRegistrationIdFormat s := by
  rintro ⟨digits, token, hs, -, -, hlen, htok⟩
  have hrev : s.data.reverse.take 6 = token.reverse := by
    rw [hs]
    simp only [List.reverse_append]
    rw [List.take_append_of_le_length (by simp [hlen])]
    exact List.take_of_length_le (by simp [hlen])
  rw [hrev, List.mem_reverse] at h
  have := htok _ h
  simp [isDigitOrUpper, isDigit, isUpperAZ] at this

/-- C6, the code at the failing inputs: when `Math.random()` returns `0.5`,
which prints as `0.i` in radix 36, the token of the registration id is the one
character `I`, and when it returns `0`, which prints as `0`, the token is
empty; the id `UDYAM-1700000000001-I` that the handler then returns is not of
the form `UDYAM-`, digits, a hyphen and exactly 6 characters of `A-Z0-9`. -/
theorem generateRegistrationId_short_token (P : Platform) (idMillis : Nat) :
    generateRegistrationId P idMillis [18] = "UDYAM-" ++ toString idMillis ++ "-" ++ "I" ∧
    generateRegistrationId P idMillis [] = "UDYAM-" ++ toString idMillis ++ "-" ++ "" ∧
    generateRegistrationId P 1700000000001 [18] = "UDYAM-1700000000001-I" ∧
    getProp (registerHandler examplePlatform shortTokenEnv [] validForm).1.body
      "registrationId" = .string "UDYAM-1700000000001-I" ∧
    ¬ IsRegistrationIdFormat "UDYAM-1700000000001-I" := by
  refine ⟨?_, ?_, ?_, rfl, not_registrationIdFormat_of_suffix _ (by decide)⟩
  · have : toUpperCase P (substr (randomToString36 [18]) 2 6) = "I" := by
      unfold toUpperCase; rfl
    simp only [generateRegistrationId, this]
  · have : toUpperCase P (substr (randomToString36 []) 2 6) = "" := by
      unfold toUpperCase; rfl
    simp only [generateRegistrationId, this]
  · have : toUpperCase P (substr (randomToString36 [18]) 2 6) = "I" := by
      unfold toUpperCase; rfl
    simp only [generateRegistrationId, this]
    rfl

/-- A validator of the two tables does not throw on a falsy value or on a
string. -/
theorem validator_returns_on_string (P : Platform) (now : Int) (e : FieldEntry)
    (he : e ∈ requiredValidations P now ++ optionalValidations P) (v : JSValue)
    (hv : v.truthy = false ∨ ∃ s, v = .string s) :
    (e.2 v).toBool = true := by
  simp only [requiredValidations, optionalValidations, List.cons_append, List.nil_append,
    List.mem_cons, List.mem_singleton, List.not_mem_nil, or_false] at he
  rcases hv with hv | ⟨s, rfl⟩
  · rcases he with rfl | rfl | rfl | rfl | rfl | rfl | rfl | rfl | rfl | rfl | rfl | rfl
    all_goals simp only [validatePAN, validateGSTIN, validateMobile, validateEmail,
      validatePincode, validateIFSC, validateEnterpriseName, validateDate, hv, Bool.not_false,
      if_true, Except.toBool]
    all_goals simp only [validateInvestment, hv, Bool.not_false, Bool.true_and]
    all_goals split_ifs
    all_goals try rfl
    all_goals
      cases v with
      | number n =>
        cases n <;> simp only [parseFloat, Except.toBool] <;> split_ifs <;> rfl
      | _ => simp [strictEquals] at *
  · rcases he with rfl | rfl | rfl | rfl | rfl | rfl | rfl | rfl | rfl | rfl | rfl | rfl
    all_goals simp only [validatePAN, validateGSTIN, validateMobile, validateEmail,
      validatePincode, validateIFSC, validateEnterpriseName, validateDate, validateInvestment,
      parseFloat, JSValue.toJSString, newDate, Except.map, Except.toBool]
    all_goals split_ifs
    all_goals try rfl
    all_goals
      cases P.dateParse s with
      | none => rfl
      | some t => simp only []; split_ifs <;> rfl

/-- No validator throws on a form whose field values are falsy or strings. -/
theorem noValidatorThrows_of_strings (P : Platform) (now : Int) (formData : JSObject)
    (h : ∀ k, (getProp formData k).truthy = false ∨ ∃ s, getProp formData k = .string s) :
    noValidatorThrows P now formData = true := by
  unfold noValidatorThrows
  rw [List.all_eq_true]
  intro e he
  exact validator_returns_on_string P now e he _ (h e.1)

/-! ## The validators of fixed patterns -/

theorem string_data_ne_nil {s : String} (hs : s ≠ "") : s.data ≠ [] := by
  intro h
  apply hs
  cases s with
  | mk data => simp only at h; subst h; rfl

theorem string_truthy {s : String} (hs : s ≠ "") : (JSValue.string s).truthy = true := by
  simp [JSValue.truthy, string_data_ne_nil hs]

theorem isDigitOrUpper_toNat_lt {c : Char} (h : isDigitOrUpper c = true) : c.toNat < 65536 := by
  simp only [isDigitOrUpper, Bool.or_eq_true] at h
  rcases h with h | h
  · exact isDigit_toNat_lt h
  · exact isUpperAZ_toNat_lt h

/-- C11: `validateGSTIN` reports valid for the empty string and returns no
`cleanValue`; for every non-empty string it reports valid if and only if the
input, upper-cased and with all whitespace removed, is exactly 15 characters:
2 digits, 5 letters `A-Z`, 4 digits, 1 letter `A-Z`, 1 character of
`[1-9A-Z]`, the letter `Z`, and 1 character of `[0-9A-Z]`; when valid and
non-empty, `cleanValue` is that normalized string. -/
theorem validateGSTIN_spec (P : Platform) (s : String) (hs : s ≠ "") :
    validateGSTIN P (.string "") =
      .ok { isValid := true, message := "GSTIN is optional", cleanValue := none } ∧
    ∃ r, validateGSTIN P (.string s) = .ok r ∧
      (r.isValid = true ↔ IsGstinFormat (removeWhitespace (toUpperCase P s)).data) ∧
      (r.isValid = true →
        r.cleanValue = some (.string (removeWhitespace (toUpperCase P s)))) := by
  refine ⟨rfl, ?_⟩
  set clean := removeWhitespace (toUpperCase P s) with hclean
  simp only [validateGSTIN, string_truthy hs, Bool.not_true, Bool.false_eq_true, if_false,
    ← hclean]
  have hbmp : ∀ run ∈ [(isDigit, 2), (isUpperAZ, 5), (isDigit, 4), (isUpperAZ, 1),
      (isGstinEntity, 1), (isLetterZ, 1), (isDigitOrUpper, 1)],
      ∀ x, run.1 x = true → x.toNat < 65536 := by
    intro run hrun x hx
    simp only [List.mem_cons, List.mem_singleton, List.not_mem_nil, or_false] at hrun
    rcases hrun with rfl | rfl | rfl | rfl | rfl | rfl | rfl
    · exact isDigit_toNat_lt hx
    · exact isUpperAZ_toNat_lt hx
    · exact isDigit_toNat_lt hx
    · exact isUpperAZ_toNat_lt hx
    · simp only [isGstinEntity, isUpperAZ, Bool.or_eq_true, Bool.and_eq_true,
        decide_eq_true_eq] at hx
      omega
    · simp only [isLetterZ, beq_iff_eq] at hx
      omega
    · exact isDigitOrUpper_toNat_lt hx
  by_cases hm : matchRuns [(isDigit, 2), (isUpperAZ, 5), (isDigit, 4), (isUpperAZ, 1),
      (isGstinEntity, 1), (isLetterZ, 1), (isDigitOrUpper, 1)] clean.data = true
  · have hsplit := (matchRuns_iff _ _).mp hm
    obtain ⟨hjs, hlen⟩ := SplitsInto.jsLength_eq _ _ hbmp hsplit
    have hlen15 : jsLength clean = 15 := hjs
    simp only [hlen15, bne_self_eq_false, Bool.false_eq_true, if_false, hm, Bool.not_true]
    exact ⟨_, rfl, by simp [IsGstinFormat, hsplit, hlen], fun _ => rfl⟩
  · have hnot : ¬ IsGstinFormat clean.data := fun h => hm ((matchRuns_iff _ _).mpr h.2)
    simp only [Bool.not_eq_true] at hm
    by_cases hlen : jsLength clean = 15
    · simp only [hlen, bne_self_eq_false, Bool.false_eq_true, if_false, hm, Bool.not_false,
        if_true]
      exact ⟨_, rfl, by simp [hnot], fun h => by simp at h⟩
    · have : (jsLength clean != 15) = true := by simpa using hlen
      simp only [this, if_true]
      exact ⟨_, rfl, by simp [hnot], fun h => by simp at h⟩

/-- C11 at a concrete input: the GSTIN of the test suite, in lower case. -/
theorem validateGSTIN_spec_witness :
    "22aaaaa0000a1z5" ≠ "" ∧
    (validateGSTIN examplePlatform (.string "") =
      .ok { isValid := true, message := "GSTIN is optional", cleanValue := none } ∧
    ∃ r, validateGSTIN examplePlatform (.string "22aaaaa0000a1z5") = .ok r ∧
      (r.isValid = true ↔
        IsGstinFormat (removeWhitespace (toUpperCase examplePlatform "22aaaaa0000a1z5")).data) ∧
      (r.isValid = true →
        r.cleanValue =
          some (.string (removeWhitespace (toUpperCase examplePlatform "22aaaaa0000a1z5"))))) :=
  ⟨by decide, validateGSTIN_spec examplePlatform "22aaaaa0000a1z5" (by decide)⟩

theorem isIfscFormat_iff (cs : List Char) :
    IsIfscFormat cs ↔
      SplitsInto [(isUpperAZ, 4), (fun c => c.toNat == 48, 1), (isDigitOrUpper, 6)] cs := by
  unfold IsIfscFormat
  simp only [SplitsInto]
  constructor
  · rintro ⟨a, b, rfl, -, ha, ha', hb, hb'⟩
    refine ⟨a, ['0'] ++ b, by simp, ha, ha', ['0'], b, rfl, rfl, ?_, b, [], by simp, hb, hb', rfl⟩
    intro x hx
    rw [List.mem_singleton] at hx
    subst hx
    rfl
  · rintro ⟨a, _, rfl, ha, ha', z, _, rfl, hz, hz', b, _, rfl, hb, hb', rfl⟩
    have hz0 : z = ['0'] := by
      match z, hz, hz' with
      | [c], _, hz' =>
        have hc := hz' c (List.mem_singleton.mpr rfl)
        simp only [beq_iff_eq] at hc
        have : c = Char.ofNat 48 := by
          rw [← hc]; exact (Char.ofNat_toNat c).symm
        rw [this]
    subst hz0
    refine ⟨a, b, by simp, ?_, ha, ha', hb, hb'⟩
    simp [ha, hb]

/-- C18: `validateIFSC` reports valid for the empty string and returns no
`cleanValue`; for every non-empty string it reports valid if and only if the
input, upper-cased and with all whitespace removed, is exactly 11 characters:
4 letters `A-Z`, the digit `0`, then 6 characters of `[A-Z0-9]`; when valid and
non-empty, `cleanValue` is that normalized string. -/
theorem validateIFSC_spec (P : Platform) (s : String) (hs : s ≠ "") :
    validateIFSC P (.string "") =
      .ok { isValid := true, message := "IFSC code is optional", cleanValue := none } ∧
    ∃ r, validateIFSC P (.string s) = .ok r ∧
      (r.isValid = true ↔ IsIfscFormat (removeWhitespace (toUpperCase P s)).data) ∧
      (r.isValid = true →
        r.cleanValue = some (.string (removeWhitespace (toUpperCase P s)))) := by
  refine ⟨rfl, ?_⟩
  set clean := removeWhitespace (toUpperCase P s) with hclean
  simp only [validateIFSC, string_truthy hs, Bool.not_true, Bool.false_eq_true, if_false,
    ← hclean]
  have hbmp : ∀ run ∈ [(isUpperAZ, 4), ((fun c => c.toNat == 48 : Char → Bool), 1),
      (isDigitOrUpper, 6)], ∀ x, run.1 x = true → x.toNat < 65536 := by
    intro run hrun x hx
    simp only [List.mem_cons, List.mem_singleton, List.not_mem_nil, or_false] at hrun
    rcases hrun with rfl | rfl | rfl
    · exact isUpperAZ_toNat_lt hx
    · simp only [beq_iff_eq] at hx
      omega
    · exact isDigitOrUpper_toNat_lt hx
  by_cases hm : matchRuns [(isUpperAZ, 4), (fun c => c.toNat == 48, 1), (isDigitOrUpper, 6)]
      clean.data = true
  · have hsplit := (matchRuns_iff _ _).mp hm
    have hlen : jsLength clean = 11 := (SplitsInto.jsLength_eq _ _ hbmp hsplit).1
    simp only [hlen, bne_self_eq_false, Bool.false_eq_true, if_false, hm, Bool.not_true]
    exact ⟨_, rfl, by simp [(isIfscFormat_iff _).mpr hsplit], fun _ => rfl⟩
  · have hnot : ¬ IsIfscFormat clean.data := fun h => hm ((matchRuns_iff _ _).mpr
      ((isIfscFormat_iff _).mp h))
    simp only [Bool.not_eq_true] at hm
    by_cases hlen : jsLength clean = 11
    · simp only [hlen, bne_self_eq_false, Bool.false_eq_true, if_false, hm, Bool.not_false,
        if_true]
      exact ⟨_, rfl, by simp [hnot], fun h => by simp at h⟩
    · have : (jsLength clean != 11) = true := by simpa using hlen
      simp only [this, if_true]
      exact ⟨_, rfl, by simp [hnot], fun h => by simp at h⟩

/-- C18 at a concrete input: the IFSC code of the test suite, in lower case. -/
theorem validateIFSC_spec_witness :
    "sbin0001234" ≠ "" ∧
    (validateIFSC examplePlatform (.string "") =
      .ok { isValid := true, message := "IFSC code is optional", cleanValue := none } ∧
    ∃ r, validateIFSC examplePlatform (.string "sbin0001234") = .ok r ∧
      (r.isValid = true ↔
        IsIfscFormat (removeWhitespace (toUpperCase examplePlatform "sbin0001234")).data) ∧
      (r.isValid = true →
        r.cleanValue =
          some (.string (removeWhitespace (toUpperCase examplePlatform "sbin0001234"))))) :=
  ⟨by decide, validateIFSC_spec examplePlatform "sbin0001234" (by decide)⟩

theorem isSixToNine_isDigit {c : Char} (h : isSixToNine c = true) : isDigit c = true := by
  simp only [isSixToNine, isDigit, Bool.and_eq_true, decide_eq_true_eq] at h ⊢
  omega

theorem isMobileDigits_iff (cs : List Char) :
    IsMobileDigits cs ↔ SplitsInto [(isSixToNine, 1), (isDigit, 9)] cs := by
  unfold IsMobileDigits
  simp only [SplitsInto]
  constructor
  · rintro ⟨hlen, hdig, d, rest, rfl, hd⟩
    refine ⟨[d], rest, rfl, rfl, ?_, rest, [], by simp, by simpa using hlen, ?_, rfl⟩
    · intro x hx
      rw [List.mem_singleton] at hx
      subst hx
      exact hd
    · intro x hx
      exact hdig x (List.mem_cons_of_mem _ hx)
  · rintro ⟨a, _, rfl, ha, ha', b, _, rfl, hb, hb', rfl⟩
    match a, ha, ha' with
    | [d], _, ha' =>
      have hd := ha' d (List.mem_singleton.mpr rfl)
      refine ⟨by simp [hb], ?_, d, b, by simp, hd⟩
      intro c hc
      simp only [List.append_nil, List.singleton_append, List.mem_cons] at hc
      rcases hc with rfl | hc
      · exact isSixToNine_isDigit hd
      · exact hb' c hc

/-- C12: for every non-empty string input, `validateMobile` reports valid if
and only if the input with all whitespace, hyphens and parentheses removed is
exactly 10 decimal digits whose first digit is 6, 7, 8 or 9; when valid,
`cleanValue` is that stripped string; a stripped value of another length
(`.length`, in UTF-16 code units) is rejected with the message about 10
digits, and a stripped value of length 10 that fails the digit pattern with
the message `Invalid Indian mobile number format`. -/
theorem validateMobile_spec (s : String) (hs : s ≠ "") :
    ∃ r, validateMobile (.string s) = .ok r ∧
      (r.isValid = true ↔ IsMobileDigits (stripMobileFormatting s).data) ∧
      (r.isValid = true → r.cleanValue = some (.string (stripMobileFormatting s))) ∧
      (jsLength (stripMobileFormatting s) ≠ 10 →
        r.isValid = false ∧ r.message = "Mobile number must be exactly 10 digits") ∧
      (jsLength (stripMobileFormatting s) = 10 →
        ¬ IsMobileDigits (stripMobileFormatting s).data →
        r.isValid = false ∧ r.message = "Invalid Indian mobile number format") := by
  have hstrip : (⟨s.data.filter (fun c => !isMobileFormatting c)⟩ : String) =
      stripMobileFormatting s := rfl
  set clean := stripMobileFormatting s with hclean
  simp only [validateMobile, string_truthy hs, Bool.not_true, Bool.false_eq_true, if_false,
    hstrip]
  have hbmp : ∀ run ∈ [(isSixToNine, 1), (isDigit, 9)],
      ∀ x, run.1 x = true → x.toNat < 65536 := by
    intro run hrun x hx
    simp only [List.mem_cons, List.mem_singleton, List.not_mem_nil, or_false] at hrun
    rcases hrun with rfl | rfl
    · exact isDigit_toNat_lt (isSixToNine_isDigit hx)
    · exact isDigit_toNat_lt hx
  have hdata : List.filter (fun c => !isMobileFormatting c) s.data = clean.data := rfl
  rw [hdata]
  by_cases hm : matchRuns [(isSixToNine, 1), (isDigit, 9)] clean.data = true
  · have hsplit := (matchRuns_iff _ _).mp hm
    have hlen : jsLength clean = 10 := (SplitsInto.jsLength_eq _ _ hbmp hsplit).1
    have hfmt := (isMobileDigits_iff _).mpr hsplit
    simp only [hlen, bne_self_eq_false, Bool.false_eq_true, if_false, hm, Bool.not_true]
    exact ⟨_, rfl, by simp [hfmt], fun _ => rfl, fun h => absurd rfl h,
      fun _ h => absurd hfmt h⟩
  · have hnot : ¬ IsMobileDigits clean.data := fun h => hm ((matchRuns_iff _ _).mpr
      ((isMobileDigits_iff _).mp h))
    simp only [Bool.not_eq_true] at hm
    by_cases hlen : jsLength clean = 10
    · simp only [hlen, bne_self_eq_false, Bool.false_eq_true, if_false, hm, Bool.not_false,
        if_true]
      exact ⟨_, rfl, by simp [hnot], fun h => by simp at h, fun h => absurd rfl h,
        fun _ _ => ⟨rfl, rfl⟩⟩
    · have : (jsLength clean != 10) = true := by simpa using hlen
      simp only [this, if_true]
      exact ⟨_, rfl, by simp [hnot], fun h => by simp at h, fun _ => ⟨rfl, rfl⟩,
        fun h => absurd h hlen⟩

/-- C12 at a concrete input: the formatted number of the test suite. -/
theorem validateMobile_spec_witness :
    "98765 43210" ≠ "" ∧
    ∃ r, validateMobile (.string "98765 43210") = .ok r ∧
      (r.isValid = true ↔ IsMobileDigits (stripMobileFormatting "98765 43210").data) ∧
      (r.isValid = true → r.cleanValue = some (.string (stripMobileFormatting "98765 43210"))) ∧
      (jsLength (stripMobileFormatting "98765 43210") ≠ 10 →
        r.isValid = false ∧ r.message = "Mobile number must be exactly 10 digits") ∧
      (jsLength (stripMobileFormatting "98765 43210") = 10 →
        ¬ IsMobileDigits (stripMobileFormatting "98765 43210").data →
        r.isValid = false ∧ r.message = "Invalid Indian mobile number format") :=
  ⟨by decide, validateMobile_spec "98765 43210" (by decide)⟩

/-- C17: for every non-empty string input, `validatePincode` reports valid if
and only if the input with all whitespace removed is exactly 6 decimal digits;
when valid, `cleanValue` is that stripped string; a stripped value of another
length (`.length`, in UTF-16 code units) gets the message about 6 digits, and
a stripped value of length 6 that contains a non-digit gets the message about
only digits. -/
theorem validatePincode_spec (s : String) (hs : s ≠ "") :
    ∃ r, validatePincode (.string s) = .ok r ∧
      (r.isValid = true ↔ IsPincodeDigits (removeWhitespace s).data) ∧
      (r.isValid = true → r.cleanValue = some (.string (removeWhitespace s))) ∧
      (jsLength (removeWhitespace s) ≠ 6 →
        r.isValid = false ∧ r.message = "PIN code must be exactly 6 digits") ∧
      (jsLength (removeWhitespace s) = 6 →
        (∃ c ∈ (removeWhitespace s).data, isDigit c = false) →
        r.isValid = false ∧ r.message = "PIN code must contain only digits") := by
  set clean := removeWhitespace s with hclean
  simp only [validatePincode, string_truthy hs, Bool.not_true, Bool.false_eq_true, if_false,
    ← hclean]
  by_cases hm : matchRuns [(isDigit, 6)] clean.data = true
  · have hfmt : IsPincodeDigits clean.data := (matchRuns_single _ _ _).mp hm
    have hlen : jsLength clean = 6 := by
      have := jsLength_eq_length clean.data (fun x hx => isDigit_toNat_lt (hfmt.2 x hx))
      rw [hfmt.1] at this
      exact this
    simp only [hlen, bne_self_eq_false, Bool.false_eq_true, if_false, hm, Bool.not_true]
    refine ⟨_, rfl, by simp [hfmt], fun _ => rfl, fun h => absurd rfl h, ?_⟩
    rintro - ⟨c, hc, hcd⟩
    rw [hfmt.2 c hc] at hcd
    exact absurd hcd (by simp)
  · have hnot : ¬ IsPincodeDigits clean.data := fun h => hm ((matchRuns_single _ _ _).mpr h)
    simp only [Bool.not_eq_true] at hm
    by_cases hlen : jsLength clean = 6
    · simp only [hlen, bne_self_eq_false, Bool.false_eq_true, if_false, hm, Bool.not_false,
        if_true]
      exact ⟨_, rfl, by simp [hnot], fun h => by simp at h, fun h => absurd rfl h,
        fun _ _ => ⟨rfl, rfl⟩⟩
    · have : (jsLength clean != 6) = true := by simpa using hlen
      simp only [this, if_true]
      exact ⟨_, rfl, by simp [hnot], fun h => by simp at h, fun _ => ⟨rfl, rfl⟩,
        fun h => absurd h hlen⟩

/-- C17 at a concrete input: a PIN code with a blank. -/
theorem validatePincode_spec_witness :
    "110 001" ≠ "" ∧
    ∃ r, validatePincode (.string "110 001") = .ok r ∧
      (r.isValid = true ↔ IsPincodeDigits (removeWhitespace "110 001").data) ∧
      (r.isValid = true → r.cleanValue = some (.string (removeWhitespace "110 001"))) ∧
      (jsLength (removeWhitespace "110 001") ≠ 6 →
        r.isValid = false ∧ r.message = "PIN code must be exactly 6 digits") ∧
      (jsLength (removeWhitespace "110 001") = 6 →
        (∃ c ∈ (removeWhitespace "110 001").data, isDigit c = false) →
        r.isValid = false ∧ r.message = "PIN code must contain only digits") :=
  ⟨by decide, validatePincode_spec "110 001" (by decide)⟩

theorem isNameChar_toNat_lt {c : Char} (h : isNameChar c = true) : c.toNat < 65536 := by
  simp only [isNameChar, isLowerAZ, isUpperAZ, isDigit, isWhiteSpace, Bool.or_eq_true,
    Bool.and_eq_true, decide_eq_true_eq, beq_iff_eq] at h
  omega

/-- C15: for every non-empty string input, `validateEnterpriseName` reports
valid if and only if the trimmed input has a length between 2 and 200
inclusive and consists only of ASCII letters, digits, whitespace and the
characters `. , & - ( )`; when valid, `cleanValue` is the trimmed input; and
the length checks (on `.length`, in UTF-16 code units) take precedence over
the character check. -/
theorem validateEnterpriseName_spec (s : String) (hs : s ≠ "") :
    ∃ r, validateEnterpriseName (.string s) = .ok r ∧
      (r.isValid = true ↔ IsAllowedName (trim s).data) ∧
      (r.isValid = true → r.cleanValue = some (.string (trim s))) ∧
      (jsLength (trim s) < 2 → r.isValid = false ∧
        r.message = "Enterprise name must be at least 2 characters long") ∧
      (200 < jsLength (trim s) → r.isValid = false ∧
        r.message = "Enterprise name cannot exceed 200 characters") ∧
      (2 ≤ jsLength (trim s) → jsLength (trim s) ≤ 200 →
        (∃ c ∈ (trim s).data, isNameChar c = false) →
        r.isValid = false ∧ r.message = "Enterprise name contains invalid characters") := by
  set clean := trim s with hclean
  simp only [validateEnterpriseName, string_truthy hs, Bool.not_true, Bool.false_eq_true,
    if_false, ← hclean]
  have hlenEq : (∀ c ∈ clean.data, isNameChar c = true) → jsLength clean = clean.data.length :=
    fun h => jsLength_eq_length clean.data (fun x hx => isNameChar_toNat_lt (h x hx))
  by_cases h1 : jsLength clean < 2
  · have hnot : ¬ IsAllowedName clean.data := by
      rintro ⟨ha, -, hc⟩
      rw [hlenEq hc] at h1
      omega
    simp only [h1, if_true]
    exact ⟨_, rfl, by simp [hnot], fun h => by simp at h, fun _ => ⟨rfl, rfl⟩,
      fun h => by omega, fun h => by omega⟩
  · by_cases h2 : jsLength clean > 200
    · have hnot : ¬ IsAllowedName clean.data := by
        rintro ⟨-, hb, hc⟩
        rw [hlenEq hc] at h2
        omega
      simp only [h1, if_false, h2, if_true]
      exact ⟨_, rfl, by simp [hnot], fun h => by simp at h, fun h => h.elim,
        fun _ => ⟨rfl, rfl⟩, fun _ h => by omega⟩
    · by_cases h3 : matchPlus isNameChar clean.data = true
      · have hall : ∀ c ∈ clean.data, isNameChar c = true := by
          simp only [matchPlus, Bool.and_eq_true, List.all_eq_true] at h3
          exact h3.2
        have hfmt : IsAllowedName clean.data := by
          refine ⟨?_, ?_, hall⟩
          · rw [← hlenEq hall]; omega
          · rw [← hlenEq hall]; omega
        simp only [h1, if_false, h2, h3, Bool.not_true, Bool.false_eq_true]
        refine ⟨_, rfl, by simp [hfmt], fun _ => rfl, fun h => h.elim,
          fun h => h.elim, ?_⟩
        rintro - - ⟨c, hc, hcd⟩
        rw [hall c hc] at hcd
        exact absurd hcd (by simp)
      · have hnot : ¬ IsAllowedName clean.data := by
          rintro ⟨ha, -, hc⟩
          apply h3
          simp only [matchPlus, Bool.and_eq_true, List.all_eq_true, Bool.not_eq_true',
            List.isEmpty_eq_false]
          refine ⟨?_, hc⟩
          intro hnil
          rw [hnil] at ha
          simp at ha
        simp only [Bool.not_eq_true] at h3
        simp only [h1, if_false, h2, h3, Bool.not_false, if_true]
        exact ⟨_, rfl, by simp [hnot], fun h => by simp at h, fun h => h.elim,
          fun h => h.elim, fun _ _ _ => ⟨rfl, rfl⟩⟩

/-- C15 at a concrete input: the padded name of the test suite. -/
theorem validateEnterpriseName_spec_witness :
    "  ABC Manufacturing  " ≠ "" ∧
    ∃ r, validateEnterpriseName (.string "  ABC Manufacturing  ") = .ok r ∧
      (r.isValid = true ↔ IsAllowedName (trim "  ABC Manufacturing  ").data) ∧
      (r.isValid = true → r.cleanValue = some (.string (trim "  ABC Manufacturing  "))) ∧
      (jsLength (trim "  ABC Manufacturing  ") < 2 → r.isValid = false ∧
        r.message = "Enterprise name must be at least 2 characters long") ∧
      (200 < jsLength (trim "  ABC Manufacturing  ") → r.isValid = false ∧
        r.message = "Enterprise name cannot exceed 200 characters") ∧
      (2 ≤ jsLength (trim "  ABC Manufacturing  ") →
        jsLength (trim "  ABC Manufacturing  ") ≤ 200 →
        (∃ c ∈ (trim "  ABC Manufacturing  ").data, isNameChar c = false) →
        r.isValid = false ∧ r.message = "Enterprise name contains invalid characters") :=
  ⟨by decide, validateEnterpriseName_spec "  ABC Manufacturing  " (by decide)⟩

/-! ## The investment amount -/

theorem JSNumber.lt_fin (a b : ℚ) : (JSNumber.fin a).lt (.fin b) = decide (a < b) := rfl

/-- C13: for every integer amount `n`, given as a number, `validateInvestment`
reports valid if and only if `0 ≤ n ≤ 50,000,000,000`, with `cleanValue` `n`
when valid; the bounds are inclusive, every negative `n` is rejected with the
message `cannot be negative`, and every `n > 50,000,000,000` with the message
`exceeds maximum limit`. -/
theorem validateInvestment_integer (P : Platform) (n : Int) :
    ∃ r, validateInvestment P (.number (.fin n)) = .ok r ∧
      (r.isValid = true ↔ 0 ≤ n ∧ n ≤ 50000000000) ∧
      (r.isValid = true → r.cleanValue = some (.number (.fin n))) ∧
      (n < 0 → r.isValid = false ∧ r.message = "Investment amount cannot be negative") ∧
      (50000000000 < n →
        r.isValid = false ∧ r.message = "Investment amount exceeds maximum limit") := by
  have hguard : (!(JSValue.number (.fin (n : ℚ))).truthy &&
      !strictEquals (.number (.fin (n : ℚ))) (.number (.fin 0))) = false := by
    by_cases hn : (n : ℚ) = 0
    · rw [hn]; rfl
    · simp [JSValue.truthy, JSNumber.truthy, hn]
  have hparse : parseFloat P (.number (.fin (n : ℚ))) = .ok (.fin n) := rfl
  simp only [validateInvestment, hguard, Bool.false_eq_true, if_false, hparse, JSNumber.isNaN,
    JSNumber.lt_fin, decide_eq_true_eq]
  by_cases hneg : n < 0
  · have hq : (n : ℚ) < 0 := by exact_mod_cast hneg
    simp only [hq, if_true]
    exact ⟨_, rfl, by simp; omega, fun h => by simp at h, fun _ => ⟨rfl, rfl⟩,
      fun h => by omega⟩
  · have hq : ¬ (n : ℚ) < 0 := by
      intro h; apply hneg; exact_mod_cast h
    by_cases hbig : 50000000000 < n
    · have hq2 : (50000000000 : ℚ) < n := by exact_mod_cast hbig
      simp only [hq, if_false, hq2, if_true]
      exact ⟨_, rfl, by simp; omega, fun h => by simp at h, fun h => absurd h hneg,
        fun _ => ⟨rfl, rfl⟩⟩
    · have hq2 : ¬ (50000000000 : ℚ) < n := by
        intro h; apply hbig; exact_mod_cast h
      simp only [hq, if_false, hq2]
      exact ⟨_, rfl, by simp; omega, fun _ => rfl, fun h => absurd h hneg,
        fun h => absurd h hbig⟩

theorem roundToDouble_ne_nan (n d : Nat) : roundToDouble n d ≠ .nan := by
  simp only [roundToDouble]
  split_ifs <;> simp

theorem JSNumber.neg_eq_nan_iff (x : JSNumber) : x.neg = .nan ↔ x = .nan := by
  cases x with
  | fin q => simp only [JSNumber.neg]; split_ifs <;> simp
  | _ => simp [JSNumber.neg]

theorem take_eight_infinity (cs : List Char) :
    (cs.take 8 == "Infinity".data) = true ↔ ∃ rest, cs = "Infinity".data ++ rest := by
  rw [beq_iff_eq]
  constructor
  · intro h
    exact ⟨cs.drop 8, by rw [← h, List.take_append_drop]⟩
  · rintro ⟨rest, rfl⟩
    rfl

theorem isLiteralStart_not_sign {c : Char} {r : List Char} (h : IsLiteralStart (c :: r)) :
    (c == '-') = false ∧ (c == '+') = false ∧ isWhiteSpace c = false := by
  have key : isDigit c = true ∨ c = '.' ∨ c = 'I' := by
    rcases h with ⟨d, rest, h, hd⟩ | ⟨d, rest, h, -⟩ | ⟨rest, h⟩
    · simp only [List.cons.injEq] at h
      rw [h.1]; exact Or.inl hd
    · simp only [List.cons.injEq] at h
      exact Or.inr (Or.inl h.1)
    · have : c :: r = 'I' :: ("nfinity".data ++ rest) := h
      simp only [List.cons.injEq] at this
      exact Or.inr (Or.inr this.1)
  rcases key with hd | rfl | rfl
  · refine ⟨?_, ?_, isDigit_not_whiteSpace hd⟩
    · rw [beq_eq_false_iff_ne]
      rintro rfl
      simp [isDigit] at hd
    · rw [beq_eq_false_iff_ne]
      rintro rfl
      simp [isDigit] at hd
  · exact ⟨by decide, by decide, by decide⟩
  · exact ⟨by decide, by decide, by decide⟩

theorem dropWhile_append_of_all {p : Char → Bool} (ws l : List Char)
    (h : ∀ c ∈ ws, p c = true) : (ws ++ l).dropWhile p = l.dropWhile p := by
  induction ws with
  | nil => rfl
  | cons c ws ih =>
    rw [List.cons_append, List.dropWhile_cons, if_pos (h c (List.mem_cons_self _ _))]
    exact ih (fun x hx => h x (List.mem_cons_of_mem _ hx))

/-- What `parseFloat` reads after the white space and the sign is the start of
a literal exactly when the string begins with a number. -/
theorem beginsWithNumber_iff (s : String) :
    BeginsWithNumber s ↔ IsLiteralStart (takeSign (s.data.dropWhile isWhiteSpace)).2 := by
  constructor
  · rintro ⟨ws, sign, rest, hs, hws, hsign, hrest⟩
    rw [hs, List.append_assoc, dropWhile_append_of_all ws _ hws]
    cases rest with
    | nil =>
      rcases hrest with ⟨d, r, h, -⟩ | ⟨d, r, h, -⟩ | ⟨r, h⟩ <;> simp at h
    | cons c r =>
      obtain ⟨h1, h2, h3⟩ := isLiteralStart_not_sign hrest
      rcases hsign with rfl | rfl | rfl
      · simp only [List.nil_append, List.dropWhile_cons, h3, Bool.false_eq_true, if_false,
          takeSign, h1, h2]
        exact hrest
      · have : (['+'] ++ c :: r).dropWhile isWhiteSpace = '+' :: c :: r := by
          rw [List.singleton_append, List.dropWhile_cons]
          rfl
        rw [this]
        exact hrest
      · have : (['-'] ++ c :: r).dropWhile isWhiteSpace = '-' :: c :: r := by
          rw [List.singleton_append, List.dropWhile_cons]
          rfl
        rw [this]
        exact hrest
  · intro h
    have hsplit : s.data = s.data.takeWhile isWhiteSpace ++ s.data.dropWhile isWhiteSpace :=
      (List.takeWhile_append_dropWhile _ _).symm
    have hws : ∀ c ∈ s.data.takeWhile isWhiteSpace, isWhiteSpace c = true :=
      fun c hc => List.mem_takeWhile_imp hc
    cases ht : s.data.dropWhile isWhiteSpace with
    | nil =>
      rw [ht] at h
      rcases h with ⟨d, r, h, -⟩ | ⟨d, r, h, -⟩ | ⟨r, h⟩ <;> simp [takeSign] at h
    | cons c r =>
      rw [ht] at h hsplit
      by_cases hm : (c == '-') = true
      · have hc : c = '-' := by simpa using hm
        subst hc
        refine ⟨_, ['-'], r, by rw [List.append_assoc]; exact hsplit, hws, Or.inr (Or.inr rfl), ?_⟩
        simpa [takeSign] using h
      · by_cases hp : (c == '+') = true
        · have hc : c = '+' := by simpa using hp
          subst hc
          refine ⟨_, ['+'], r, by rw [List.append_assoc]; exact hsplit, hws,
            Or.inr (Or.inl rfl), ?_⟩
          simpa [takeSign] using h
        · refine ⟨_, [], c :: r, by simpa using hsplit, hws, Or.inl rfl, ?_⟩
          simp only [Bool.not_eq_true] at hm hp
          simpa [takeSign, hm, hp] using h

/-- The number that `parseFloat` reads is `NaN` exactly when what follows the
white space and the sign is not the start of a literal. -/
theorem parseFloatString_isNaN_iff (s : String) :
    (parseFloatString s).isNaN = true ↔
      ¬ IsLiteralStart (takeSign (s.data.dropWhile isWhiteSpace)).2 := by
  have hnan : ∀ x : JSNumber, x.isNaN = true ↔ x = .nan := by
    intro x; cases x <;> simp [JSNumber.isNaN]
  rw [hnan]
  unfold parseFloatString
  generalize takeSign (s.data.dropWhile isWhiteSpace) = p
  obtain ⟨sg, cs⟩ := p
  have hneg : ∀ x : JSNumber, (if sg = true then x.neg else x) = .nan ↔ x = .nan := by
    intro x
    split_ifs
    · exact JSNumber.neg_eq_nan_iff x
    · exact Iff.rfl
  simp only [hneg]
  by_cases hinf : (cs.take 8 == "Infinity".data) = true
  · simp only [hinf, if_true, reduceCtorEq, false_iff, not_not]
    exact Or.inr (Or.inr ((take_eight_infinity cs).mp hinf))
  · have hinf' : ¬ ∃ rest, cs = "Infinity".data ++ rest :=
      fun h => hinf ((take_eight_infinity cs).mpr h)
    simp only [hinf, Bool.false_eq_true, if_false]
    cases cs with
    | nil =>
      simp only [List.takeWhile_nil, List.isEmpty_nil, List.dropWhile_nil, Bool.and_self,
        if_true, true_iff]
      rintro (⟨d, r, h, -⟩ | ⟨d, r, h, -⟩ | ⟨r, h⟩)
      · simp at h
      · simp at h
      · exact absurd h (by simp)
    | cons c r =>
      by_cases hd : isDigit c = true
      · simp only [List.takeWhile_cons, hd, if_true, List.isEmpty_cons, Bool.false_and,
          Bool.false_eq_true, if_false]
        constructor
        · intro h
          exact absurd h (roundToDouble_ne_nan _ _)
        · intro h
          exact absurd (Or.inl ⟨c, r, rfl, hd⟩) h
      · simp only [Bool.not_eq_true] at hd
        simp only [List.takeWhile_cons, hd, Bool.false_eq_true, if_false, List.isEmpty_nil,
          Bool.true_and, List.dropWhile_cons]
        by_cases hdot : (c == '.') = true
        · have hcdot : c = '.' := by simpa using hdot
          subst hcdot
          simp only [beq_self_eq_true, if_true]
          cases r with
          | nil =>
            simp only [List.takeWhile_nil, List.isEmpty_nil, if_true, true_iff]
            rintro (⟨d, r, h, hd'⟩ | ⟨d, r, h, -⟩ | h)
            · simp only [List.cons.injEq] at h
              rw [← h.1] at hd'
              exact absurd hd' (by decide)
            · simp at h
            · exact hinf' h
          | cons d r =>
            by_cases hd2 : isDigit d = true
            · simp only [List.takeWhile_cons, hd2, if_true, List.isEmpty_cons,
                Bool.false_eq_true, if_false]
              constructor
              · intro h
                exact absurd h (roundToDouble_ne_nan _ _)
              · intro h
                exact absurd (Or.inr (Or.inl ⟨d, r, rfl, hd2⟩)) h
            · simp only [Bool.not_eq_true] at hd2
              simp only [List.takeWhile_cons, hd2, Bool.false_eq_true, if_false,
                List.isEmpty_nil, if_true, true_iff]
              rintro (⟨d', r', h, hd'⟩ | ⟨d', r', h, hd'⟩ | h)
              · simp only [List.cons.injEq] at h
                rw [← h.1] at hd'
                exact absurd hd' (by decide)
              · simp only [List.cons.injEq, true_and] at h
                rw [← h.1, hd2] at hd'
                exact absurd hd' (by simp)
              · exact hinf' h
        · simp only [Bool.not_eq_true] at hdot
          simp only [hdot, Bool.false_eq_true, if_false, List.isEmpty_nil, if_true, true_iff]
          rintro (⟨d', r', h, hd'⟩ | ⟨d', r', h, -⟩ | h)
          · simp only [List.cons.injEq] at h
            rw [← h.1, hd] at hd'
            exact absurd hd' (by simp)
          · simp only [List.cons.injEq] at h
            rw [h.1] at hdot
            exact absurd hdot (by decide)
          · exact hinf' h

/-- C14, as amended: the empty string is reported as a missing amount.
A non-empty string is rejected as not a valid number exactly when it does not
begin, after leading white space and an optional sign, with a decimal number
literal.  A string that begins with such a literal, also when other text
follows the literal, is judged by the range rules on the number `n` that
`parseFloat` reads from it: it is rejected as negative when `n < 0`, as
exceeding the limit when `n > 50,000,000,000`, and otherwise accepted with
the clean value `n`. -/
theorem validateInvestment_non_numeric (P : Platform) (s : String) (hs : s ≠ "") :
    validateInvestment P (.string "") =
        .ok { isValid := false, message := "Investment amount is required" } ∧
      ∃ r, validateInvestment P (.string s) = .ok r ∧
        (¬ BeginsWithNumber s →
          r.isValid = false ∧ r.message = "Investment amount must be a valid number") ∧
        (BeginsWithNumber s →
          r.message ≠ "Investment amount must be a valid number" ∧
          (parseFloatString s).isNaN = false ∧
          ((parseFloatString s).lt (.fin 0) = true →
            r.isValid = false ∧ r.message = "Investment amount cannot be negative") ∧
          ((parseFloatString s).lt (.fin 0) = false →
            (JSNumber.fin 50000000000).lt (parseFloatString s) = true →
            r.isValid = false ∧ r.message = "Investment amount exceeds maximum limit") ∧
          ((parseFloatString s).lt (.fin 0) = false →
            (JSNumber.fin 50000000000).lt (parseFloatString s) = false →
            r.isValid = true ∧ r.cleanValue = some (.number (parseFloatString s)))) := by
  refine ⟨rfl, ?_⟩
  have ht : (JSValue.string s).truthy = true := string_truthy hs
  have hpf : parseFloat P (.string s) = .ok (parseFloatString s) := rfl
  rw [beginsWithNumber_iff]
  by_cases hn : (parseFloatString s).isNaN = true
  · have hl := (parseFloatString_isNaN_iff s).mp hn
    have hval : validateInvestment P (.string s) =
        .ok ⟨false, "Investment amount must be a valid number", none⟩ := by
      simp only [validateInvestment, ht, Bool.not_true, Bool.false_and, Bool.false_eq_true,
        if_false, hpf, hn, if_true]
    exact ⟨_, hval, fun _ => ⟨rfl, rfl⟩, fun h => absurd h hl⟩
  · have hl : IsLiteralStart (takeSign (s.data.dropWhile isWhiteSpace)).2 := by
      by_contra h
      exact hn ((parseFloatString_isNaN_iff s).mpr h)
    have hn0 : (parseFloatString s).isNaN = false := by simpa using hn
    by_cases h1 : (parseFloatString s).lt (.fin 0) = true
    · have hval : validateInvestment P (.string s) =
          .ok ⟨false, "Investment amount cannot be negative", none⟩ := by
        simp only [validateInvestment, ht, Bool.not_true, Bool.false_and, Bool.false_eq_true,
          if_false, hpf, hn0, h1, if_true]
      refine ⟨_, hval, fun h => absurd hl h, fun _ => ⟨by decide, hn0, fun _ => ⟨rfl, rfl⟩,
        fun h => ?_, fun h => ?_⟩⟩
      · rw [h1] at h
        exact absurd h (by decide)
      · rw [h1] at h
        exact absurd h (by decide)
    · have h10 : (parseFloatString s).lt (.fin 0) = false := by simpa using h1
      by_cases h2 : (JSNumber.fin 50000000000).lt (parseFloatString s) = true
      · have hval : validateInvestment P (.string s) =
            .ok ⟨false, "Investment amount exceeds maximum limit", none⟩ := by
          simp only [validateInvestment, ht, Bool.not_true, Bool.false_and, Bool.false_eq_true,
            if_false, hpf, hn0, h10, h2, if_true]
        refine ⟨_, hval, fun h => absurd hl h, fun _ => ⟨by decide, hn0, fun h => ?_,
          fun _ _ => ⟨rfl, rfl⟩, fun _ h => ?_⟩⟩
        · rw [h10] at h
          exact absurd h (by decide)
        · rw [h2] at h
          exact absurd h (by decide)
      · have h20 : (JSNumber.fin 50000000000).lt (parseFloatString s) = false := by
          simpa using h2
        have hval : validateInvestment P (.string s) =
            .ok ⟨true, "Valid investment amount", some (.number (parseFloatString s))⟩ := by
          simp only [validateInvestment, ht, Bool.not_true, Bool.false_and, Bool.false_eq_true,
            if_false, hpf, hn0, h10, h20]
        refine ⟨_, hval, fun h => absurd hl h,
          fun _ => ⟨show "Valid investment amount" ≠ _ by decide, hn0, fun h => ?_,
            fun _ h => ?_, fun _ _ => ⟨rfl, rfl⟩⟩⟩
        · rw [h10] at h
          exact absurd h (by decide)
        · rw [h20] at h
          exact absurd h (by decide)

/-- C14 at concrete inputs: the string `abc`, which does not begin with a
number, and the string `12abc`, which does and is read as 12. -/
theorem validateInvestment_non_numeric_witness :
    ("12abc" ≠ "" ∧ BeginsWithNumber "12abc" ∧ ¬ BeginsWithNumber "abc" ∧
      parseFloatString "12abc" = .fin 12) ∧
    (validateInvestment examplePlatform (.string "") =
        .ok { isValid := false, message := "Investment amount is required" } ∧
      ∃ r, validateInvestment examplePlatform (.string "12abc") = .ok r ∧
        (¬ BeginsWithNumber "12abc" →
          r.isValid = false ∧ r.message = "Investment amount must be a valid number") ∧
        (BeginsWithNumber "12abc" →
          r.message ≠ "Investment amount must be a valid number" ∧
          (parseFloatString "12abc").isNaN = false ∧
          ((parseFloatString "12abc").lt (.fin 0) = true →
            r.isValid = false ∧ r.message = "Investment amount cannot be negative") ∧
          ((parseFloatString "12abc").lt (.fin 0) = false →
            (JSNumber.fin 50000000000).lt (parseFloatString "12abc") = true →
            r.isValid = false ∧ r.message = "Investment amount exceeds maximum limit") ∧
          ((parseFloatString "12abc").lt (.fin 0) = false →
            (JSNumber.fin 50000000000).lt (parseFloatString "12abc") = false →
            r.isValid = true ∧ r.cleanValue = some (.number (parseFloatString "12abc"))))) :=
  ⟨⟨by decide, ⟨[], [], "12abc".data, rfl, by simp, Or.inl rfl,
      Or.inl ⟨'1', "2abc".data, rfl, by decide⟩⟩,
      fun h => by
        rw [beginsWithNumber_iff] at h
        rcases h with ⟨d, rest, h, hd⟩ | ⟨d, rest, h, hd⟩ | ⟨rest, h⟩
        · have : d = 'a' := by
            have h' : 'a' :: "bc".data = d :: rest := h
            simp only [List.cons.injEq] at h'
            exact h'.1.symm
          subst this
          exact absurd hd (by decide)
        · have h' : 'a' :: "bc".data = '.' :: d :: rest := h
          simp only [List.cons.injEq] at h'
          exact absurd h'.1 (by decide)
        · have h' : 'a' :: "bc".data = 'I' :: ("nfinity".data ++ rest) := h
          simp only [List.cons.injEq] at h'
          exact absurd h'.1 (by decide),
      rfl⟩,
    validateInvestment_non_numeric examplePlatform "12abc" (by decide)⟩

/-- C14, as stated, fails: the string `12abc` is not a number literal, yet
the amount is accepted with the clean value 12; the empty string is a string
that is not a number literal, yet its message is that the amount is
required. -/
theorem validateInvestment_non_numeric_counterexample :
    validateInvestment examplePlatform (.string "12abc") =
        .ok { isValid := true, message := "Valid investment amount",
              cleanValue := some (.number (.fin 12)) } ∧
      validateInvestment examplePlatform (.string "") =
        .ok { isValid := false, message := "Investment amount is required" } := by
  refine ⟨?_, rfl⟩
  rfl

/-! ## The fields that the handler fills in -/

/-- The values in `errors` after a loop over entries of distinct names. -/
theorem forEachField_errors (formData : JSObject) (optional : Bool)
    (step : JSObject × JSObject → FieldEntry → Except JSError (JSObject × JSObject))
    (hstep : ∀ acc e, step acc e =
      (fieldOutcome formData optional e).map (recordOutcome formData acc e))
    (L : List FieldEntry) (acc acc' : JSObject × JSObject)
    (h : forEachField step L acc = .ok acc') (hnd : (L.map (fun e => e.1)).Nodup) :
    (∀ k, k ∉ L.map (fun e => e.1) → getProp acc'.1 k = getProp acc.1 k) ∧
    (∀ e ∈ L, ∀ res, fieldOutcome formData optional e = .ok (some res) → res.isValid = false →
      getProp acc'.1 e.1 = .string res.message) := by
  induction L generalizing acc with
  | nil =>
    simp only [forEachField, Except.ok.injEq] at h
    subst h
    simp
  | cons e L ih =>
    rw [forEachField, hstep] at h
    cases ho : fieldOutcome formData optional e with
    | error err => rw [ho] at h; simp [Except.map] at h
    | ok o =>
      rw [ho] at h
      simp only [Except.map] at h
      rw [List.map_cons, List.nodup_cons] at hnd
      obtain ⟨h1, h2⟩ := ih _ h hnd.2
      have hrec : ∀ k, k ≠ e.1 → getProp (recordOutcome formData acc e o).1 k = getProp acc.1 k := by
        intro k hk
        cases o with
        | none => rfl
        | some res =>
          cases hv : res.isValid with
          | true => simp [recordOutcome, hv]
          | false =>
            simp only [recordOutcome, hv, Bool.not_false, if_true]
            exact getProp_setProp_other _ _ _ _ hk
      refine ⟨?_, ?_⟩
      · intro k hk
        rw [List.map_cons, List.mem_cons, not_or] at hk
        rw [h1 k hk.2, hrec k hk.1]
      · intro e' he' res hres hv
        rcases List.mem_cons.mp he' with rfl | he'
        · rw [h1 _ hnd.1]
          rw [ho] at hres
          simp only [Except.ok.injEq] at hres
          subst hres
          simp only [recordOutcome, hv, Bool.not_false, if_true]
          exact getProp_setProp_same _ _ _
        · exact h2 e' he' res hres hv

/-- The message that `errors` holds for a rejected required field. -/
theorem validateRegistrationForm_required_message (P : Platform) (now : Int)
    (formData : JSObject) (v : FormValidation)
    (h : validateRegistrationForm P now formData = .ok v)
    (e : FieldEntry) (he : e ∈ requiredValidations P now) (res : ValidationResult)
    (hres : e.2 (getProp formData e.1) = .ok res) (hinv : res.isValid = false) :
    getProp v.errors e.1 = .string res.message := by
  obtain ⟨acc, h1, h2, -⟩ := validateRegistrationForm_loops P now formData v h
  have ho : fieldOutcome formData false e = .ok (some res) :=
    (fieldOutcome_required_iff formData e res).mpr hres
  have hnd := fieldNames_nodup P now
  rw [List.nodup_append] at hnd
  obtain ⟨hr, hod, hdis⟩ := hnd
  obtain ⟨-, v1⟩ :=
    forEachField_errors formData false _ (validateField_eq formData) _ _ _ h1 hr
  obtain ⟨v2, -⟩ :=
    forEachField_errors formData true _ (validateOptionalField_eq formData) _ _ _ h2 hod
  have hnot : e.1 ∉ (optionalValidations P).map (fun e => e.1) :=
    fun hin => hdis (List.mem_map_of_mem (fun e => e.1) he) hin
  have := v2 e.1 hnot
  simp only at this
  rw [this, v1 e he res ho hinv]

/-- A run of the handler that answers 201 went through a valid form
validation, and the record it appended holds the `data` of the `create`
call. -/
theorem registerHandler_created (P : Platform) (env : RequestEnv) (store : List Registration)
    (body : JSObject) (h : (registerHandler P env store body).1.status = 201) :
    ∃ v data, validateRegistrationForm P env.now body = .ok v ∧ v.isValid = true ∧
      registrationData P (generateRegistrationId P env.idMillis env.randomDigits)
        v.cleanData = .ok data ∧
      (registerHandler P env store body).2 =
        store ++ [{ toRegistrationData := data, id := store.length + 1,
                    createdAt := env.createdAt }] := by
  cases hv : validateRegistrationForm P env.now body with
  | error e =>
    exfalso
    revert h
    simp only [registerHandler, registerTry, hv]
    split_ifs <;> simp
  | ok v =>
    cases hb : v.isValid with
    | false =>
      exfalso
      revert h
      simp [registerHandler, registerTry, hv, hb]
    | true =>
      obtain ⟨s, hs, hclean⟩ := cleanData_aadhaarNumber P env.now body v hv hb
      cases hf : findFirstByAadhaar store (.string (removeWhitespace s)) with
      | some existing =>
        exfalso
        revert h
        simp [registerHandler, registerTry, hv, hb, hclean, hf]
      | none =>
        have hnew := (findFirstByAadhaar_none_iff store _).mp hf
        obtain ⟨data, hdata, hhandler⟩ :=
          registerHandler_new P env store body v hv hb _ hclean hnew
        exact ⟨v, data, rfl, hb, hdata, by rw [hhandler]⟩

/-- The `consent` and the `dateOfBirth` of the `data` of the `create` call. -/
theorem registrationData_consent (P : Platform) (registrationId : String)
    (cleanData : JSObject) (data : RegistrationData)
    (h : registrationData P registrationId cleanData = .ok data) :
    data.consent = (getProp cleanData "consent").or (.bool true) ∧
    optionalDate P (getProp cleanData "dateOfBirth") = .ok data.dateOfBirth := by
  unfold registrationData at h
  cases h1 : optionalDate P (getProp cleanData "dateOfBirth") with
  | error e => rw [h1] at h; simp at h
  | ok d1 =>
    rw [h1] at h
    simp only at h
    cases h2 : optionalDate P (getProp cleanData "dateOfCommencementProduction") with
    | error e => rw [h2] at h; simp at h
    | ok d2 =>
      rw [h2] at h
      simp only [Except.ok.injEq] at h
      subst h
      exact ⟨rfl, rfl⟩

/-- C19, the code at the failing input: the body with `consent: false` creates a record
whose stored consent is `true`; and in general a run of the handler that
answers 201 appends a record whose stored consent is `true`, because the
cleaned data never has a `consent` and `cleanData.consent || true` is `true`
for a missing value. -/
theorem register_consent_always_true (P : Platform) (env : RequestEnv)
    (store : List Registration) (body : JSObject) :
    (getProp (setProp validForm "consent" (.bool false)) "consent" = .bool false ∧
      (registerHandler examplePlatform exampleEnv []
          (setProp validForm "consent" (.bool false))).1.status = 201 ∧
      ((registerHandler examplePlatform exampleEnv []
          (setProp validForm "consent" (.bool false))).2.map (fun r => r.consent)) =
        [.bool true]) ∧
    ((registerHandler P env store body).1.status ≠ 201 ∨
      ∃ created, (registerHandler P env store body).2 = store ++ [created] ∧
        created.consent = .bool true) := by
  refine ⟨⟨rfl, rfl, rfl⟩, ?_⟩
  by_cases h : (registerHandler P env store body).1.status = 201
  · right
    obtain ⟨v, data, hv, -, hdata, hstore⟩ := registerHandler_created P env store body h
    refine ⟨_, hstore, ?_⟩
    have hno : getProp v.cleanData "consent" = .undefined := by
      apply getProp_of_not_hasKey
      refine (validateRegistrationForm_other P env.now body v hv _ ?_).2
      rw [requiredNames, optionalNames]
      decide
    show data.consent = .bool true
    rw [(registrationData_consent P _ _ data hdata).1, hno]
    rfl
  · exact Or.inl h

theorem validateDate_falsy (P : Platform) (now : Int) (d : JSValue) (fieldName : String)
    (h : d.truthy = false) :
    validateDate P now d fieldName =
      .ok { isValid := false, message := fieldName ++ " is required" } := by
  simp [validateDate, h]

/-- C20, as amended: `dateOfBirth` is required at the submission endpoint.  For
every request body whose `dateOfBirth` is not supplied (absent, or another
falsy value), the handler creates no record and does not answer 201; when no
validator throws on the other fields it answers HTTP 400 with
`validationErrors.dateOfBirth` equal to `Date of birth is required`.  A record
that the handler creates, for any body, never has a null `dateOfBirth`. -/
theorem register_dateOfBirth_required (P : Platform) (env : RequestEnv)
    (store : List Registration) (body : JSObject)
    (h : (getProp body "dateOfBirth").truthy = false) :
    (registerHandler P env store body).2 = store ∧
    (registerHandler P env store body).1.status ≠ 201 ∧
    (noValidatorThrows P env.now body = true →
      ∃ v, validateRegistrationForm P env.now body = .ok v ∧
        getProp v.errors "dateOfBirth" = .string "Date of birth is required" ∧
        registerHandler P env store body =
          ({ status := 400,
             body := [("error", .string "Validation failed"),
                      ("validationErrors", .object v.errors),
                      ("timestamp", .string (toISOString env.responseTime))] }, store)) ∧
    (∀ other, (registerHandler P env store other).1.status = 201 →
      ∃ created t, (registerHandler P env store other).2 = store ++ [created] ∧
        created.dateOfBirth = some t) := by
  have hmem : (("dateOfBirth", fun date => validateDate P env.now date "Date of birth") :
      FieldEntry) ∈ requiredValidations P env.now := by simp [requiredValidations]
  have hres := validateDate_falsy P env.now _ "Date of birth" h
  have key : ∀ v, validateRegistrationForm P env.now body = .ok v →
      v.isValid = false ∧ getProp v.errors "dateOfBirth" = .string "Date of birth is required" := by
    intro v hv
    obtain ⟨res, h1, h2, -⟩ := validateRegistrationForm_required P env.now body v hv _ hmem
    simp only at h1 h2
    rw [hres] at h1
    simp only [Except.ok.injEq] at h1
    subst h1
    have hkey : hasKey v.errors "dateOfBirth" = true := h2.mpr rfl
    have hmsg := validateRegistrationForm_required_message P env.now body v hv _ hmem _ hres rfl
    refine ⟨?_, hmsg⟩
    obtain ⟨-, -, -, hval⟩ := validateRegistrationForm_loops P env.now body v hv
    rw [hval]
    cases hl : v.errors with
    | nil => rw [hl] at hkey; simp [hasKey] at hkey
    | cons a l => rfl
  have hhandler : ∀ v, validateRegistrationForm P env.now body = .ok v →
      registerHandler P env store body =
        ({ status := 400,
           body := [("error", .string "Validation failed"),
                    ("validationErrors", .object v.errors),
                    ("timestamp", .string (toISOString env.responseTime))] }, store) := by
    intro v hv
    simp [registerHandler, registerTry, hv, (key v hv).1]
  have hrest : (registerHandler P env store body).2 = store ∧
      (registerHandler P env store body).1.status ≠ 201 := by
    cases hv : validateRegistrationForm P env.now body with
    | error e =>
      simp only [registerHandler, registerTry, hv]
      split_ifs <;> simp
    | ok v =>
      rw [hhandler v hv]
      simp
  refine ⟨hrest.1, hrest.2, ?_, ?_⟩
  · intro hno
    obtain ⟨v, hv⟩ := validateRegistrationForm_returns P env.now body hno
    exact ⟨v, hv, (key v hv).2, hhandler v hv⟩
  · intro other h201
    obtain ⟨v, data, hv, hb, hdata, hstore⟩ := registerHandler_created P env store other h201
    obtain ⟨t, -, -, -, hdob⟩ := cleanData_dateOfBirth P env.now other v hv hb
    have hd := (registrationData_consent P _ _ data hdata).2
    rw [hdob] at hd
    simp only [optionalDate, isoDatePart_truthy, if_true, newDate, Except.map,
      Except.ok.injEq] at hd
    exact ⟨_, _, hstore, hd.symm⟩

/-- C20 at a concrete input: the valid form of the test suite without its
date of birth, on the empty store. -/
theorem register_dateOfBirth_required_witness :
    (getProp formWithoutDateOfBirth "dateOfBirth").truthy = false ∧
    (registerHandler examplePlatform exampleEnv [] formWithoutDateOfBirth).2 = [] ∧
    (registerHandler examplePlatform exampleEnv [] formWithoutDateOfBirth).1.status ≠ 201 ∧
    (noValidatorThrows examplePlatform exampleEnv.now formWithoutDateOfBirth = true →
      ∃ v, validateRegistrationForm examplePlatform exampleEnv.now formWithoutDateOfBirth =
          .ok v ∧
        getProp v.errors "dateOfBirth" = .string "Date of birth is required" ∧
        registerHandler examplePlatform exampleEnv [] formWithoutDateOfBirth =
          ({ status := 400,
             body := [("error", .string "Validation failed"),
                      ("validationErrors", .object v.errors),
                      ("timestamp", .string (toISOString exampleEnv.responseTime))] }, [])) ∧
    (∀ other, (registerHandler examplePlatform exampleEnv [] other).1.status = 201 →
      ∃ created t, (registerHandler examplePlatform exampleEnv [] other).2 = [] ++ [created] ∧
        created.dateOfBirth = some t) :=
  ⟨rfl, register_dateOfBirth_required examplePlatform exampleEnv [] formWithoutDateOfBirth rfl⟩

/-- C20, as stated, fails: the valid form of the test suite is accepted with
HTTP 201, and the same form without its `dateOfBirth` is answered with
HTTP 400 and the message `Date of birth is required`, no record being
created. -/
theorem register_dateOfBirth_required_counterexample :
    (registerHandler examplePlatform exampleEnv [] validForm).1.status = 201 ∧
    hasKey formWithoutDateOfBirth "dateOfBirth" = false ∧
    registerHandler examplePlatform exampleEnv [] formWithoutDateOfBirth =
      ({ status := 400,
         body := [("error", .string "Validation failed"),
                  ("validationErrors",
                    .object [("dateOfBirth", .string "Date of birth is required")]),
                  ("timestamp", .string "2023-11-14T22:13:20.003Z")] }, []) :=
  ⟨rfl, rfl, rfl⟩

/-! ## The date validator -/

/-- The arithmetic core of the round trip, in the year that begins in March:
`yoe` is the year of the era, `doy` the day of that year. -/
theorem yoe_doy_roundtrip (yoe doy : Nat) (hy : yoe < 400)
    (hdoy : doy ≤ 364 ∨ (doy = 365 ∧ (yoe + 1) % 4 = 0 ∧ ((yoe + 1) % 100 ≠ 0 ∨ yoe = 399))) :
    let doe := yoe * 365 + yoe / 4 - yoe / 100 + doy
    doe ≤ 146096 ∧
    (doe - doe / 1460 + doe / 36524 - doe / 146096) / 365 = yoe ∧
    doe - (365 * yoe + yoe / 4 - yoe / 100) = doy := by
  intro doe
  have hdoe : doe = yoe * 365 + yoe / 4 - yoe / 100 + doy := rfl
  clear_value doe
  refine ⟨by omega, ?_, by omega⟩
  obtain ⟨q, r, hq, hr⟩ : ∃ q r, yoe = 4 * q + r ∧ r < 4 := ⟨yoe / 4, yoe % 4, by omega, by omega⟩
  obtain ⟨k, hk⟩ : ∃ k, yoe / 100 = k := ⟨_, rfl⟩
  have hk4 : k < 4 := by omega
  have h4 : yoe / 4 = q := by omega
  have hqk : 25 * k ≤ q ∧ q < 25 * k + 25 := by omega
  have hleap : doy ≤ 364 ∨ (doy = 365 ∧ r = 3 ∧ (q ≠ 25 * k + 24 ∨ q = 99)) := by omega
  have hdoe' : doe + k = 1461 * q + 365 * r + doy := by omega
  clear hdoy hdoe h4 hk hy
  by_cases hlast : doe = 146096
  · have : q = 99 ∧ r = 3 ∧ k = 3 ∧ doy = 365 := by omega
    obtain ⟨rfl, rfl, rfl, rfl⟩ := this
    subst hlast hq
    rfl
  · have e1 : doe / 146096 = 0 := by omega
    have e2 : doe / 36524 = k := by
      have : 36524 * k ≤ doe ∧ doe < 36524 * (k + 1) := by omega
      omega
    obtain ⟨f, hf⟩ : ∃ f, doe / 1460 = f := ⟨_, rfl⟩
    have hf1 : 1460 * f ≤ doe ∧ doe < 1460 * f + 1460 := by omega
    have hf2 : f + 1 = q ∨ f = q ∨ f = q + 1 := by omega
    rw [e1, e2, hf]
    have : 365 * yoe ≤ doe - f + k - 0 ∧ doe - f + k - 0 < 365 * yoe + 365 := by
      rcases hf2 with h | h | h <;> omega
    omega

/-- The calendar date of a day given by its era and its day of the era. -/
theorem civilFromDays_of_era (era : Int) (doe yoe doy mp : Nat) (h1 : doe ≤ 146096)
    (h2 : (doe - doe / 1460 + doe / 36524 - doe / 146096) / 365 = yoe)
    (h3 : doe - (365 * yoe + yoe / 4 - yoe / 100) = doy)
    (h4 : (5 * doy + 2) / 153 = mp) :
    civilFromDays (era * 146097 + (doe : Int) - 719468) =
      ((yoe : Int) + era * 400 + (if (if mp < 10 then mp + 3 else mp - 9) ≤ 2 then 1 else 0),
        if mp < 10 then mp + 3 else mp - 9, doy - (153 * mp + 2) / 5 + 1) := by
  have hz : (era * 146097 + (doe : Int) - 719468 + 719468) / 146097 = era := by omega
  have hd : (era * 146097 + (doe : Int) - 719468 + 719468 - era * 146097).toNat = doe := by
    omega
  simp only [civilFromDays, hz, hd, h2, h3, h4]

/-- The day count of a calendar date is read back as that date. -/
theorem civilFromDays_daysFromCivil (y : Int) (m d : Nat) (h : IsCalendarDate y m d) :
    civilFromDays (daysFromCivil y m d) = (y, m, d) := by
  obtain ⟨hm1, hm2, hd1, hd2⟩ := h
  obtain ⟨sy, hsy⟩ : ∃ sy : Int, sy = if m ≤ 2 then y - 1 else y := ⟨_, rfl⟩
  obtain ⟨era, hera⟩ : ∃ era : Int, era = sy / 400 := ⟨_, rfl⟩
  obtain ⟨yoe, hyoe⟩ : ∃ yoe : Nat, yoe = (sy - era * 400).toNat := ⟨_, rfl⟩
  obtain ⟨mp, hmp⟩ : ∃ mp : Nat, mp = if 2 < m then m - 3 else m + 9 := ⟨_, rfl⟩
  obtain ⟨doy, hdoy⟩ : ∃ doy : Nat, doy = (153 * mp + 2) / 5 + d - 1 := ⟨_, rfl⟩
  have hdays : daysFromCivil y m d =
      era * 146097 + ((yoe * 365 + yoe / 4 - yoe / 100 + doy : Nat) : Int) - 719468 := by
    simp only [daysFromCivil, hdoy, hmp, hyoe, hera, hsy]
  have hy1 : (yoe : Int) = sy - era * 400 ∧ yoe < 400 := by omega
  have hleapy : d ≤ 28 ∨ m ≠ 2 ∨ (y % 4 = 0 ∧ (y % 100 ≠ 0 ∨ y % 400 = 0)) := by
    by_cases hm : m = 2
    · subst hm
      by_cases hl : isLeapYear y = true
      · right; right
        simpa [isLeapYear] using hl
      · left
        simpa [daysInMonth, hl] using hd2
    · exact Or.inr (Or.inl hm)
  have hdm : d ≤ 31 ∧ (m = 4 ∨ m = 6 ∨ m = 9 ∨ m = 11 → d ≤ 30) ∧ (m = 2 → d ≤ 29) := by
    unfold daysInMonth at hd2
    refine ⟨?_, ?_, ?_⟩
    · split_ifs at hd2 <;> omega
    · intro hm
      split_ifs at hd2 <;> omega
    · intro hm
      split_ifs at hd2 <;> omega
  clear hd2
  have hm : m = 1 ∨ m = 2 ∨ m = 3 ∨ m = 4 ∨ m = 5 ∨ m = 6 ∨ m = 7 ∨ m = 8 ∨ m = 9 ∨ m = 10 ∨
      m = 11 ∨ m = 12 := by omega
  have hmpd : mp < 12 ∧ (5 * doy + 2) / 153 = mp ∧ doy - (153 * mp + 2) / 5 + 1 = d ∧
      (if mp < 10 then mp + 3 else mp - 9) = m ∧
      (doy ≤ 364 ∨ (doy = 365 ∧ m = 2 ∧ d = 29)) := by
    clear hdays hleapy hy1 hyoe hera hsy
    obtain ⟨hd31, hd30, hd29⟩ := hdm
    rcases hm with rfl | rfl | rfl | rfl | rfl | rfl | rfl | rfl | rfl | rfl | rfl | rfl <;>
      simp only [Nat.lt_irrefl, if_false, if_true, Nat.reduceLT, Nat.reduceSub,
        Nat.reduceAdd] at hmp <;> subst hmp <;> simp only [Nat.reduceMul, Nat.reduceAdd,
        Nat.reduceDiv, Nat.reduceLT, if_true, if_false, Nat.reduceSub, true_and] at hdoy ⊢ <;>
      refine ⟨?_, ?_, ?_⟩ <;> omega
  obtain ⟨-, hmp1, hmp2, hmp3, hmp4⟩ := hmpd
  have hcore := yoe_doy_roundtrip yoe doy hy1.2 (by
    rcases hmp4 with h | ⟨h1, h2, h3⟩
    · exact Or.inl h
    · right
      subst h2
      have hl : y % 4 = 0 ∧ (y % 100 ≠ 0 ∨ y % 400 = 0) := by omega
      simp only [Nat.le_refl, if_true] at hsy
      omega)
  obtain ⟨c1, c2, c3⟩ := hcore
  rw [hdays, civilFromDays_of_era era _ yoe doy mp c1 c2 c3 hmp1, hmp2, hmp3]
  have hyear : (yoe : Int) + era * 400 + (if m ≤ 2 then 1 else 0) = y := by
    split_ifs at hsy ⊢ <;> omega
  rw [hyear]

theorem isoDatePart_daysFromCivil (y : Int) (m d : Nat) (h : IsCalendarDate y m d) :
    isoDatePart (daysFromCivil y m d * 86400000) = isoDateString y m d := by
  have hdiv : daysFromCivil y m d * 86400000 / 86400000 = daysFromCivil y m d :=
    Int.mul_ediv_cancel _ (by decide)
  simp only [isoDatePart, hdiv, civilFromDays_daysFromCivil y m d h, isoDateString]

theorem newDate_error_inv (P : Platform) (v : JSValue) (e : JSError)
    (h : newDate P v = .error e) :
    (∃ elems, v = .array elems) ∨ (∃ props, v = .object props) := by
  cases v with
  | array elems => exact Or.inl ⟨elems, rfl⟩
  | object props => exact Or.inr ⟨props, rfl⟩
  | undefined => simp [newDate] at h
  | null => simp [newDate] at h
  | bool b => simp [newDate] at h
  | number n => simp [newDate] at h
  | string s => simp [newDate] at h

/-- C16, as amended: with the current moment `now` taken as a parameter, a
falsy input (absent, `null`, `false`, `0`, `NaN` or the empty string) is
reported as required.  For every truthy input on which `new Date` does not
throw (it never throws on a string, a number or a boolean, only on an array
or an object): if it parses to an instant `t`, `validateDate` reports valid if
and only if 1900-01-01T00:00:00Z ≤ `t` ≤ `now`, every `t` after `now` is
rejected as being in the future, every `t` before 1900-01-01 that is not after
`now` is rejected as before 1900, and the clean value of a valid input is the
UTC calendar day of `t`; if `new Date` yields an invalid date, as for every
unparsable string, it is rejected as invalid format; and if it is the
date-only string of a calendar date that the platform reads as midnight UTC of
that date, the clean value of a valid input equals the input. -/
theorem validateDate_spec (P : Platform) (now : Int) (v : JSValue) (fieldName : String)
    (hv : v.truthy = true) :
    (∀ w : JSValue, w.truthy = false →
      validateDate P now w fieldName =
        .ok { isValid := false, message := fieldName ++ " is required" }) ∧
    (∀ t, newDate P v = .ok (some t) →
      ∃ r, validateDate P now v fieldName = .ok r ∧
        (r.isValid = true ↔ minDate ≤ t ∧ t ≤ now) ∧
        (now < t → r.isValid = false ∧ r.message = fieldName ++ " cannot be in the future") ∧
        (t ≤ now → t < minDate →
          r.isValid = false ∧ r.message = fieldName ++ " cannot be before 1900") ∧
        (r.isValid = true → r.cleanValue = some (.string (isoDatePart t)))) ∧
    (newDate P v = .ok none →
      validateDate P now v fieldName =
        .ok { isValid := false,
              message := "Invalid " ++ toLowerCase P fieldName ++ " format" }) ∧
    (∀ y m d, IsCalendarDate y m d → v = .string (isoDateString y m d) →
      P.dateParse (isoDateString y m d) = some (daysFromCivil y m d * 86400000) →
      ∃ r, validateDate P now v fieldName = .ok r ∧
        (r.isValid = true → r.cleanValue = some v)) ∧
    (∀ e, newDate P v = .error e →
      (∃ elems, v = .array elems) ∨ (∃ props, v = .object props)) ∧
    (∀ s, v = .string s → newDate P v = .ok (P.dateParse s) ∧
      (P.dateParse s = none →
        validateDate P now v fieldName =
          .ok { isValid := false,
                message := "Invalid " ++ toLowerCase P fieldName ++ " format" })) := by
  have hparsed : ∀ t, newDate P v = .ok (some t) →
      ∃ r, validateDate P now v fieldName = .ok r ∧
        (r.isValid = true ↔ minDate ≤ t ∧ t ≤ now) ∧
        (now < t → r.isValid = false ∧ r.message = fieldName ++ " cannot be in the future") ∧
        (t ≤ now → t < minDate →
          r.isValid = false ∧ r.message = fieldName ++ " cannot be before 1900") ∧
        (r.isValid = true → r.cleanValue = some (.string (isoDatePart t))) := by
    intro t ht
    simp only [validateDate, hv, Bool.not_true, Bool.false_eq_true, if_false, ht]
    by_cases h1 : now < t
    · simp only [h1, if_true]
      exact ⟨_, rfl, ⟨fun h => by simp at h, fun h => by omega⟩, fun _ => ⟨rfl, rfl⟩,
        fun h => by omega, fun h => by simp at h⟩
    · by_cases h2 : t < minDate
      · simp only [h1, if_false, h2, if_true]
        exact ⟨_, rfl, ⟨fun h => by simp at h, fun h => by omega⟩, fun h => h.elim,
          fun _ _ => ⟨rfl, rfl⟩, fun h => by simp at h⟩
      · simp only [h1, if_false, h2]
        exact ⟨_, rfl, ⟨fun _ => by omega, fun _ => rfl⟩, fun h => h.elim,
          fun _ h => h.elim, fun _ => rfl⟩
  have hinvalid : newDate P v = .ok none →
      validateDate P now v fieldName =
        .ok { isValid := false,
              message := "Invalid " ++ toLowerCase P fieldName ++ " format" } := by
    intro hn
    simp only [validateDate, hv, Bool.not_true, Bool.false_eq_true, if_false, hn]
  refine ⟨fun w hw => validateDate_falsy P now w fieldName hw, hparsed, hinvalid, ?_,
    fun e he => newDate_error_inv P v e he, ?_⟩
  · intro y m d hcal hstr hparse
    have ht : newDate P v = .ok (some (daysFromCivil y m d * 86400000)) := by
      rw [hstr]
      simp only [newDate, hparse]
    obtain ⟨r, hr, -, -, -, hclean⟩ := hparsed _ ht
    refine ⟨r, hr, fun hvalid => ?_⟩
    rw [hclean hvalid, isoDatePart_daysFromCivil y m d hcal, hstr]
  · intro s hs
    have hnd : newDate P v = .ok (P.dateParse s) := by
      rw [hs]
      rfl
    refine ⟨hnd, fun hnone => ?_⟩
    rw [hnone] at hnd
    exact hinvalid hnd

/-- C16 at a concrete input: the date `1990-01-01` of the test suite, which is
the date-only string of a calendar date and is read as midnight UTC. -/
theorem validateDate_spec_witness :
    ((JSValue.string "1990-01-01").truthy = true ∧
      IsCalendarDate 1990 1 1 ∧ isoDateString 1990 1 1 = "1990-01-01" ∧
      examplePlatform.dateParse (isoDateString 1990 1 1) =
        some (daysFromCivil 1990 1 1 * 86400000)) ∧
    ((∀ w : JSValue, w.truthy = false →
      validateDate examplePlatform exampleNow w "Date" =
        .ok { isValid := false, message := "Date" ++ " is required" }) ∧
    (∀ t, newDate examplePlatform (.string "1990-01-01") = .ok (some t) →
      ∃ r, validateDate examplePlatform exampleNow (.string "1990-01-01") "Date" = .ok r ∧
        (r.isValid = true ↔ minDate ≤ t ∧ t ≤ exampleNow) ∧
        (exampleNow < t →
          r.isValid = false ∧ r.message = "Date" ++ " cannot be in the future") ∧
        (t ≤ exampleNow → t < minDate →
          r.isValid = false ∧ r.message = "Date" ++ " cannot be before 1900") ∧
        (r.isValid = true → r.cleanValue = some (.string (isoDatePart t)))) ∧
    (newDate examplePlatform (.string "1990-01-01") = .ok none →
      validateDate examplePlatform exampleNow (.string "1990-01-01") "Date" =
        .ok { isValid := false,
              message := "Invalid " ++ toLowerCase examplePlatform "Date" ++ " format" }) ∧
    (∀ y m d, IsCalendarDate y m d → JSValue.string "1990-01-01" = .string (isoDateString y m d) →
      examplePlatform.dateParse (isoDateString y m d) = some (daysFromCivil y m d * 86400000) →
      ∃ r, validateDate examplePlatform exampleNow (.string "1990-01-01") "Date" = .ok r ∧
        (r.isValid = true → r.cleanValue = some (.string "1990-01-01"))) ∧
    (∀ e, newDate examplePlatform (.string "1990-01-01") = .error e →
      (∃ elems, JSValue.string "1990-01-01" = .array elems) ∨
        (∃ props, JSValue.string "1990-01-01" = .object props)) ∧
    (∀ s, JSValue.string "1990-01-01" = .string s →
      newDate examplePlatform (.string "1990-01-01") = .ok (examplePlatform.dateParse s) ∧
      (examplePlatform.dateParse s = none →
        validateDate examplePlatform exampleNow (.string "1990-01-01") "Date" =
          .ok { isValid := false,
                message := "Invalid " ++ toLowerCase examplePlatform "Date" ++ " format" }))) :=
  ⟨⟨rfl, ⟨by decide, by decide, by decide, by decide⟩, by decide, by decide⟩,
    validateDate_spec examplePlatform exampleNow (.string "1990-01-01") "Date" rfl⟩

/-- C16, as stated, fails.  The number `0` parses to the instant 0, which lies
between 1900-01-01 and the clock of the examples, yet it is reported as
required and not as valid; the empty string does not parse, yet it is reported
as required and not as invalid format; with a clock set before 1900, an
instant before 1900-01-01 and after the clock is rejected as being in the
future and not as before 1900; on Node.js the date-only input `2023-02-30`
is valid with the clean value `2023-03-02`, which is not the input; and on a
truthy object with a property `toString` that is not callable, `new Date`
throws and no result is returned. -/
theorem validateDate_spec_counterexample :
    (newDate examplePlatform (.number (.fin 0)) = .ok (some 0) ∧
      minDate ≤ 0 ∧ (0 : Int) ≤ exampleNow ∧
      validateDate examplePlatform exampleNow (.number (.fin 0)) "Date" =
        .ok { isValid := false, message := "Date is required" }) ∧
    (newDate nodePlatform (.string "") = .ok none ∧
      validateDate nodePlatform exampleNow (.string "") "Date" =
        .ok { isValid := false, message := "Date is required" }) ∧
    (newDate nodePlatform (.string "1899-12-31") = .ok (some (minDate - 86400000)) ∧
      validateDate nodePlatform (minDate - 172800000) (.string "1899-12-31") "Date" =
        .ok { isValid := false, message := "Date cannot be in the future" }) ∧
    validateDate nodePlatform exampleNow (.string "2023-02-30") "Date" =
      .ok { isValid := true, message := "Valid date",
            cleanValue := some (.string "2023-03-02") } ∧
    ((JSValue.object [("toString", .number (.fin 1))]).truthy = true ∧
      validateDate nodePlatform exampleNow (.object [("toString", .number (.fin 1))]) "Date" =
        .error cannotConvert) := by
  refine ⟨⟨?_, by decide, by decide, rfl⟩, ⟨rfl, rfl⟩, ⟨rfl, rfl⟩, rfl, rfl, rfl⟩
  simp [newDate, timeClip]

/-! ## The error handler and the listing handler -/

/-- C21, the code at the failing input: a parse error of the JSON body parser,
whose name is `SyntaxError`, reaches the global error handler, which knows the
names `ValidationError` and `PrismaClientKnownRequestError` only and answers
every other error with HTTP 500; the store is left as it was. -/
theorem postRegister_parse_error (P : Platform) (env : RequestEnv)
    (store : List Registration) (message : String) :
    (postRegister P env store (.error (jsonParseError message))).1.status = 500 ∧
    (postRegister P env store (.error (jsonParseError message))).1.status ≠ 400 ∧
    getProp (postRegister P env store (.error (jsonParseError message))).1.body "error" =
      .string "Internal server error" ∧
    (postRegister P env store (.error (jsonParseError message))).2 = store := by
  exact ⟨rfl, fun h => absurd (show (500 : Nat) = 400 from h) (by decide), rfl, rfl⟩

theorem findManyNewestFirst_ok (store : List Registration) :
    findManyNewestFirst store =
      .ok (store.insertionSort (fun a b => b.createdAt ≤ a.createdAt)) := rfl

/-- The listing of the store: every record once, newest first. -/
theorem insertionSort_newestFirst (store : List Registration) :
    (store.insertionSort (fun a b => b.createdAt ≤ a.createdAt)).Perm store ∧
    (store.insertionSort (fun a b => b.createdAt ≤ a.createdAt)).Pairwise
      (fun a b => b.createdAt ≤ a.createdAt) := by
  refine ⟨List.perm_insertionSort _ _, ?_⟩
  haveI : IsTotal Registration (fun a b => b.createdAt ≤ a.createdAt) :=
    ⟨fun a b => le_total b.createdAt a.createdAt⟩
  haveI : IsTrans Registration (fun a b => b.createdAt ≤ a.createdAt) :=
    ⟨fun a b c hab hbc => le_trans hbc hab⟩
  exact List.sorted_insertionSort _ store

/-- C22: for every store state, `GET /api/registrations` responds with HTTP
200 and the body `message`, `count`, `data`, in which `data` is the JSON of a
list of records that contains every stored record exactly once (a
permutation of the store), ordered by `createdAt` from newest to oldest, and
`count` is the number of stored records, the length of `data`. -/
theorem getRegistrations_spec (store : List Registration) :
    ∃ records : List Registration,
      getRegistrations store =
        { status := 200,
          body := [("message", .string "Registrations retrieved successfully"),
                   ("count", .number (.fin records.length)),
                   ("data", .array (records.map registrationToJSON))] } ∧
      records.Perm store ∧
      records.Pairwise (fun a b => b.createdAt ≤ a.createdAt) ∧
      records.length = store.length ∧
      (records.map registrationToJSON).length = store.length := by
  obtain ⟨hperm, hsorted⟩ := insertionSort_newestFirst store
  refine ⟨_, rfl, hperm, hsorted, hperm.length_eq, ?_⟩
  rw [List.length_map, hperm.length_eq]

theorem registrationToJSON_properties (r : Registration) :
    ∃ props, registrationToJSON r = .object props ∧
      getProp props "registrationId" = .string r.registrationId ∧
      getProp props "entrepreneurName" = r.entrepreneurName ∧
      getProp props "status" = .string r.status ∧
      getProp props "createdAt" = .string (toISOString r.createdAt) :=
  ⟨_, rfl, rfl, rfl, rfl, rfl⟩

/-- C23, the code at the failing inputs: for every store state the body of
the listing has the properties `message`, `count` and `data` and neither
`registrations` nor `total`; after the valid form of the test suite has been
registered, the one record is under `data`, and it has `registrationId`,
`entrepreneurName`, `status` and `createdAt`. -/
theorem getRegistrations_properties (store : List Registration) :
    ((getRegistrations store).status = 200 ∧
      (getRegistrations store).body.map (fun kv => kv.1) = ["message", "count", "data"] ∧
      getProp (getRegistrations store).body "registrations" = .undefined ∧
      getProp (getRegistrations store).body "total" = .undefined) ∧
    (getProp (getRegistrations (registerHandler examplePlatform exampleEnv [] validForm).2).body
        "registrations" = .undefined ∧
      getProp (getRegistrations (registerHandler examplePlatform exampleEnv [] validForm).2).body
        "data" = .array [registrationToJSON firstRegistration] ∧
      ∃ props, registrationToJSON firstRegistration = .object props ∧
        getProp props "registrationId" = .string "UDYAM-1700000000001-4FX7K9" ∧
        getProp props "entrepreneurName" = .string "John Doe" ∧
        getProp props "status" = .string "PENDING" ∧
        getProp props "createdAt" = .string "2023-11-14T22:13:20.002Z") := by
  exact ⟨⟨rfl, rfl, rfl, rfl⟩, rfl, rfl, _, rfl, rfl, rfl, rfl, rfl⟩

/-! ## The unreachable check and the limit of the amount -/

theorem twelveIdenticalDigits_iff (cs : List Char) :
    TwelveIdenticalDigits cs ↔
      cs.length = 12 ∧ (∀ x ∈ cs, isDigit x = true) ∧ ∃ d, ∀ x ∈ cs, x = d := by
  constructor
  · rintro ⟨d, hd, rfl⟩
    refine ⟨by simp, ?_, d, ?_⟩
    · intro x hx
      rw [List.eq_of_mem_replicate hx]
      exact hd
    · intro x hx
      exact List.eq_of_mem_replicate hx
  · rintro ⟨hl, hdig, d, hd⟩
    have hcs : cs = List.replicate 12 d := List.eq_replicate_iff.mpr ⟨hl, hd⟩
    refine ⟨d, ?_, hcs⟩
    apply hdig
    rw [hcs]
    simp

/-- C25: the sequential-pattern check of `validateAadhaar` can never match.
For every input the function returns what the same function without that
check returns, and the message `Invalid Aadhaar number pattern` is returned
only when the input is a string whose cleaned value is twelve identical
digits (and always then). -/
theorem validateAadhaar_sequential_unreachable (aadhaar : JSValue) :
    validateAadhaar aadhaar = validateAadhaarWithoutSequential aadhaar ∧
    ((validateAadhaar aadhaar).message = "Invalid Aadhaar number pattern" ↔
      ∃ s, aadhaar = .string s ∧ TwelveIdenticalDigits (removeWhitespace s).data) := by
  cases aadhaar with
  | string s =>
    have hseq : matchRuns [(isDigit, 12)] (removeWhitespace s).data = true →
        sequentialPattern (removeWhitespace s) = false := by
      intro hm
      obtain ⟨hl, -⟩ := (matchRuns_single _ _ _).mp hm
      by_contra hne
      have := sequentialPattern_length (Bool.not_eq_false _ ▸ hne : _ = true)
      omega
    have hrhs : (∃ t, JSValue.string s = .string t ∧
        TwelveIdenticalDigits (removeWhitespace t).data) ↔
        TwelveIdenticalDigits (removeWhitespace s).data := by
      constructor
      · rintro ⟨t, ht, h⟩
        cases ht
        exact h
      · intro h
        exact ⟨s, rfl, h⟩
    rw [hrhs, twelveIdenticalDigits_iff]
    simp only [validateAadhaar, validateAadhaarWithoutSequential]
    by_cases ht : (JSValue.string s).truthy = true
    · simp only [ht, Bool.not_true, Bool.false_eq_true, if_false]
      by_cases hlen : jsLength (removeWhitespace s) = 12
      · by_cases hm : matchRuns [(isDigit, 12)] (removeWhitespace s).data = true
        · obtain ⟨hl, hdig⟩ := (matchRuns_single _ _ _).mp hm
          have hsame := sameDigitTwelve_iff (removeWhitespace s).data hl hdig
          simp only [hlen, bne_self_eq_false, Bool.false_eq_true, if_false, hm, Bool.not_true,
            hseq hm]
          by_cases hs : sameDigitTwelve (removeWhitespace s) = true
          · simp only [hs, if_true, true_and, true_iff]
            exact ⟨hl, hdig, hsame.mp hs⟩
          · simp only [hs, if_false, true_and]
            constructor
            · intro h
              simp at h
            · rintro ⟨-, -, h⟩
              exact absurd (hsame.mpr h) hs
        · simp only [Bool.not_eq_true] at hm
          simp only [hlen, bne_self_eq_false, Bool.false_eq_true, if_false, hm, Bool.not_false,
            if_true, true_and]
          constructor
          · intro h
            simp at h
          · rintro ⟨h1, h2, -⟩
            have := (matchRuns_single isDigit 12 _).mpr ⟨h1, h2⟩
            rw [hm] at this
            exact absurd this (by decide)
      · have hb : (jsLength (removeWhitespace s) != 12) = true := by simpa using hlen
        simp only [hb, if_true, true_and]
        constructor
        · intro h
          simp at h
        · rintro ⟨h1, h2, -⟩
          exfalso
          apply hlen
          have : removeWhitespace s = ⟨(removeWhitespace s).data⟩ := rfl
          rw [this, jsLength_eq_length _ (fun x hx => isDigit_toNat_lt (h2 x hx))]
          exact h1
    · simp only [Bool.not_eq_true] at ht
      simp only [ht, Bool.not_false, if_true, true_and]
      constructor
      · intro h
        simp at h
      · rintro ⟨h1, -, -⟩
        have hs : s.data = [] := by simpa [JSValue.truthy] using ht
        simp [removeWhitespace, hs] at h1
  | undefined =>
    refine ⟨rfl, ⟨fun h => ?_, fun ⟨_, h, _⟩ => by cases h⟩⟩
    simp [validateAadhaar, JSValue.truthy] at h
  | null =>
    refine ⟨rfl, ⟨fun h => ?_, fun ⟨_, h, _⟩ => by cases h⟩⟩
    simp [validateAadhaar, JSValue.truthy] at h
  | bool b =>
    refine ⟨rfl, ⟨fun h => ?_, fun ⟨_, h, _⟩ => by cases h⟩⟩
    cases b <;> simp [validateAadhaar, JSValue.truthy] at h
  | number n =>
    refine ⟨rfl, ⟨fun h => ?_, fun ⟨_, h, _⟩ => by cases h⟩⟩
    simp only [validateAadhaar] at h
    split_ifs at h <;> simp at h
  | array a =>
    refine ⟨rfl, ⟨fun h => ?_, fun ⟨_, h, _⟩ => by cases h⟩⟩
    simp [validateAadhaar, JSValue.truthy] at h
  | object o =>
    refine ⟨rfl, ⟨fun h => ?_, fun ⟨_, h, _⟩ => by cases h⟩⟩
    simp [validateAadhaar, JSValue.truthy] at h

/-- C26, the code at the failing input: 600 crore is more than 500 crore, and
`validateInvestment` accepts it; the limit that the code enforces,
50,000,000,000, is 5000 crore. -/
theorem validateInvestment_accepts_600_crore (P : Platform) :
    500 * crore < 6000000000 ∧
    validateInvestment P (.number (.fin 6000000000)) =
      .ok { isValid := true, message := "Valid investment amount",
            cleanValue := some (.number (.fin 6000000000)) } ∧
    50000000000 = 5000 * crore := by
  refine ⟨by decide, ?_, by decide⟩
  norm_num [validateInvestment, JSValue.truthy, JSNumber.truthy, parseFloat, JSNumber.isNaN,
    JSNumber.lt_fin]

/-! ## The fields that are not validated -/

theorem errors_nil_of_valid (P : Platform) (now : Int) (formData : JSObject)
    (v : FormValidation) (h : validateRegistrationForm P now formData = .ok v)
    (hv : v.isValid = true) : v.errors = [] := by
  obtain ⟨-, -, -, hvalid⟩ := validateRegistrationForm_loops P now formData v h
  rw [hvalid] at hv
  simpa [List.length_eq_zero] using hv

/-- An optional field after a valid form validation. -/
theorem validateRegistrationForm_valid_optional (P : Platform) (now : Int)
    (formData : JSObject) (v : FormValidation)
    (h : validateRegistrationForm P now formData = .ok v) (hv : v.isValid = true)
    (e : FieldEntry) (he : e ∈ optionalValidations P) :
    ((getProp formData e.1).truthy = false → getProp v.cleanData e.1 = .undefined) ∧
    ((getProp formData e.1).truthy = true →
      ∃ res, e.2 (getProp formData e.1) = .ok res ∧
        getProp v.cleanData e.1 =
          (res.cleanValue.getD .undefined).or (getProp formData e.1)) := by
  obtain ⟨h1, h2⟩ := validateRegistrationForm_optional P now formData v h e he
  have hnil := errors_nil_of_valid P now formData v h hv
  refine ⟨fun ht => getProp_of_not_hasKey _ _ (h1 ht).2, fun ht => ?_⟩
  obtain ⟨res, hr, hE, -, hval⟩ := h2 ht
  have hres : res.isValid = true := by
    cases hr' : res.isValid with
    | true => rfl
    | false =>
      have := hE.mpr hr'
      rw [hnil] at this
      simp [hasKey] at this
  exact ⟨res, hr, hval hres⟩

/-- Two valid form validations of bodies that agree on the twelve validated
fields have the same cleaned data. -/
theorem cleanData_agree (P : Platform) (now1 now2 : Int) (body1 body2 : JSObject)
    (v1 v2 : FormValidation)
    (h1 : validateRegistrationForm P now1 body1 = .ok v1) (hv1 : v1.isValid = true)
    (h2 : validateRegistrationForm P now2 body2 = .ok v2) (hv2 : v2.isValid = true)
    (hagree : ∀ k ∈ validatedFields, getProp body1 k = getProp body2 k) (k : String) :
    getProp v1.cleanData k = getProp v2.cleanData k := by
  have hreq : ∀ e : FieldEntry, e ∈ requiredValidations P now1 →
      e ∈ requiredValidations P now2 → e.1 ∈ validatedFields →
      getProp v1.cleanData e.1 = getProp v2.cleanData e.1 := by
    intro e he1 he2 hk
    obtain ⟨r1, ha, -, hc1⟩ := validateRegistrationForm_valid_required P now1 body1 v1 h1 hv1 e he1
    obtain ⟨r2, hb, -, hc2⟩ := validateRegistrationForm_valid_required P now2 body2 v2 h2 hv2 e he2
    rw [hagree _ hk, hb] at ha
    simp only [Except.ok.injEq] at ha
    subst ha
    rw [hc1, hc2, hagree _ hk]
  have hopt : ∀ e : FieldEntry, e ∈ optionalValidations P → e.1 ∈ validatedFields →
      getProp v1.cleanData e.1 = getProp v2.cleanData e.1 := by
    intro e he hk
    obtain ⟨a1, a2⟩ := validateRegistrationForm_valid_optional P now1 body1 v1 h1 hv1 e he
    obtain ⟨b1, b2⟩ := validateRegistrationForm_valid_optional P now2 body2 v2 h2 hv2 e he
    rw [hagree _ hk] at a1 a2
    cases ht : (getProp body2 e.1).truthy with
    | false => rw [a1 ht, b1 ht]
    | true =>
      obtain ⟨r1, ha, hc1⟩ := a2 ht
      obtain ⟨r2, hb, hc2⟩ := b2 ht
      rw [hb] at ha
      simp only [Except.ok.injEq] at ha
      subst ha
      rw [hc1, hc2]
  by_cases hk : k ∈ validatedFields
  · simp only [validatedFields, List.mem_cons, List.mem_singleton, List.not_mem_nil,
      or_false] at hk
    rcases hk with rfl | rfl | rfl | rfl | rfl | rfl | rfl | rfl | rfl | rfl | rfl | rfl
    · exact hreq ("aadhaarNumber", fun aadhaar => .ok (validateAadhaar aadhaar))
        (by simp [requiredValidations]) (by simp [requiredValidations]) (by decide)
    · exact hreq ("entrepreneurName", fun name => validateEnterpriseName name)
        (by simp [requiredValidations]) (by simp [requiredValidations]) (by decide)
    · exact hreq ("panNumber", validatePAN P)
        (by simp [requiredValidations]) (by simp [requiredValidations]) (show "panNumber" ∈ validatedFields by decide)
    · exact hreq ("mobileNumber", validateMobile)
        (by simp [requiredValidations]) (by simp [requiredValidations]) (by decide)
    · exact hreq ("emailAddress", validateEmail P)
        (by simp [requiredValidations]) (by simp [requiredValidations]) (show "emailAddress" ∈ validatedFields by decide)
    · exact hreq ("pincode", validatePincode)
        (by simp [requiredValidations]) (by simp [requiredValidations]) (by decide)
    · exact hreq ("investment", validateInvestment P)
        (by simp [requiredValidations]) (by simp [requiredValidations]) (show "investment" ∈ validatedFields by decide)
    · exact hreq ("turnover", validateInvestment P)
        (by simp [requiredValidations]) (by simp [requiredValidations]) (show "turnover" ∈ validatedFields by decide)
    · obtain ⟨t1, -, -, hp1, hc1⟩ := cleanData_dateOfBirth P now1 body1 v1 h1 hv1
      obtain ⟨t2, -, -, hp2, hc2⟩ := cleanData_dateOfBirth P now2 body2 v2 h2 hv2
      rw [hagree "dateOfBirth" (by decide), hp2] at hp1
      simp only [Except.ok.injEq, Option.some.injEq] at hp1
      rw [hc1, hc2, hp1]
    · exact hopt ("gstinNumber", validateGSTIN P) (by simp [optionalValidations])
        (show "gstinNumber" ∈ validatedFields by decide)
    · exact hopt ("ifscCode", validateIFSC P) (by simp [optionalValidations])
        (show "ifscCode" ∈ validatedFields by decide)
    · exact hopt ("enterpriseName", validateEnterpriseName) (by simp [optionalValidations])
        (by decide)
  · have hnot1 : k ∉ (requiredValidations P now1).map (fun e => e.1) ++
        (optionalValidations P).map (fun e => e.1) := by
      rw [requiredNames, optionalNames]
      exact hk
    have hnot2 : k ∉ (requiredValidations P now2).map (fun e => e.1) ++
        (optionalValidations P).map (fun e => e.1) := by
      rw [requiredNames, optionalNames]
      exact hk
    rw [getProp_of_not_hasKey _ _ (validateRegistrationForm_other P now1 body1 v1 h1 k hnot1).2,
      getProp_of_not_hasKey _ _ (validateRegistrationForm_other P now2 body2 v2 h2 k hnot2).2]

/-- The `data` of the `create` call is determined by the registration id and
the properties of the cleaned data. -/
theorem registrationData_congr (P : Platform) (id1 id2 : String) (cd1 cd2 : JSObject)
    (d1 d2 : RegistrationData) (h : ∀ k, getProp cd1 k = getProp cd2 k)
    (h1 : registrationData P id1 cd1 = .ok d1) (h2 : registrationData P id2 cd2 = .ok d2) :
    d2 = { d1 with registrationId := id2 } := by
  unfold registrationData at h1 h2
  simp only [h] at h1
  cases ha : optionalDate P (getProp cd2 "dateOfBirth") with
  | error e => rw [ha] at h1; simp at h1
  | ok a =>
    rw [ha] at h1 h2
    simp only at h1 h2
    cases hb : optionalDate P (getProp cd2 "dateOfCommencementProduction") with
    | error e => rw [hb] at h1; simp at h1
    | ok b =>
      rw [hb] at h1 h2
      simp only [Except.ok.injEq] at h1 h2
      subst h1 h2
      rfl

/-- The fields of the `data` of the `create` call that are filled from
properties that the cleaned data never has. -/
theorem registrationData_defaults (P : Platform) (now : Int) (formData : JSObject)
    (v : FormValidation) (h : validateRegistrationForm P now formData = .ok v)
    (registrationId : String) (data : RegistrationData)
    (hdata : registrationData P registrationId v.cleanData = .ok data) :
    HasDefaultFields data := by
  have hother : ∀ k, k ∉ validatedFields → getProp v.cleanData k = .undefined := by
    intro k hk
    apply getProp_of_not_hasKey
    refine (validateRegistrationForm_other P now formData v h k ?_).2
    rw [requiredNames, optionalNames]
    exact hk
  unfold registrationData at hdata
  rw [hother "dateOfCommencementProduction" (by decide), hother "constitution" (by decide),
    hother "majorActivity" (by decide), hother "businessAddress" (by decide),
    hother "state" (by decide), hother "district" (by decide),
    hother "bankAccountNumber" (by decide), hother "nicCode" (by decide)] at hdata
  cases ha : optionalDate P (getProp v.cleanData "dateOfBirth") with
  | error e => rw [ha] at hdata; simp at hdata
  | ok a =>
    rw [ha] at hdata
    simp only [optionalDate, JSValue.truthy, Bool.false_eq_true, if_false,
      Except.ok.injEq] at hdata
    subst hdata
    exact ⟨rfl, rfl, rfl, rfl, rfl, rfl, rfl, rfl⟩

/-- C28: for every request body that `POST /api/register` accepts, the created
record's `constitution` is `Individual`, its `majorActivity` is
`Manufacturing`, its `businessAddress`, `state` and `district` are the empty
string, and its `bankAccountNumber`, `nicCode` and
`dateOfCommencementProduction` are null, whatever the body supplies for those
fields; and two accepted bodies that agree on the twelve validated fields
produce records that differ at most in `registrationId`, `id` and
`createdAt`. -/
theorem register_unvalidated_fields (P : Platform) (env1 env2 : RequestEnv)
    (store1 store2 : List Registration) (body1 body2 : JSObject)
    (h1 : (registerHandler P env1 store1 body1).1.status = 201)
    (h2 : (registerHandler P env2 store2 body2).1.status = 201)
    (hagree : ∀ k ∈ validatedFields, getProp body1 k = getProp body2 k) :
    ∃ created1 created2 : Registration,
      (registerHandler P env1 store1 body1).2 = store1 ++ [created1] ∧
      (registerHandler P env2 store2 body2).2 = store2 ++ [created2] ∧
      HasDefaultFields created1.toRegistrationData ∧
      HasDefaultFields created2.toRegistrationData ∧
      created2.toRegistrationData =
        { created1.toRegistrationData with registrationId := created2.registrationId } := by
  obtain ⟨v1, d1, hv1, hb1, hd1, hs1⟩ := registerHandler_created P env1 store1 body1 h1
  obtain ⟨v2, d2, hv2, hb2, hd2, hs2⟩ := registerHandler_created P env2 store2 body2 h2
  refine ⟨_, _, hs1, hs2, registrationData_defaults P env1.now body1 v1 hv1 _ d1 hd1,
    registrationData_defaults P env2.now body2 v2 hv2 _ d2 hd2, ?_⟩
  have hcd := cleanData_agree P env1.now env2.now body1 body2 v1 v2 hv1 hb1 hv2 hb2 hagree
  have := registrationData_congr P _ _ _ _ d1 d2 hcd hd1 hd2
  show d2 = { d1 with registrationId := d2.registrationId }
  rw [this]

/-- C28 at a concrete input: the valid form of the test suite, and the same
form with a constitution, an activity and a NIC code of its own, each on the
empty store. -/
theorem register_unvalidated_fields_witness :
    ((registerHandler examplePlatform exampleEnv [] validForm).1.status = 201 ∧
      (registerHandler examplePlatform shortTokenEnv [] formWithExtras).1.status = 201 ∧
      (∀ k ∈ validatedFields, getProp validForm k = getProp formWithExtras k) ∧
      getProp formWithExtras "constitution" = .string "Partnership") ∧
    ∃ created1 created2 : Registration,
      (registerHandler examplePlatform exampleEnv [] validForm).2 = [] ++ [created1] ∧
      (registerHandler examplePlatform shortTokenEnv [] formWithExtras).2 = [] ++ [created2] ∧
      HasDefaultFields created1.toRegistrationData ∧
      HasDefaultFields created2.toRegistrationData ∧
      created2.toRegistrationData =
        { created1.toRegistrationData with registrationId := created2.registrationId } :=
  ⟨⟨rfl, rfl, fun k hk => by
      simp only [validatedFields, List.mem_cons, List.mem_singleton, List.not_mem_nil,
        or_false] at hk
      rcases hk with rfl | rfl | rfl | rfl | rfl | rfl | rfl | rfl | rfl | rfl | rfl | rfl <;>
        rfl, rfl⟩,
    register_unvalidated_fields examplePlatform exampleEnv shortTokenEnv [] [] validForm
      formWithExtras rfl rfl (fun k hk => by
        simp only [validatedFields, List.mem_cons, List.mem_singleton, List.not_mem_nil,
          or_false] at hk
        rcases hk with rfl | rfl | rfl | rfl | rfl | rfl | rfl | rfl | rfl | rfl | rfl | rfl <;>
          rfl)⟩

/-! ## Normalization is idempotent -/

theorem splitsInto_class (runs : List ((Char → Bool) × Nat)) (cs : List Char)
    (h : SplitsInto runs cs) : ∀ c ∈ cs, ∃ run ∈ runs, run.1 c = true := by
  induction runs generalizing cs with
  | nil =>
    simp only [SplitsInto] at h
    subst h
    simp
  | cons run rest ih =>
    obtain ⟨cls, n⟩ := run
    obtain ⟨a, b, rfl, -, ha, hb⟩ := h
    intro c hc
    rcases List.mem_append.mp hc with hc | hc
    · exact ⟨(cls, n), List.mem_cons_self _ _, ha c hc⟩
    · obtain ⟨run, hrun, hcr⟩ := ih b hb c hc
      exact ⟨run, List.mem_cons_of_mem _ hrun, hcr⟩

theorem matchRuns_class (runs : List ((Char → Bool) × Nat)) (cs : List Char)
    (h : matchRuns runs cs = true) : ∀ c ∈ cs, ∃ run ∈ runs, run.1 c = true :=
  splitsInto_class runs cs ((matchRuns_iff runs cs).mp h)

theorem toUpper_eq_self {c : Char} (h : c.toNat < 97) : c.toUpper = c := by
  unfold Char.toUpper
  rw [if_neg]
  omega

/-- A string of digits and capital letters is left as it is by the case
mapping and the removal of whitespace. -/
theorem normalize_eq_self (P : Platform) (s : String)
    (h : ∀ c ∈ s.data, isDigit c = true ∨ isUpperAZ c = true) :
    removeWhitespace (toUpperCase P s) = s := by
  have hlt : ∀ c ∈ s.data, c.toNat < 97 ∧ 48 ≤ c.toNat := by
    intro c hc
    rcases h c hc with hd | hu
    · simp only [isDigit, Bool.and_eq_true, decide_eq_true_eq] at hd
      omega
    · simp only [isUpperAZ, Bool.and_eq_true, decide_eq_true_eq] at hu
      omega
  have hascii : s.data.all (fun c => c.toNat < 128) = true := by
    rw [List.all_eq_true]
    intro c hc
    have := (hlt c hc).1
    simp only [decide_eq_true_eq]
    omega
  have hmap : s.data.map Char.toUpper = s.data := by
    conv_rhs => rw [← List.map_id s.data]
    apply List.map_congr_left
    intro c hc
    exact toUpper_eq_self (hlt c hc).1
  have hup : toUpperCase P s = s := by
    simp only [toUpperCase, hascii, if_true, hmap]
  rw [hup]
  apply removeWhitespace_eq_self
  intro c hc
  have := hlt c hc
  simp only [isWhiteSpace, Bool.or_eq_false_iff, beq_eq_false_iff_ne, ne_eq,
    Bool.and_eq_false_imp, decide_eq_true_eq, decide_eq_false_iff_not]
  omega

theorem patternValidator_idempotent (normalize : String → String) (n : Nat)
    (runs : List ((Char → Bool) × Nat)) (whenFalsy : ValidationResult)
    (lengthMessage formatMessage validMessage : String) (thrown : JSError)
    (hfalsy : whenFalsy.cleanValue = none) (hn : 0 < n)
    (hnorm : ∀ s : String, matchRuns runs s.data = true → normalize s = s) :
    IdempotentNormalization (patternValidator normalize n runs whenFalsy lengthMessage
      formatMessage validMessage thrown) := by
  intro v r c h hv hc
  unfold patternValidator at h
  by_cases ht : v.truthy = true
  · simp only [ht, Bool.not_true, Bool.false_eq_true, if_false] at h
    cases v with
    | string s =>
      simp only at h
      by_cases h1 : jsLength (normalize s) = n
      · by_cases h2 : matchRuns runs (normalize s).data = true
        · simp only [h1, bne_self_eq_false, Bool.false_eq_true, if_false, h2, Bool.not_true,
            Except.ok.injEq] at h
          subst h
          simp only [Option.some.injEq] at hc
          subst hc
          have hfix := hnorm _ h2
          have htr : (JSValue.string (normalize s)).truthy = true := by
            simp only [JSValue.truthy, Bool.not_eq_true', List.isEmpty_eq_false]
            intro hnil
            have : normalize s = ⟨[]⟩ := by
              cases hts : normalize s with
              | mk data => rw [hts] at hnil; simp only at hnil; rw [hnil]
            rw [this, jsLength_nil] at h1
            omega
          have hgoal : patternValidator normalize n runs whenFalsy lengthMessage formatMessage
              validMessage thrown (.string (normalize s)) =
              .ok ⟨true, validMessage, some (.string (normalize s))⟩ := by
            simp only [patternValidator, htr, Bool.not_true, Bool.false_eq_true, if_false, hfix,
              h1, bne_self_eq_false, h2]
          exact ⟨_, hgoal, rfl, rfl⟩
        · simp only [Bool.not_eq_true] at h2
          simp only [h1, bne_self_eq_false, Bool.false_eq_true, if_false, h2, Bool.not_false,
            if_true, Except.ok.injEq] at h
          subst h
          simp at hv
      · have hb : (jsLength (normalize s) != n) = true := by simpa using h1
        simp only [hb, if_true, Except.ok.injEq] at h
        subst h
        simp at hv
    | _ => simp at h
  · simp only [Bool.not_eq_true] at ht
    simp only [ht, Bool.not_false, if_true, Except.ok.injEq] at h
    subst h
    rw [hfalsy] at hc
    simp at hc

theorem validatePAN_eq (P : Platform) :
    validatePAN P = patternValidator (fun s => removeWhitespace (toUpperCase P s)) 10
      [(isUpperAZ, 5), (isDigit, 4), (isUpperAZ, 1)]
      { isValid := false, message := "PAN number is required" }
      "PAN number must be exactly 10 characters" "Invalid PAN number format (e.g., ABCDE1234F)"
      "Valid PAN number" (notAFunction "pan.toUpperCase") := by
  funext v
  cases v <;> rfl

theorem validateGSTIN_eq (P : Platform) :
    validateGSTIN P = patternValidator (fun s => removeWhitespace (toUpperCase P s)) 15
      [(isDigit, 2), (isUpperAZ, 5), (isDigit, 4), (isUpperAZ, 1), (isGstinEntity, 1),
        (isLetterZ, 1), (isDigitOrUpper, 1)]
      { isValid := true, message := "GSTIN is optional" }
      "GSTIN must be exactly 15 characters" "Invalid GSTIN format"
      "Valid GSTIN" (notAFunction "gstin.toUpperCase") := by
  funext v
  cases v <;> rfl

theorem validateIFSC_eq (P : Platform) :
    validateIFSC P = patternValidator (fun s => removeWhitespace (toUpperCase P s)) 11
      [(isUpperAZ, 4), (fun c => c.toNat == 48, 1), (isDigitOrUpper, 6)]
      { isValid := true, message := "IFSC code is optional" }
      "IFSC code must be exactly 11 characters" "Invalid IFSC code format (e.g., SBIN0001234)"
      "Valid IFSC code" (notAFunction "ifsc.toUpperCase") := by
  funext v
  cases v <;> rfl

theorem validateMobile_eq :
    validateMobile = patternValidator
      (fun s => ⟨s.data.filter (fun c => !isMobileFormatting c)⟩) 10
      [(isSixToNine, 1), (isDigit, 9)]
      { isValid := false, message := "Mobile number is required" }
      "Mobile number must be exactly 10 digits" "Invalid Indian mobile number format"
      "Valid mobile number" (notAFunction "mobile.replace") := by
  funext v
  cases v <;> rfl

theorem validatePincode_eq :
    validatePincode = patternValidator removeWhitespace 6 [(isDigit, 6)]
      { isValid := false, message := "PIN code is required" }
      "PIN code must be exactly 6 digits" "PIN code must contain only digits"
      "Valid PIN code" (notAFunction "pincode.replace") := by
  funext v
  cases v <;> rfl

theorem isDigitOrUpper_of_pattern_class {c : Char}
    (h : isDigit c = true ∨ isUpperAZ c = true ∨ isGstinEntity c = true ∨ isLetterZ c = true ∨
      isDigitOrUpper c = true ∨ (c.toNat == 48) = true) :
    isDigit c = true ∨ isUpperAZ c = true := by
  simp only [isDigit, isUpperAZ, isGstinEntity, isLetterZ, isDigitOrUpper, Bool.and_eq_true,
    Bool.or_eq_true, decide_eq_true_eq, beq_iff_eq] at h ⊢
  omega

theorem dropWhile_prefix_eq_self {p : Char → Bool} (l u : List Char)
    (hu : u <+: l.dropWhile p) : u.dropWhile p = u := by
  cases u with
  | nil => rfl
  | cons a rest =>
    obtain ⟨r, hr⟩ := hu
    have := List.head?_dropWhile_not p l
    rw [← hr] at this
    simp only [List.cons_append, List.head?_cons] at this
    rw [List.dropWhile_cons, this]
    simp

theorem trim_trim (s : String) : trim (trim s) = trim s := by
  unfold trim
  simp only
  have hpre : ((s.data.dropWhile isWhiteSpace).reverse.dropWhile isWhiteSpace).reverse <+:
      s.data.dropWhile isWhiteSpace := by
    rw [← List.reverse_suffix, List.reverse_reverse]
    exact List.dropWhile_suffix _
  rw [dropWhile_prefix_eq_self _ _ hpre, List.reverse_reverse, List.dropWhile_idempotent]

theorem validateAadhaar_idempotent :
    IdempotentNormalization (fun aadhaar => .ok (validateAadhaar aadhaar)) := by
  intro v r c h hv hc
  simp only [Except.ok.injEq] at h
  subst h
  obtain ⟨s, rfl, hclean, htr⟩ := validateAadhaar_valid_inv v hv
  rw [hclean] at hc
  simp only [Option.some.injEq] at hc
  subst hc
  obtain ⟨hl, hdig, hne⟩ := (validateAadhaar_string_valid s).mp hv
  have hfix : removeWhitespace (removeWhitespace s) = removeWhitespace s :=
    removeWhitespace_eq_self _ (fun x hx => isDigit_not_whiteSpace (hdig x hx))
  have hvalid : (validateAadhaar (.string (removeWhitespace s))).isValid = true := by
    rw [validateAadhaar_string_valid, hfix]
    exact ⟨hl, hdig, hne⟩
  refine ⟨_, rfl, hvalid, ?_⟩
  rw [validateAadhaar_string_clean _ hvalid, hfix]

theorem validateEnterpriseName_idempotent :
    IdempotentNormalization validateEnterpriseName := by
  intro v r c h hv hc
  obtain ⟨s, rfl, hclean, htr⟩ := validateEnterpriseName_valid_inv v r h hv
  rw [hclean] at hc
  simp only [Option.some.injEq] at hc
  subst hc
  have hs : (JSValue.string s).truthy = true := by
    by_contra hne
    simp only [Bool.not_eq_true] at hne
    simp only [validateEnterpriseName, hne, Bool.not_false, if_true, Except.ok.injEq] at h
    subst h
    simp at hv
  simp only [validateEnterpriseName, hs, Bool.not_true, Bool.false_eq_true, if_false] at h
  have hgoal : validateEnterpriseName (.string (trim s)) =
      .ok ⟨true, "Valid enterprise name", some (.string (trim s))⟩ := by
    simp only [validateEnterpriseName, htr, Bool.not_true, Bool.false_eq_true, if_false,
      trim_trim]
    split_ifs at h ⊢ with h1 h2 h3
    all_goals first
      | rfl
      | (simp only [Except.ok.injEq] at h
         subst h
         simp at hv)
  exact ⟨_, hgoal, rfl, rfl⟩

/-- C29: for each of the string validators `validateAadhaar`, `validatePAN`,
`validateGSTIN`, `validateMobile`, `validatePincode`, `validateIFSC` and
`validateEnterpriseName`, normalization is idempotent: whenever the validator
accepts an input and returns the clean value `c`, it also accepts `c` and
returns the clean value `c` again. -/
theorem validators_idempotent (P : Platform) :
    IdempotentNormalization (fun aadhaar => .ok (validateAadhaar aadhaar)) ∧
    IdempotentNormalization (validatePAN P) ∧
    IdempotentNormalization (validateGSTIN P) ∧
    IdempotentNormalization validateMobile ∧
    IdempotentNormalization validatePincode ∧
    IdempotentNormalization (validateIFSC P) ∧
    IdempotentNormalization validateEnterpriseName := by
  refine ⟨validateAadhaar_idempotent, ?_, ?_, ?_, ?_, ?_, validateEnterpriseName_idempotent⟩
  · rw [validatePAN_eq]
    refine patternValidator_idempotent _ _ _ _ _ _ _ _ rfl (by decide) (fun s hm => ?_)
    apply normalize_eq_self
    intro c hc
    obtain ⟨run, hrun, hcls⟩ := matchRuns_class _ _ hm c hc
    apply isDigitOrUpper_of_pattern_class
    simp only [List.mem_cons, List.mem_singleton, List.not_mem_nil, or_false] at hrun
    rcases hrun with rfl | rfl | rfl <;> simp only at hcls <;> simp [hcls]
  · rw [validateGSTIN_eq]
    refine patternValidator_idempotent _ _ _ _ _ _ _ _ rfl (by decide) (fun s hm => ?_)
    apply normalize_eq_self
    intro c hc
    obtain ⟨run, hrun, hcls⟩ := matchRuns_class _ _ hm c hc
    apply isDigitOrUpper_of_pattern_class
    simp only [List.mem_cons, List.mem_singleton, List.not_mem_nil, or_false] at hrun
    rcases hrun with rfl | rfl | rfl | rfl | rfl | rfl | rfl <;> simp only at hcls <;>
      simp [hcls]
  · rw [validateMobile_eq]
    refine patternValidator_idempotent _ _ _ _ _ _ _ _ rfl (by decide) (fun s hm => ?_)
    have hdig : ∀ c ∈ s.data, isDigit c = true := by
      intro c hc
      obtain ⟨run, hrun, hcls⟩ := matchRuns_class _ _ hm c hc
      simp only [List.mem_cons, List.mem_singleton, List.not_mem_nil, or_false] at hrun
      rcases hrun with rfl | rfl
      · exact isSixToNine_isDigit hcls
      · exact hcls
    have hf : s.data.filter (fun c => !isMobileFormatting c) = s.data := by
      rw [List.filter_eq_self]
      intro c hc
      have h1 := hdig c hc
      have h2 := isDigit_not_whiteSpace h1
      simp only [isDigit, Bool.and_eq_true, decide_eq_true_eq] at h1
      simp only [isMobileFormatting, h2, Bool.false_or, Bool.not_eq_true',
        Bool.or_eq_false_iff, beq_eq_false_iff_ne, ne_eq]
      omega
    simp only [hf]
  · rw [validatePincode_eq]
    refine patternValidator_idempotent _ _ _ _ _ _ _ _ rfl (by decide) (fun s hm => ?_)
    apply removeWhitespace_eq_self
    intro c hc
    obtain ⟨hl, hdig⟩ := (matchRuns_single _ _ _).mp hm
    exact isDigit_not_whiteSpace (hdig c hc)
  · rw [validateIFSC_eq]
    refine patternValidator_idempotent _ _ _ _ _ _ _ _ rfl (by decide) (fun s hm => ?_)
    apply normalize_eq_self
    intro c hc
    obtain ⟨run, hrun, hcls⟩ := matchRuns_class _ _ hm c hc
    apply isDigitOrUpper_of_pattern_class
    simp only [List.mem_cons, List.mem_singleton, List.not_mem_nil, or_false] at hrun
    rcases hrun with rfl | rfl | rfl <;> simp only at hcls <;> simp [hcls]

/-! ## The grouping of the identity number -/

theorem groupTwelveDigits_twelve (cs : List Char) (hl : cs.length = 12)
    (hd : ∀ c ∈ cs, isDigit c = true) :
    groupTwelveDigits cs =
      cs.take 4 ++ [' '] ++ (cs.drop 4).take 4 ++ [' '] ++ (cs.drop 8).take 4 := by
  cases cs with
  | nil => simp at hl
  | cons c rest =>
    have htake : (c :: rest).take 12 = c :: rest := by
      rw [← hl]
      exact List.take_length _
    have hdrop : (c :: rest).drop 12 = [] := by
      rw [← hl]
      exact List.drop_length _
    have hall : (c :: rest).all isDigit = true := List.all_eq_true.mpr hd
    rw [groupTwelveDigits, htake, hdrop, hall, hl]
    simp

theorem filter_whitespace_digits (cs : List Char) (hd : ∀ c ∈ cs, isDigit c = true) :
    cs.filter (fun c => !isWhiteSpace c) = cs := by
  rw [List.filter_eq_self]
  intro c hc
  simp [isDigit_not_whiteSpace (hd c hc)]

/-- C27: for every string of 12 decimal digits, optionally separated by
whitespace, `formatFieldValue(value, 'aadhaar')` returns the digits as three
groups of 4 separated by single blanks; removing the whitespace from the
result gives back the 12 digits, and formatting the result again leaves it
unchanged. -/
theorem formatFieldValue_aadhaar (P : Platform) (s : String)
    (hl : (removeWhitespace s).data.length = 12)
    (hd : ∀ c ∈ (removeWhitespace s).data, isDigit c = true) :
    ∃ a b c : List Char,
      formatFieldValue P (.string s) "aadhaar" =
        .ok (.string ⟨a ++ [' '] ++ b ++ [' '] ++ c⟩) ∧
      a.length = 4 ∧ b.length = 4 ∧ c.length = 4 ∧
      a ++ b ++ c = (removeWhitespace s).data ∧
      removeWhitespace ⟨a ++ [' '] ++ b ++ [' '] ++ c⟩ = removeWhitespace s ∧
      formatFieldValue P (.string ⟨a ++ [' '] ++ b ++ [' '] ++ c⟩) "aadhaar" =
        .ok (.string ⟨a ++ [' '] ++ b ++ [' '] ++ c⟩) := by
  set cs := (removeWhitespace s).data with hcs
  have hs : (JSValue.string s).truthy = true := by
    simp only [JSValue.truthy, Bool.not_eq_true', List.isEmpty_eq_false]
    intro hnil
    simp [hcs, removeWhitespace, hnil] at hl
  have habc : cs.take 4 ++ (cs.drop 4).take 4 ++ (cs.drop 8).take 4 = cs := by
    have h1 : (cs.drop 8).take 4 = cs.drop 8 := by
      apply List.take_of_length_le
      rw [List.length_drop]
      omega
    have h2 : cs.drop 8 = (cs.drop 4).drop 4 := by rw [List.drop_drop]
    rw [h1, h2, List.append_assoc, List.take_append_drop, List.take_append_drop]
  have hda : ∀ x ∈ cs.take 4, isDigit x = true := fun x hx => hd x (List.mem_of_mem_take hx)
  have hdb : ∀ x ∈ (cs.drop 4).take 4, isDigit x = true :=
    fun x hx => hd x (List.mem_of_mem_drop (List.mem_of_mem_take hx))
  have hdc : ∀ x ∈ (cs.drop 8).take 4, isDigit x = true :=
    fun x hx => hd x (List.mem_of_mem_drop (List.mem_of_mem_take hx))
  have hstrip : removeWhitespace
      ⟨cs.take 4 ++ [' '] ++ (cs.drop 4).take 4 ++ [' '] ++ (cs.drop 8).take 4⟩ =
      removeWhitespace s := by
    have hblank : [' '].filter (fun c => !isWhiteSpace c) = [] := by decide
    have : removeWhitespace s = ⟨cs⟩ := rfl
    rw [this]
    simp only [removeWhitespace, List.filter_append, filter_whitespace_digits _ hda,
      filter_whitespace_digits _ hdb, filter_whitespace_digits _ hdc, hblank, List.append_nil]
    rw [habc]
  have hfirst : formatFieldValue P (.string s) "aadhaar" =
      .ok (.string ⟨cs.take 4 ++ [' '] ++ (cs.drop 4).take 4 ++ [' '] ++ (cs.drop 8).take 4⟩) := by
    simp only [formatFieldValue, hs, Bool.not_true, Bool.false_eq_true, if_false, if_true,
      ← hcs, groupTwelveDigits_twelve cs hl hd]
  refine ⟨cs.take 4, (cs.drop 4).take 4, (cs.drop 8).take 4, hfirst, ?_, ?_, ?_, habc, hstrip, ?_⟩
  · rw [List.length_take]; omega
  · rw [List.length_take, List.length_drop]; omega
  · rw [List.length_take, List.length_drop]; omega
  · have ht : (JSValue.string
        ⟨cs.take 4 ++ [' '] ++ (cs.drop 4).take 4 ++ [' '] ++ (cs.drop 8).take 4⟩).truthy =
        true := by
      simp [JSValue.truthy]
    simp only [formatFieldValue, ht, Bool.not_true, Bool.false_eq_true, if_false, if_true,
      hstrip, ← hcs, groupTwelveDigits_twelve cs hl hd]

/-- C27 at a concrete input: the number of the test suite, written with blanks
in other places. -/
theorem formatFieldValue_aadhaar_witness :
    (removeWhitespace "12 3456 789012").data.length = 12 ∧
    (∀ c ∈ (removeWhitespace "12 3456 789012").data, isDigit c = true) ∧
    formatFieldValue examplePlatform (.string "12 3456 789012") "aadhaar" =
      .ok (.string "1234 5678 9012") ∧
    ∃ a b c : List Char,
      formatFieldValue examplePlatform (.string "12 3456 789012") "aadhaar" =
        .ok (.string ⟨a ++ [' '] ++ b ++ [' '] ++ c⟩) ∧
      a.length = 4 ∧ b.length = 4 ∧ c.length = 4 ∧
      a ++ b ++ c = (removeWhitespace "12 3456 789012").data ∧
      removeWhitespace ⟨a ++ [' '] ++ b ++ [' '] ++ c⟩ = removeWhitespace "12 3456 789012" ∧
      formatFieldValue examplePlatform (.string ⟨a ++ [' '] ++ b ++ [' '] ++ c⟩) "aadhaar" =
        .ok (.string ⟨a ++ [' '] ++ b ++ [' '] ++ c⟩) :=
  ⟨by decide, by decide, rfl,
    formatFieldValue_aadhaar examplePlatform "12 3456 789012" (by decide) (by decide)⟩

/-! ## The browse view -/

theorem startsWithChars_iff (needle hay : List Char) :
    startsWithChars needle hay = true ↔ ∃ after, hay = needle ++ after := by
  induction needle generalizing hay with
  | nil => simp [startsWithChars]
  | cons a needle ih =>
    cases hay with
    | nil => simp [startsWithChars]
    | cons b hay =>
      simp only [startsWithChars, Bool.and_eq_true, beq_iff_eq, ih, List.cons_append,
        List.cons.injEq]
      constructor
      · rintro ⟨rfl, after, rfl⟩
        exact ⟨after, rfl, rfl⟩
      · rintro ⟨after, rfl, rfl⟩
        exact ⟨rfl, after, rfl⟩

theorem includesChars_iff (needle hay : List Char) :
    includesChars needle hay = true ↔ ∃ before after, hay = before ++ needle ++ after := by
  induction hay with
  | nil =>
    simp only [includesChars, List.isEmpty_iff]
    constructor
    · rintro rfl
      exact ⟨[], [], rfl⟩
    · rintro ⟨before, after, h⟩
      have := congrArg List.length h
      simp only [List.length_nil, List.length_append] at this
      exact List.length_eq_zero.mp (by omega)
  | cons c hay ih =>
    simp only [includesChars, Bool.or_eq_true, startsWithChars_iff, ih]
    constructor
    · rintro (⟨after, h⟩ | ⟨before, after, h⟩)
      · exact ⟨[], after, by simpa using h⟩
      · exact ⟨c :: before, after, by simp [h]⟩
    · rintro ⟨before, after, h⟩
      cases before with
      | nil => exact Or.inl ⟨after, by simpa using h⟩
      | cons b before =>
        simp only [List.cons_append, List.cons.injEq] at h
        exact Or.inr ⟨before, after, h.2⟩

theorem includes_iff (hay needle : String) :
    includes hay needle = true ↔ ContainsChars hay needle :=
  includesChars_iff needle.data hay.data

theorem isDigit_of_toLower {c : Char} (h : isDigit c.toLower = true) : isDigit c = true := by
  by_cases hc : c.toNat ≥ 65 ∧ c.toNat ≤ 90
  · exfalso
    have hof : c = Char.ofNat c.toNat := (Char.ofNat_toNat c).symm
    obtain ⟨h1, h2⟩ := hc
    generalize c.toNat = n at hof h1 h2
    subst hof
    interval_cases n <;> exact absurd h (by decide)
  · have : c.toLower = c := by
      unfold Char.toLower
      simp only
      rw [if_neg hc]
    rwa [this] at h

theorem toLower_eq_self_of_isDigit {c : Char} (h : isDigit c = true) : c.toLower = c := by
  simp only [isDigit, Bool.and_eq_true, decide_eq_true_eq] at h
  unfold Char.toLower
  simp only
  rw [if_neg]
  omega

theorem toLowerCase_digits (P : Platform) (s : String)
    (h : ∀ c ∈ s.data, isDigit c = true) : toLowerCase P s = s := by
  have hascii : s.data.all (fun c => c.toNat < 128) = true := by
    rw [List.all_eq_true]
    intro c hc
    have := h c hc
    simp only [isDigit, Bool.and_eq_true, decide_eq_true_eq] at this
    simp only [decide_eq_true_eq]
    omega
  have hmap : s.data.map Char.toLower = s.data := by
    conv_rhs => rw [← List.map_id s.data]
    apply List.map_congr_left
    intro c hc
    exact toLower_eq_self_of_isDigit (h c hc)
  simp only [toLowerCase, hascii, if_true, hmap]

/-- A term whose lower-case form is made of digits is made of digits. -/
theorem digits_of_toLowerCase (P : Platform) (hP : LowerCaseKeepsNonDigits P) (t : String)
    (h : ∀ c ∈ (toLowerCase P t).data, isDigit c = true) : ∀ c ∈ t.data, isDigit c = true := by
  unfold toLowerCase at h
  split_ifs at h with hascii
  · intro c hc
    apply isDigit_of_toLower
    apply h
    exact List.mem_map_of_mem _ hc
  · exact hP t h

/-- On a number made of digits, the containment test without case mapping
agrees with the case-insensitive one. -/
theorem includes_digits_iff (P : Platform) (hP : LowerCaseKeepsNonDigits P)
    (number term : String) (hd : ∀ c ∈ number.data, isDigit c = true) :
    includes number term = true ↔ ContainsIgnoringCase P number term := by
  rw [includes_iff]
  unfold ContainsIgnoringCase
  rw [toLowerCase_digits P number hd]
  constructor
  · rintro ⟨before, after, h⟩
    have ht : ∀ c ∈ term.data, isDigit c = true := by
      intro c hc
      apply hd
      rw [h]
      simp [hc]
    rw [toLowerCase_digits P term ht]
    exact ⟨before, after, h⟩
  · rintro ⟨before, after, h⟩
    have hl : ∀ c ∈ (toLowerCase P term).data, isDigit c = true := by
      intro c hc
      apply hd
      rw [h]
      simp [hc]
    have ht := digits_of_toLowerCase P hP term hl
    rw [toLowerCase_digits P term ht] at h
    exact ⟨before, after, h⟩

theorem string_isEmpty_iff (s : String) : s.data.isEmpty = true ↔ s = "" := by
  cases s with
  | mk data =>
    simp only [List.isEmpty_iff]
    constructor
    · rintro rfl
      rfl
    · intro h
      exact congrArg String.data h

/-- The test of the filter on one entry with a number made of digits. -/
theorem browse_test_iff (P : Platform) (hP : LowerCaseKeepsNonDigits P)
    (term activity : String) (reg : ListedRegistration)
    (hd : ∀ c ∈ reg.aadhaarNumber.data, isDigit c = true) :
    ((term.data.isEmpty ||
        includes (toLowerCase P reg.entrepreneurName) (toLowerCase P term) ||
        includes (toLowerCase P reg.enterpriseName) (toLowerCase P term) ||
        includes reg.aadhaarNumber term ||
        includes (toLowerCase P reg.panNumber) (toLowerCase P term)) &&
      (activity.data.isEmpty || reg.majorActivity == activity)) = true ↔
    MatchesBrowse P term activity reg := by
  simp only [Bool.and_eq_true, Bool.or_eq_true, string_isEmpty_iff, beq_iff_eq,
    includes_digits_iff P hP _ term hd, includes_iff, MatchesBrowse, ContainsIgnoringCase,
    or_assoc]

/-- C24: for every list of registrations whose `aadhaarNumber` fields are
digit strings, every search term and every activity filter,
`filteredRegistrations` is the sublist, in the original order, of exactly
those entries for which the search term is empty or `entrepreneurName`,
`enterpriseName`, `aadhaarNumber` or `panNumber` contains the term compared
case-insensitively, and the filter is empty or `majorActivity` is equal to
the filter; with both empty the whole list is returned.  The lower-case
mapping of the platform is taken to yield digits only from digits. -/
theorem filteredRegistrations_spec (P : Platform) (hP : LowerCaseKeepsNonDigits P)
    (registrations : List ListedRegistration) (term activity : String)
    (hd : ∀ reg ∈ registrations, ∀ c ∈ reg.aadhaarNumber.data, isDigit c = true) :
    (∀ p : ListedRegistration → Bool, (∀ reg, p reg = true ↔ MatchesBrowse P term activity reg) →
      filteredRegistrations P registrations term activity = registrations.filter p) ∧
    (filteredRegistrations P registrations term activity).Sublist registrations ∧
    (∀ reg, reg ∈ filteredRegistrations P registrations term activity ↔
      reg ∈ registrations ∧ MatchesBrowse P term activity reg) ∧
    filteredRegistrations P registrations "" "" = registrations := by
  refine ⟨?_, List.filter_sublist _, ?_, ?_⟩
  · intro p hp
    unfold filteredRegistrations
    apply List.filter_congr
    intro reg hreg
    rw [Bool.eq_iff_iff, hp reg]
    exact browse_test_iff P hP term activity reg (hd reg hreg)
  · intro reg
    unfold filteredRegistrations
    rw [List.mem_filter]
    constructor
    · rintro ⟨hreg, h⟩
      exact ⟨hreg, (browse_test_iff P hP term activity reg (hd reg hreg)).mp h⟩
    · rintro ⟨hreg, h⟩
      exact ⟨hreg, (browse_test_iff P hP term activity reg (hd reg hreg)).mpr h⟩
  · unfold filteredRegistrations
    rw [List.filter_eq_self]
    intro reg _
    rfl

/-- C24 at a concrete input: the search for `John` with the filter `Trading`
keeps the first of two entries; the second has the term in its enterprise name
and another activity. -/
theorem filteredRegistrations_spec_witness :
    (LowerCaseKeepsNonDigits examplePlatform ∧
      (∀ reg ∈ exampleListing, ∀ c ∈ reg.aadhaarNumber.data, isDigit c = true) ∧
      filteredRegistrations examplePlatform exampleListing "John" "Trading" =
        exampleListing.take 1 ∧
      filteredRegistrations examplePlatform exampleListing "John" "" = exampleListing) ∧
    ((∀ p : ListedRegistration → Bool,
        (∀ reg, p reg = true ↔ MatchesBrowse examplePlatform "John" "Trading" reg) →
        filteredRegistrations examplePlatform exampleListing "John" "Trading" =
          exampleListing.filter p) ∧
      (filteredRegistrations examplePlatform exampleListing "John" "Trading").Sublist
        exampleListing ∧
      (∀ reg, reg ∈ filteredRegistrations examplePlatform exampleListing "John" "Trading" ↔
        reg ∈ exampleListing ∧ MatchesBrowse examplePlatform "John" "Trading" reg) ∧
      filteredRegistrations examplePlatform exampleListing "" "" = exampleListing) :=
  ⟨⟨fun _ h => h, by decide, by decide, by decide⟩,
    filteredRegistrations_spec examplePlatform (fun _ h => h) exampleListing "John" "Trading"
      (by decide)⟩

/-! ## The validation of the submission form -/

theorem matchRunsAtStart_iff (runs : List ((Char → Bool) × Nat)) (cs : List Char) :
    matchRunsAtStart runs cs = true ↔ ∃ a b, cs = a ++ b ∧ matchRuns runs a = true := by
  induction runs generalizing cs with
  | nil =>
    simp only [matchRunsAtStart, matchRuns, List.isEmpty_iff, true_iff]
    exact ⟨[], cs, rfl, rfl⟩
  | cons run rest ih =>
    obtain ⟨cls, n⟩ := run
    simp only [matchRunsAtStart, matchRuns, Bool.and_eq_true, beq_iff_eq, ih]
    constructor
    · rintro ⟨⟨h1, h2⟩, a, b, h3, h4⟩
      have hlen : (cs.take n).length = n := h1
      refine ⟨cs.take n ++ a, b, ?_, ?_⟩
      · rw [List.append_assoc, ← h3, List.take_append_drop]
      · have e1 : (cs.take n ++ a).take n = cs.take n := List.take_left' hlen
        have e2 : (cs.take n ++ a).drop n = a := List.drop_left' hlen
        rw [e1, e2]
        exact ⟨⟨h1, h2⟩, h4⟩
    · rintro ⟨a, b, rfl, ⟨h1, h2⟩, h3⟩
      have hn : n ≤ a.length := by
        rw [List.length_take] at h1
        omega
      have e1 : (a ++ b).take n = a.take n := List.take_append_of_le_length hn
      have e2 : (a ++ b).drop n = a.drop n ++ b := List.drop_append_of_le_length hn
      rw [e1, e2]
      exact ⟨⟨h1, h2⟩, a.drop n, b, rfl, h3⟩

theorem searchRuns_iff (runs : List ((Char → Bool) × Nat)) (cs : List Char) :
    searchRuns runs cs = true ↔
      ∃ before mid after, cs = before ++ mid ++ after ∧ matchRuns runs mid = true := by
  induction cs with
  | nil =>
    simp only [searchRuns, matchRunsAtStart_iff]
    constructor
    · rintro ⟨a, b, h, hm⟩
      exact ⟨[], a, b, by simpa using h, hm⟩
    · rintro ⟨before, mid, after, h, hm⟩
      have := congrArg List.length h
      simp only [List.length_nil, List.length_append] at this
      have hb : before = [] := List.length_eq_zero.mp (by omega)
      subst hb
      exact ⟨mid, after, by simpa using h, hm⟩
  | cons c cs ih =>
    simp only [searchRuns, Bool.or_eq_true, matchRunsAtStart_iff, ih]
    constructor
    · rintro (⟨a, b, h, hm⟩ | ⟨before, mid, after, h, hm⟩)
      · exact ⟨[], a, b, by simpa using h, hm⟩
      · exact ⟨c :: before, mid, after, by simp [h], hm⟩
    · rintro ⟨before, mid, after, h, hm⟩
      cases before with
      | nil => exact Or.inl ⟨mid, after, by simpa using h, hm⟩
      | cons b before =>
        simp only [List.cons_append, List.cons.injEq] at h
        exact Or.inr ⟨before, mid, after, h.2, hm⟩

/-- A pattern of fixed length that is tested without anchors, together with a
bound on the length by that fixed length, is a test of the entire value. -/
theorem searchRuns_bounded_iff (runs : List ((Char → Bool) × Nat)) (value : String)
    (hbmp : ∀ run ∈ runs, ∀ x, run.1 x = true → x.toNat < 65536) :
    (searchRuns runs value.data = true ∧ jsLength value ≤ (runs.map (fun run => run.2)).sum) ↔
      matchRuns runs value.data = true := by
  constructor
  · rintro ⟨hs, hlen⟩
    obtain ⟨before, mid, after, h, hm⟩ := (searchRuns_iff runs _).mp hs
    have hmid := (SplitsInto.jsLength_eq runs mid hbmp ((matchRuns_iff runs mid).mp hm)).2
    have hle := length_le_jsLength value
    rw [h] at hle
    simp only [List.length_append] at hle
    have hb : before = [] := List.length_eq_zero.mp (by omega)
    have ha : after = [] := List.length_eq_zero.mp (by omega)
    subst hb ha
    rw [h]
    simpa using hm
  · intro hm
    have hj := (SplitsInto.jsLength_eq runs value.data hbmp
      ((matchRuns_iff runs _).mp hm)).1
    refine ⟨(searchRuns_iff runs _).mpr ⟨[], value.data, [], by simp, hm⟩, ?_⟩
    have : value = ⟨value.data⟩ := rfl
    rw [this, hj]

theorem inRanges_bounds (ranges : CharRanges) (x : Char)
    (hr : ranges.all (fun r => decide (33 ≤ r.1.toNat) && decide (r.2.toNat ≤ 126)) = true)
    (h : inRanges ranges x = true) : 33 ≤ x.toNat ∧ x.toNat ≤ 126 := by
  simp only [inRanges, List.any_eq_true, Bool.and_eq_true, decide_eq_true_eq] at h
  obtain ⟨r, hmem, h1, h2⟩ := h
  have := List.all_eq_true.mp hr r hmem
  simp only [Bool.and_eq_true, decide_eq_true_eq] at this
  omega

theorem trim_eq_self (s : String) (h : ∀ c ∈ s.data, isWhiteSpace c = false) : trim s = s := by
  unfold trim
  have h1 : s.data.dropWhile isWhiteSpace = s.data := by
    cases hs : s.data with
    | nil => rfl
    | cons c rest =>
      rw [List.dropWhile_cons, h c (by rw [hs]; exact List.mem_cons_self _ _)]
      simp
  have h2 : s.data.reverse.dropWhile isWhiteSpace = s.data.reverse := by
    cases hs : s.data.reverse with
    | nil => rfl
    | cons c rest =>
      have hc : c ∈ s.data := by
        rw [← List.mem_reverse, hs]
        exact List.mem_cons_self _ _
      rw [List.dropWhile_cons, h c hc]
      simp
  simp only [h1, h2, List.reverse_reverse]

/-- The validation of a field whose pattern has a fixed length equal to its
maximum length. -/
theorem validateField_fixed_pattern (P : Platform) (toNumber : String → JSNumber)
    (field : SchemaField) (pattern : String) (atoms : List (CharRanges × Nat))
    (hpattern : field.pattern = some pattern) (hne : pattern.data.isEmpty = false)
    (hread : readPattern (pattern.data.length + 1) pattern.data = some atoms)
    (hmax : field.maxLength = some ((atoms.map (fun atom => atom.2)).sum))
    (hpos : (atoms.map (fun atom => atom.2)).sum ≠ 0)
    (htype : (field.type == "number") = false)
    (hranges : atoms.all (fun atom =>
      atom.1.all (fun r => decide (33 ≤ r.1.toNat) && decide (r.2.toNat ≤ 126))) = true)
    (value : String) (hv : value ≠ "") :
    UdyamRegistrationForm.validateField P toNumber field value = none ↔
      matchRuns (patternRuns atoms) value.data = true := by
  have hcls : ∀ run ∈ patternRuns atoms, ∀ x, run.1 x = true →
      33 ≤ x.toNat ∧ x.toNat ≤ 126 := by
    intro run hrun x hx
    simp only [patternRuns, List.mem_map] at hrun
    obtain ⟨atom, hatom, rfl⟩ := hrun
    exact inRanges_bounds atom.1 x (List.all_eq_true.mp hranges atom hatom) hx
  have hbmp : ∀ run ∈ patternRuns atoms, ∀ x, run.1 x = true → x.toNat < 65536 := by
    intro run hrun x hx
    have := hcls run hrun x hx
    omega
  have hsum : ((patternRuns atoms).map (fun run => run.2)).sum =
      (atoms.map (fun atom => atom.2)).sum := by
    simp [patternRuns, List.map_map, Function.comp_def]
  have hbound := searchRuns_bounded_iff (patternRuns atoms) value hbmp
  rw [hsum] at hbound
  have hvalue : value.data.isEmpty = false := by
    cases hd : value.data.isEmpty with
    | false => rfl
    | true => exact absurd ((string_isEmpty_iff value).mp hd) hv
  have htest : regExpTest pattern value = searchRuns (patternRuns atoms) value.data := by
    simp only [regExpTest, hread]
  have hbne : ((atoms.map (fun atom => atom.2)).sum != 0) = true := by simpa using hpos
  simp only [UdyamRegistrationForm.validateField, hpattern, hmax, hne, hvalue, htest, htype,
    hbne, Bool.not_false, Bool.true_and, Bool.false_or, Bool.false_and, Bool.false_eq_true,
    if_false, Option.getD_some]
  by_cases hm : matchRuns (patternRuns atoms) value.data = true
  · obtain ⟨hs, hlen⟩ := hbound.mpr hm
    have hws : ∀ c ∈ value.data, isWhiteSpace c = false := by
      intro c hc
      obtain ⟨run, hrun, hx⟩ := matchRuns_class _ _ hm c hc
      have := hcls run hrun c hx
      simp only [isWhiteSpace, Bool.or_eq_false_iff, beq_eq_false_iff_ne, ne_eq,
        Bool.and_eq_false_imp, decide_eq_true_eq, decide_eq_false_iff_not]
      omega
    have hgt : decide (jsLength value > (atoms.map (fun atom => atom.2)).sum) = false := by
      simp only [gt_iff_lt, decide_eq_false_iff_not, not_lt]
      exact hlen
    simp only [trim_eq_self value hws, hvalue, Bool.and_false, Bool.false_eq_true, if_false, hs,
      Bool.not_true, hgt, hm]
  · have hrest : searchRuns (patternRuns atoms) value.data = false ∨
        decide (jsLength value > (atoms.map (fun atom => atom.2)).sum) = true := by
      cases hs : searchRuns (patternRuns atoms) value.data with
      | false => exact Or.inl rfl
      | true =>
        right
        simp only [gt_iff_lt, decide_eq_true_eq]
        by_contra hle
        exact hm (hbound.mp ⟨hs, by omega⟩)
    simp only [hm, iff_false]
    split_ifs with h1 h2 h3
    · simp
    · simp
    · simp
    · exfalso
      rcases hrest with hs | hg
      · simp [hs] at h2
      · simp only [hg] at h3
        exact h3 trivial

theorem formSchema_fixed_length : formSchema.all hasFixedLengthPattern = true := by
  decide

/-- C30: for every field of the served form schema that declares a pattern
(`aadhaarNumber`, `panNumber`, `gstinNumber`, `pincode`, `mobileNumber`,
`ifscCode`) and every non-empty string value, the `validateField` of the
submission form reports no error if and only if the entire value matches the
pattern of the field: the maximum length of each such field is the fixed
length of its pattern, so that a match of a part of the value is rejected by
the length check. -/
theorem validateField_pattern_fields (P : Platform) (toNumber : String → JSNumber)
    (field : SchemaField) (pattern value : String)
    (hfield : field ∈ formSchema) (hpattern : field.pattern = some pattern)
    (hv : value ≠ "") :
    (formSchema.filter (fun f => f.pattern.isSome)).map (fun f => f.name) =
      ["aadhaarNumber", "panNumber", "gstinNumber", "pincode", "mobileNumber", "ifscCode"] ∧
    ∃ atoms, readPattern (pattern.data.length + 1) pattern.data = some atoms ∧
      field.maxLength = some ((atoms.map (fun atom => atom.2)).sum) ∧
      (UdyamRegistrationForm.validateField P toNumber field value = none ↔
        matchRuns (patternRuns atoms) value.data = true) := by
  refine ⟨by decide, ?_⟩
  have hok := List.all_eq_true.mp formSchema_fixed_length field hfield
  unfold hasFixedLengthPattern at hok
  rw [hpattern] at hok
  simp only at hok
  cases hread : readPattern (pattern.data.length + 1) pattern.data with
  | none => rw [hread] at hok; simp at hok
  | some atoms =>
    rw [hread] at hok
    simp only [Bool.and_eq_true, Bool.not_eq_true', beq_iff_eq, bne_iff_ne, ne_eq] at hok
    obtain ⟨⟨⟨⟨hne, hmax⟩, hpos⟩, htype⟩, hranges⟩ := hok
    exact ⟨atoms, rfl, hmax,
      validateField_fixed_pattern P toNumber field pattern atoms hpattern hne hread hmax hpos
        htype hranges value hv⟩

/-- C30 at a concrete input: the field `aadhaarNumber` and a value of twelve
digits; a value of thirteen digits has a part that matches and is
rejected. -/
theorem validateField_pattern_fields_witness :
    (aadhaarField ∈ formSchema ∧ aadhaarField.pattern = some "[0-9]{12}" ∧
      "123456789012" ≠ "" ∧
      UdyamRegistrationForm.validateField examplePlatform parseFloatString aadhaarField
        "123456789012" = none ∧
      regExpTest "[0-9]{12}" "1234567890123" = true ∧
      UdyamRegistrationForm.validateField examplePlatform parseFloatString aadhaarField
        "1234567890123" ≠ none) ∧
    ((formSchema.filter (fun f => f.pattern.isSome)).map (fun f => f.name) =
      ["aadhaarNumber", "panNumber", "gstinNumber", "pincode", "mobileNumber", "ifscCode"] ∧
    ∃ atoms, readPattern ("[0-9]{12}".data.length + 1) "[0-9]{12}".data = some atoms ∧
      aadhaarField.maxLength = some ((atoms.map (fun atom => atom.2)).sum) ∧
      (UdyamRegistrationForm.validateField examplePlatform parseFloatString aadhaarField
          "123456789012" = none ↔
        matchRuns (patternRuns atoms) "123456789012".data = true)) :=
  ⟨⟨by decide, rfl, by decide, by rfl, by decide, by decide⟩,
    validateField_pattern_fields examplePlatform parseFloatString aadhaarField "[0-9]{12}"
      "123456789012" (by decide) rfl (by decide)⟩


end Udyam
